import Mathlib

/-!
# AstroFinance: the balance-consistency workflow

A shallow embedding of the code paths of the AstroFinance web application that
move money: the transaction form (`TransactionModal.jsx`), the deletion of a
transaction (`TransactionsPage.jsx`), the loan payment
(`MakeLoanPaymentModal.jsx`, `LoansPage.jsx`) and the contribution to and
withdrawal from a savings goal (`ContributeToGoalModal.jsx`,
`WithdrawFromGoalModal.jsx`).

Modelling conventions.

* Amounts are Chilean pesos. A JavaScript number is modelled by an `Int`; the
  arithmetic of the source (`+`, `-`, comparisons, `Math.max`, `Math.min`) is
  exact on integers of magnitude below 2^53.
* A quotient is not an integer: `/` and the products that follow it are computed
  in double precision (`Double`), rounding to nearest with ties to even, and
  `Math.round` is applied to the rounded quotient as in the source.
* A document field that may be missing is an `Option`; the text of a numeric
  input is an `Option Int`, `none` being the empty text, which `parseFloat` and
  `parseInt` turn into NaN. A stored NaN reads as a missing number.
* The length of a string is its number of UTF-16 code units and `trim` removes
  the white space and the line terminators of JavaScript.
* The Firestore database of one user is a `Store`. A write batch is a list of
  `Write`s that `commit` applies all together or not at all.
* Document ids are natural numbers; the id Firestore generates for a new
  document is a parameter `newId`.
-/

namespace AstroFinance

/-! ## Data model -/

/-- JavaScript `x || d` on a numeric field that may be missing: the fallback `d`
is taken when the field is absent and also when it holds the falsy number 0. -/
def jsOr (x : Option Int) (d : Int) : Int :=
  match x with
  | some v => if v = 0 then d else v
  | none => d

/-- The characters `String.prototype.trim` removes: the white space of
JavaScript (tab, vertical tab, form feed, space, no-break space, the byte order
mark and the other space separators of Unicode) and its line terminators (line
feed, carriage return, line separator, paragraph separator). -/
def isWhiteSpace (c : Char) : Bool :=
  c.toNat == 0x09 || c.toNat == 0x0A || c.toNat == 0x0B || c.toNat == 0x0C ||
    c.toNat == 0x0D || c.toNat == 0x20 || c.toNat == 0xA0 || c.toNat == 0x1680 ||
    (decide (0x2000 ≤ c.toNat) && decide (c.toNat ≤ 0x200A)) || c.toNat == 0x2028 ||
    c.toNat == 0x2029 || c.toNat == 0x202F || c.toNat == 0x205F || c.toNat == 0x3000 ||
    c.toNat == 0xFEFF

/-- The method `trim` of a JavaScript string: white space and line terminators
are removed at both ends. -/
def trim (s : String) : String :=
  String.mk ((s.data.dropWhile isWhiteSpace).reverse.dropWhile isWhiteSpace).reverse

/-- The property `length` of a JavaScript string: its number of UTF-16 code
units, two for a character outside the basic multilingual plane. A text is a
sequence of Unicode characters here, so an unpaired surrogate is not
represented. -/
def jsLength (s : String) : Nat :=
  (s.data.map (fun c => if c.toNat < 0x10000 then 1 else 2)).sum

/-- The `type` of a transaction: the texts 'income' and 'expense'. -/
inductive TransactionType where
  | income
  | expense
  deriving DecidableEq

/-- The payment methods of the form: 'Débito', 'Crédito' and 'Efectivo'. -/
inductive PaymentMethod where
  | debito
  | credito
  | efectivo
  deriving DecidableEq

/-- A document of the `transactions` collection. The transactions written by the
goal modals carry no `paymentMethod` and no `bankName`. -/
structure Transaction where
  description : String
  amount : Int
  type : TransactionType
  category : String
  paymentMethod : Option PaymentMethod
  bankName : Option String
  date : Int
  deriving DecidableEq

/-- The document of the user in `userFinancials`: the Balance Aggregate. -/
structure UserFinancials where
  debitBalance : Option Int
  creditLimit : Option Int
  usedCredit : Option Int
  deriving DecidableEq

/-- The `status` of a loan: the texts 'active' and 'paid'. -/
inductive LoanStatus where
  | active
  | paid
  deriving DecidableEq

/-- A document of the `loans` collection. The field `installmentsPaid` is read by
`LoansPage` and is absent from the documents `AddLoanModal` writes. -/
structure Loan where
  loanName : String
  totalAmount : Int
  remainingAmount : Option Int
  installments : Int
  monthlyPayment : Int
  status : LoanStatus
  installmentsPaid : Option Int := none
  deriving DecidableEq

/-- The shape of the loan documents the application writes: an active loan holds
a positive remaining amount (or a NaN, which reads as missing), a paid loan holds
the remaining amount 0. -/
def Loan.wellFormed (loan : Loan) : Bool :=
  match loan.status, loan.remainingAmount with
  | LoanStatus.active, some remainingAmount => decide (0 < remainingAmount)
  | LoanStatus.active, none => true
  | LoanStatus.paid, some remainingAmount => decide (remainingAmount = 0)
  | LoanStatus.paid, none => false

/-- A document of the `savingGoals` collection. -/
structure SavingGoal where
  goalName : String
  targetAmount : Int
  currentAmount : Int
  deriving DecidableEq

/-- A document of the `savingGoals` collection whose `currentAmount` is NaN. -/
structure NaNGoal where
  goalName : String
  targetAmount : Int
  deriving DecidableEq

/-- The documents of one user: three collections keyed by document id and the
single `userFinancials` document, absent until first written. The goals of
`savingGoals` hold a number as `currentAmount`, and the goal modals are modelled
on them; the goal documents whose `currentAmount` is NaN are kept in `nanGoals`. -/
structure Store where
  transactions : List (Nat × Transaction)
  loans : List (Nat × Loan)
  savingGoals : List (Nat × SavingGoal)
  userFinancials : Option UserFinancials
  nanGoals : List (Nat × NaNGoal) := []
  deriving DecidableEq

/-- What a submit handler leaves behind: the store after it ran and whether it
ended with the success toast (otherwise an error toast was shown). -/
structure Outcome where
  store : Store
  success : Bool
  deriving DecidableEq

/-! ## Double-precision numbers -/

/-- A finite double-precision number, `mantissa × 2 ^ exponent`. The results of
the division and of the multiplication below have a mantissa of 53 bits; the
range of the exponent is not bounded, the numbers of this development lying far
from the overflow and underflow thresholds of the format. -/
structure Double where
  mantissa : Int
  exponent : Int
  deriving DecidableEq

namespace Double

/-- The rational number a double stands for. -/
def toRat (d : Double) : ℚ :=
  (d.mantissa : ℚ) * (2 : ℚ) ^ d.exponent

/-- The integer part of the binary logarithm, by halving at most `fuel` times. -/
def log2Loop : Nat → Nat → Nat
  | 0, _ => 0
  | fuel + 1, n => if n < 2 then 0 else log2Loop fuel (n / 2) + 1

/-- The integer part of the binary logarithm of a positive natural number. -/
def log2 (n : Nat) : Nat :=
  log2Loop n n

/-- Numerator of `(a / den) / 2 ^ e` as a fraction of natural numbers. -/
def scaledNum (a : Nat) (e : Int) : Nat :=
  if 0 ≤ e then a else a * 2 ^ (-e).toNat

/-- Denominator of `(a / den) / 2 ^ e` as a fraction of natural numbers. -/
def scaledDen (den : Nat) (e : Int) : Nat :=
  if 0 ≤ e then den * 2 ^ e.toNat else den

/-- The binary exponent of the positive fraction `a / den`: the `E` with
`2 ^ E ≤ a / den < 2 ^ (E + 1)`. -/
def binade (a den : Nat) : Int :=
  if scaledDen den ((log2 a : Int) - (log2 den : Int)) ≤
      scaledNum a ((log2 a : Int) - (log2 den : Int)) then
    (log2 a : Int) - (log2 den : Int)
  else (log2 a : Int) - (log2 den : Int) - 1

/-- The integer nearest to the fraction `n / d`, the even one of the two when
`n / d` lies half way. -/
def roundHalfEven (n d : Nat) : Nat :=
  if 2 * (n % d) < d then n / d
  else if d < 2 * (n % d) then n / d + 1
  else if (n / d) % 2 = 0 then n / d else n / d + 1

/-- The double nearest to the fraction `num / den`, for `den > 0`: rounding to
nearest, ties to even, to a mantissa of 53 bits. -/
def ofRatio (num : Int) (den : Nat) : Double :=
  if num = 0 then { mantissa := 0, exponent := 0 }
  else
    let e := binade num.natAbs den - 52
    { mantissa := Int.sign num * (roundHalfEven (scaledNum num.natAbs e) (scaledDen den e) : Int)
      exponent := e }

/-- JavaScript `a / b` on two integers that are doubles, `b` not being 0 (the
callers test it before they divide). -/
def div (a b : Int) : Double :=
  ofRatio (Int.sign b * a) b.natAbs

/-- JavaScript `d * k` on a double and an integer that is a double. -/
def mulInt (d : Double) (k : Int) : Double :=
  if 0 ≤ d.exponent then ofRatio (d.mantissa * k * 2 ^ d.exponent.toNat) 1
  else ofRatio (d.mantissa * k) (2 ^ (-d.exponent).toNat)

/-- JavaScript `d >= t` for an integer `t` that is a double. -/
def geInt (d : Double) (t : Int) : Bool :=
  if 0 ≤ d.exponent then decide (t ≤ d.mantissa * 2 ^ d.exponent.toNat)
  else decide (t * 2 ^ (-d.exponent).toNat ≤ d.mantissa)

/-- The integer a double stands for, when it stands for one (its integer part
otherwise). -/
def toInt (d : Double) : Int :=
  if 0 ≤ d.exponent then d.mantissa * 2 ^ d.exponent.toNat
  else d.mantissa / 2 ^ (-d.exponent).toNat

/-- JavaScript `a * b` on two integers that are doubles; the product rounded to
a double is an integer again. -/
def mul (a b : Int) : Int :=
  (ofRatio (a * b) 1).toInt

end Double

/-- The function `Math.round` on a double: the nearest integer, half rounded up. -/
def mathRound (d : Double) : Int :=
  if 0 ≤ d.exponent then d.mantissa * 2 ^ d.exponent.toNat
  else (2 * d.mantissa + 2 ^ (-d.exponent).toNat) / 2 ^ ((-d.exponent).toNat + 1)

/-! ## Write batches -/

/-- The writes the handlers stage in a `writeBatch`. -/
inductive Write where
  /-- The write `batch.set(transactionRef, data)` of a new transaction document. -/
  | setTransaction (id : Nat) (t : Transaction)
  /-- The write `batch.update(transactionRef, data)` of an existing transaction. -/
  | updateTransaction (id : Nat) (t : Transaction)
  /-- The write `batch.update(loanRef, updateData)`: `remainingAmount`, and
  `status` when it is part of `updateData`. -/
  | updateLoan (id : Nat) (remainingAmount : Int) (status : Option LoanStatus)
  /-- The write `batch.set(userFinancialsRef, data, merge)` of the two balances. -/
  | mergeFinancials (debitBalance usedCredit : Int)
  /-- The write `batch.update(userFinancialsRef, data)` of `debitBalance` alone. -/
  | updateFinancials (debitBalance : Int)
  /-- The write `batch.set(userFinancialsRef, data)` without merge. -/
  | setFinancials (f : UserFinancials)
  deriving DecidableEq

/-- Whether a collection holds a document with the given id. -/
def hasDoc {α : Type} (docs : List (Nat × α)) (id : Nat) : Bool :=
  docs.any (fun d => d.1 == id)

/-- The document with the given id, when there is one. -/
def getDoc? {α : Type} (docs : List (Nat × α)) (id : Nat) : Option α :=
  (docs.find? (fun d => d.1 == id)).map Prod.snd

/-- Rewrite the document with the given id, leaving the others alone. -/
def updateDoc {α : Type} (docs : List (Nat × α)) (id : Nat) (f : α → α) : List (Nat × α) :=
  docs.map (fun d => if d.1 == id then (d.1, f d.2) else d)

/-- Remove the document with the given id; no effect when there is none. -/
def deleteDoc {α : Type} (docs : List (Nat × α)) (id : Nat) : List (Nat × α) :=
  docs.filter (fun d => !(d.1 == id))

/-- Effect of one staged write. An `update` of a document that does not exist
fails (`none`); a `set` creates or replaces the document. -/
def applyWrite (s : Store) (w : Write) : Option Store :=
  match w with
  | .setTransaction id t =>
      some { s with transactions := (id, t) :: deleteDoc s.transactions id }
  | .updateTransaction id t =>
      if hasDoc s.transactions id then
        some { s with transactions := updateDoc s.transactions id (fun _ => t) }
      else none
  | .updateLoan id remainingAmount status =>
      if hasDoc s.loans id then
        let loans := updateDoc s.loans id (fun l =>
          { l with remainingAmount := some remainingAmount, status := status.getD l.status })
        some { s with loans := loans }
      else none
  | .mergeFinancials debitBalance usedCredit =>
      let merged : UserFinancials :=
        { debitBalance := some debitBalance,
          creditLimit := s.userFinancials.bind (fun f => f.creditLimit),
          usedCredit := some usedCredit }
      some { s with userFinancials := some merged }
  | .updateFinancials debitBalance =>
      match s.userFinancials with
      | some f => some { s with userFinancials := some { f with debitBalance := some debitBalance } }
      | none => none
  | .setFinancials f => some { s with userFinancials := some f }

/-- The call `batch.commit()`: every staged write is applied, or, when the commit
fails (`commitOk = false`, or a staged `update` has no document), none is. -/
def commit (commitOk : Bool) (batch : List Write) (s : Store) : Option Store :=
  if commitOk then batch.foldlM applyWrite s else none

/-- Outcome of a handler that committed one batch: the committed store and the
success toast, or the untouched store and an error toast. -/
def finish (s : Store) (committed : Option Store) : Outcome :=
  match committed with
  | some s' => { store := s', success := true }
  | none => { store := s, success := false }

/-! ## TransactionModal.jsx -/

namespace TransactionModal

/-- The state `formData` of the form. `amount` and `date` are input texts: `none`
is the empty text. `paymentMethod` is `none` while nothing is selected. -/
structure FormData where
  description : String
  amount : Option Int
  date : Option Int
  type : TransactionType
  category : String
  paymentMethod : Option PaymentMethod
  bankName : String
  deriving DecidableEq

/-- The two instants `validateForm` compares the date with: `new Date()` and the
same instant with the year lowered by one. -/
structure Clock where
  today : Int
  oneYearAgo : Int
  deriving DecidableEq

/-- The object `errors` built by `validateForm`: one optional message per field. -/
structure FormErrors where
  description : Option String
  amount : Option String
  category : Option String
  paymentMethod : Option String
  date : Option String
  deriving DecidableEq

/-- The object `errors` that `validateForm` computes for a form. -/
def validationErrors (formData : FormData) (clock : Clock) : FormErrors :=
  { description :=
      if (trim formData.description).isEmpty then some "La descripción es requerida"
      else if jsLength (trim formData.description) < 3 then
        some "La descripción debe tener al menos 3 caracteres"
      else none
    amount :=
      match formData.amount with
      | none => some "El monto es requerido"
      | some amount =>
          if amount ≤ 0 then some "El monto debe ser mayor a 0"
          else if amount > 100000000 then some "El monto es demasiado alto"
          else none
    category :=
      if formData.category.isEmpty then some "Selecciona una categoría" else none
    paymentMethod :=
      match formData.paymentMethod with
      | none => some "Selecciona un método de pago"
      | some _ => none
    date :=
      match formData.date with
      | none => some "La fecha es requerida"
      | some selectedDate =>
          if selectedDate > clock.today then some "La fecha no puede ser futura"
          else if selectedDate < clock.oneYearAgo then
            some "La fecha no puede ser anterior a un año"
          else none }

/-- The result of `validateForm`: `Object.keys(errors).length === 0`. -/
def validateForm (formData : FormData) (clock : Clock) : Bool :=
  let errors := validationErrors formData clock
  errors.description.isNone && errors.amount.isNone && errors.category.isNone &&
    errors.paymentMethod.isNone && errors.date.isNone

/-- The pair `debitBalance`, `usedCredit` that `handleSubmit` reads and writes. -/
structure Balances where
  debitBalance : Int
  usedCredit : Int
  deriving DecidableEq

/-- Lines 217-224 of `handleSubmit`: both balances start at 0 and are read from
the snapshot of `userFinancials` when the document exists. -/
def readBalances (userFinancialsSnap : Option UserFinancials) : Balances :=
  match userFinancialsSnap with
  | some data => { debitBalance := jsOr data.debitBalance 0, usedCredit := jsOr data.usedCredit 0 }
  | none => { debitBalance := 0, usedCredit := 0 }

/-- Lines 227-242 of `handleSubmit`: `(debitChange, creditChange)` of the form
value. -/
def formChange (type : TransactionType) (paymentMethod : Option PaymentMethod)
    (amount : Int) : Int × Int :=
  if type = TransactionType.income then (amount, 0)
  else if paymentMethod = some PaymentMethod.credito then (0, amount)
  else (-amount, 0)

/-- Lines 244-256 of `handleSubmit`: when a transaction is being edited, the
effect of the stored transaction is taken back out of the changes. -/
def revertPrevious (change : Int × Int) (transactionToEdit : Option Transaction) : Int × Int :=
  match transactionToEdit with
  | none => change
  | some old =>
      let oldAmount := old.amount
      if old.type = TransactionType.income then (change.1 - oldAmount, change.2)
      else if old.paymentMethod = some PaymentMethod.credito then (change.1, change.2 - oldAmount)
      else (change.1 + oldAmount, change.2)

/-- Lines 213-263 of `handleSubmit`: the balances written to `userFinancials`. -/
def updatedBalances (userFinancialsSnap : Option UserFinancials) (type : TransactionType)
    (paymentMethod : Option PaymentMethod) (amount : Int)
    (transactionToEdit : Option Transaction) : Balances :=
  let current := readBalances userFinancialsSnap
  let change := revertPrevious (formChange type paymentMethod amount) transactionToEdit
  { debitBalance := max 0 (current.debitBalance + change.1),
    usedCredit := max 0 (current.usedCredit + change.2) }

/-- The handler `handleSubmit` of the transaction form. `currentUser` tells
whether a user is signed in, `transactionToEdit` is the stored transaction being
edited (with its id) or `none` when creating. -/
def handleSubmit (currentUser : Bool) (formData : FormData)
    (transactionToEdit : Option (Nat × Transaction)) (clock : Clock) (newId : Nat)
    (commitOk : Bool) (s : Store) : Outcome :=
  if !currentUser then { store := s, success := false }
  else if !validateForm formData clock then { store := s, success := false }
  else
    match formData.amount, formData.date with
    | some amount, some date =>
        let transactionData : Transaction :=
          { description := trim formData.description
            amount := amount
            type := formData.type
            category := formData.category
            paymentMethod := formData.paymentMethod
            bankName := some formData.bankName
            date := date }
        let ledgerWrite : Write :=
          match transactionToEdit with
          | some (id, _) => Write.updateTransaction id transactionData
          | none => Write.setTransaction newId transactionData
        let balances := updatedBalances s.userFinancials formData.type formData.paymentMethod
          amount (transactionToEdit.map Prod.snd)
        finish s (commit commitOk
          [ledgerWrite, Write.mergeFinancials balances.debitBalance balances.usedCredit] s)
    | _, _ => { store := s, success := false }

end TransactionModal

/-! ## TransactionsPage.jsx -/

namespace TransactionsPage

/-- The handler `handleDeleteTransaction`: after the user confirms, the
transaction document is deleted with `deleteDoc`; no other document is written.
`confirmed` is the answer to `window.confirm`, `deleteOk` whether `deleteDoc`
went through. -/
def handleDeleteTransaction (confirmed deleteOk : Bool) (transactionId : Nat)
    (s : Store) : Outcome :=
  if !confirmed then { store := s, success := false }
  else if deleteOk then
    { store := { s with transactions := deleteDoc s.transactions transactionId }, success := true }
  else { store := s, success := false }

end TransactionsPage

/-! ## MakeLoanPaymentModal.jsx and LoansPage.jsx -/

namespace LoansPage

/-- The function `loadUserBalance`: the state `totalBalance` becomes the debit
balance of `userFinancials` when the document exists and keeps its value (0 at
first) when it does not. -/
def loadUserBalance (totalBalance : Int) (userFinancialsSnap : Option UserFinancials) : Int :=
  match userFinancialsSnap with
  | some data => jsOr data.debitBalance 0
  | none => totalBalance

end LoansPage

namespace MakeLoanPaymentModal

/-- The four error messages of `validatePayment`. -/
inductive PaymentError where
  /-- The message 'El monto debe ser mayor a 0'. -/
  | notPositive
  /-- The message 'Fondos insuficientes en tu saldo total'. -/
  | insufficientFunds
  /-- The message 'El monto excede el saldo pendiente del préstamo'. -/
  | exceedsRemaining
  /-- The message 'El pago mínimo es' followed by the formatted minimum. -/
  | belowMinimum (minPayment : Int)
  deriving DecidableEq

/-- The object returned by `validatePayment`. -/
structure Validation where
  isValid : Bool
  error : Option PaymentError
  deriving DecidableEq

/-- The function `validatePayment`. `paymentAmount` is the text of the input
(`none` when empty), `loan` and `totalBalance` are the props of the modal. -/
def validatePayment (paymentAmount : Option Int) (loan : Loan) (totalBalance : Int) : Validation :=
  let remainingAmount := jsOr loan.remainingAmount loan.totalAmount
  let minPayment := min loan.monthlyPayment remainingAmount
  match paymentAmount with
  | none => { isValid := false, error := some PaymentError.notPositive }
  | some amount =>
      if amount ≤ 0 then
        { isValid := false, error := some PaymentError.notPositive }
      else if amount > totalBalance then
        { isValid := false, error := some PaymentError.insufficientFunds }
      else if amount > remainingAmount then
        { isValid := false, error := some PaymentError.exceedsRemaining }
      else if amount < minPayment ∧ remainingAmount > minPayment then
        { isValid := false, error := some (PaymentError.belowMinimum minPayment) }
      else { isValid := true, error := none }

/-- The expense transaction `handleSubmit` records for a payment. -/
def paymentTransaction (loan : Loan) (paymentAmountValue : Int) (now : Int) : Transaction :=
  { description := "Pago de préstamo: " ++ loan.loanName
    amount := paymentAmountValue
    type := TransactionType.expense
    category := "Préstamos"
    paymentMethod := some PaymentMethod.debito
    bankName := some "Pago de Préstamo"
    date := now }

/-- The object `updateData` of `handleSubmit`, as a write on the loan document. -/
def loanUpdate (id : Nat) (newRemainingAmount : Int) : Write :=
  if newRemainingAmount ≤ 0 then Write.updateLoan id 0 (some LoanStatus.paid)
  else Write.updateLoan id newRemainingAmount none

/-- Step 3 of `handleSubmit`: the write on `userFinancials`, an update of
`debitBalance` when the document exists and a new document otherwise. -/
def financialsUpdate (userFinancialsSnap : Option UserFinancials) (totalBalance : Int)
    (paymentAmountValue : Int) : Write :=
  match userFinancialsSnap with
  | some currentData =>
      Write.updateFinancials (max 0 (jsOr currentData.debitBalance 0 - paymentAmountValue))
  | none =>
      Write.setFinancials
        { debitBalance := some (max 0 (totalBalance - paymentAmountValue))
          creditLimit := some 0
          usedCredit := some 0 }

/-- The handler `handleSubmit` of the payment modal. `loan` is the prop of the
modal (with the id of the loan document), `now` the server timestamp. -/
def handleSubmit (loan : Option (Nat × Loan)) (paymentAmount : Option Int)
    (totalBalance : Int) (now : Int) (newId : Nat) (commitOk : Bool) (s : Store) : Outcome :=
  match loan with
  | none => { store := s, success := false }
  | some (id, loan) =>
      if !(validatePayment paymentAmount loan totalBalance).isValid then
        { store := s, success := false }
      else
        match paymentAmount with
        | none => { store := s, success := false }
        | some paymentAmountValue =>
            let currentRemainingAmount := jsOr loan.remainingAmount loan.totalAmount
            let newRemainingAmount := currentRemainingAmount - paymentAmountValue
            finish s (commit commitOk
              [ Write.setTransaction newId (paymentTransaction loan paymentAmountValue now),
                loanUpdate id newRemainingAmount,
                financialsUpdate s.userFinancials totalBalance paymentAmountValue ] s)

end MakeLoanPaymentModal

namespace LoansPage

/-- The constant `currentRemainingAmount` the page computes for a listed loan:
`loan.remainingAmount || (loan.totalAmount - (loan.installmentsPaid || 0) *
loan.monthlyPayment)`. -/
def currentRemainingAmount (loan : Loan) : Int :=
  jsOr loan.remainingAmount
    (loan.totalAmount - Double.mul (jsOr loan.installmentsPaid 0) loan.monthlyPayment)

/-- The loan the page lists under the given id: its query keeps the loans whose
status is 'active'. -/
def listedLoan (s : Store) (id : Nat) : Option Loan :=
  (getDoc? s.loans id).filter (fun loan => decide (loan.status = LoanStatus.active))

/-- One submission of the payment modal: the text of the input, the state
`totalBalance` of the page, the server timestamp, the id generated for the
transaction and the fate of the commit. -/
structure Payment where
  paymentAmount : Option Int
  totalBalance : Int
  now : Int
  newId : Nat
  commitOk : Bool
  deriving DecidableEq

/-- A payment made from the page on the loan with the given id, the only way to
the payment modal: the loan has to be listed, its button 'Realizar Pago' is
disabled when `currentRemainingAmount <= 0`, and otherwise the modal is opened
on the listed loan and submitted. -/
def makePayment (id : Nat) (payment : Payment) (s : Store) : Outcome :=
  match listedLoan s id with
  | none => { store := s, success := false }
  | some loan =>
      if currentRemainingAmount loan ≤ 0 then { store := s, success := false }
      else
        MakeLoanPaymentModal.handleSubmit (some (id, loan)) payment.paymentAmount
          payment.totalBalance payment.now payment.newId payment.commitOk s

/-- The store after a sequence of payments made from the page on one loan. -/
def makePayments (id : Nat) (s : Store) (payments : List Payment) : Store :=
  payments.foldl (fun s payment => (makePayment id payment s).store) s

end LoansPage

/-! ## ContributeToGoalModal.jsx and WithdrawFromGoalModal.jsx -/

/-- The call `updateDoc(goalRef, {currentAmount})`: it fails when the request
fails or the goal document does not exist. -/
def updateGoalAmount (updateOk : Bool) (id : Nat) (newCurrentAmount : Int)
    (s : Store) : Option Store :=
  if updateOk && hasDoc s.savingGoals id then
    let goals := updateDoc s.savingGoals id (fun g => { g with currentAmount := newCurrentAmount })
    some { s with savingGoals := goals }
  else none

/-- The call `addDoc(transactionsRef, data)` under a generated id. -/
def addTransaction (addOk : Bool) (newId : Nat) (t : Transaction) (s : Store) : Option Store :=
  if addOk then some { s with transactions := (newId, t) :: deleteDoc s.transactions newId }
  else none

/-- The two awaited writes of the goal modals, one after the other: when the
first fails nothing is written, when the second fails the first stays. -/
def goalWrites (updateOk addOk : Bool) (id : Nat) (newCurrentAmount : Int) (newId : Nat)
    (t : Transaction) (s : Store) : Outcome :=
  match updateGoalAmount updateOk id newCurrentAmount s with
  | none => { store := s, success := false }
  | some s1 =>
      match addTransaction addOk newId t s1 with
      | none => { store := s1, success := false }
      | some s2 => { store := s2, success := true }

namespace ContributeToGoalModal

/-- The handler `handleSubmit` of the contribution modal. `goal` and
`totalBalance` are the props of the modal, `amount` the text of the input. -/
def handleSubmit (goal : Option (Nat × SavingGoal)) (amount : Option Int) (totalBalance : Int)
    (now : Int) (newId : Nat) (updateOk addOk : Bool) (s : Store) : Outcome :=
  match goal with
  | none => { store := s, success := false }
  | some (id, goal) =>
      match amount with
      | none => { store := s, success := false }
      | some contributionAmount =>
          if contributionAmount ≤ 0 then { store := s, success := false }
          else
            let newCurrentAmount := goal.currentAmount + contributionAmount
            if newCurrentAmount > goal.targetAmount then { store := s, success := false }
            else if contributionAmount > totalBalance then { store := s, success := false }
            else
              goalWrites updateOk addOk id newCurrentAmount newId
                { description := "Aporte a " ++ goal.goalName
                  amount := contributionAmount
                  type := TransactionType.expense
                  category := "Ahorros"
                  paymentMethod := none
                  bankName := none
                  date := now } s

end ContributeToGoalModal

namespace WithdrawFromGoalModal

/-- The handler `handleSubmit` of the withdrawal modal. -/
def handleSubmit (goal : Option (Nat × SavingGoal)) (amount : Option Int)
    (now : Int) (newId : Nat) (updateOk addOk : Bool) (s : Store) : Outcome :=
  match goal with
  | none => { store := s, success := false }
  | some (id, goal) =>
      match amount with
      | none => { store := s, success := false }
      | some withdrawalAmount =>
          if withdrawalAmount ≤ 0 then { store := s, success := false }
          else
            let newCurrentAmount := goal.currentAmount - withdrawalAmount
            if withdrawalAmount > goal.currentAmount then { store := s, success := false }
            else if newCurrentAmount < 0 then { store := s, success := false }
            else
              goalWrites updateOk addOk id newCurrentAmount newId
                { description := "Retiro de " ++ goal.goalName
                  amount := withdrawalAmount
                  type := TransactionType.income
                  category := "Ahorros"
                  paymentMethod := none
                  bankName := none
                  date := now } s

end WithdrawFromGoalModal

/-! ## AddSavingGoalModal.jsx, EditSavingGoalModal.jsx and SavingsPage.jsx -/

namespace AddSavingGoalModal

/-- The state `formData` of the form that creates a goal. `targetAmount` and
`currentAmount` are input texts, `none` being the empty text; the text of
`currentAmount` starts as '0' and the field is labelled as optional. -/
structure FormData where
  goalName : String
  targetAmount : Option Int
  currentAmount : Option Int
  deriving DecidableEq

/-- The handler `handleSubmit` of the form that creates a goal: after the four
checks the goal is added with `addDoc` under a generated id. `currentAmount` is
`parseFloat(formData.currentAmount)`: on an empty text it is NaN, for which the
comparisons `< 0` and `> targetAmount` are both false, and the goal is added with
a `currentAmount` of NaN. -/
def handleSubmit (currentUser : Bool) (formData : FormData) (newId : Nat) (addOk : Bool)
    (s : Store) : Outcome :=
  if !currentUser then { store := s, success := false }
  else if (trim formData.goalName).isEmpty then { store := s, success := false }
  else
    match formData.targetAmount with
    | none => { store := s, success := false }
    | some targetAmount =>
        if targetAmount ≤ 0 then { store := s, success := false }
        else
          match formData.currentAmount with
          | some currentAmount =>
              if currentAmount < 0 then { store := s, success := false }
              else if currentAmount > targetAmount then { store := s, success := false }
              else if addOk then
                let savingGoalData : SavingGoal :=
                  { goalName := trim formData.goalName
                    targetAmount := targetAmount
                    currentAmount := currentAmount }
                let goals := (newId, savingGoalData) :: deleteDoc s.savingGoals newId
                { store := { s with savingGoals := goals }, success := true }
              else { store := s, success := false }
          | none =>
              if addOk then
                let savingGoalData : NaNGoal :=
                  { goalName := trim formData.goalName, targetAmount := targetAmount }
                let goals := (newId, savingGoalData) :: s.nanGoals
                { store := { s with nanGoals := goals }, success := true }
              else { store := s, success := false }

end AddSavingGoalModal

namespace EditSavingGoalModal

/-- The handler `handleSubmit` of the form that edits a goal. `goal` is the prop
of the modal, `goalName` and `targetAmount` are the two inputs; the name and the
target of the goal document are rewritten with `updateDoc`. -/
def handleSubmit (goal : Option (Nat × SavingGoal)) (goalName : String)
    (targetAmount : Option Int) (updateOk : Bool) (s : Store) : Outcome :=
  match goal with
  | none => { store := s, success := false }
  | some (id, goal) =>
      if (trim goalName).isEmpty then { store := s, success := false }
      else
        match targetAmount with
        | none => { store := s, success := false }
        | some newTargetAmount =>
            if newTargetAmount ≤ 0 then { store := s, success := false }
            else if newTargetAmount < goal.currentAmount then { store := s, success := false }
            else if updateOk && hasDoc s.savingGoals id then
              let goals := updateDoc s.savingGoals id (fun g =>
                { g with goalName := trim goalName, targetAmount := newTargetAmount })
              { store := { s with savingGoals := goals }, success := true }
            else { store := s, success := false }

end EditSavingGoalModal

namespace SavingsPage

/-- The prop `goal` that `SavingsPage` hands to its modals: the goal document
listed under the given id. -/
def selectedGoal (s : Store) (id : Nat) : Option (Nat × SavingGoal) :=
  (getDoc? s.savingGoals id).map (fun goal => (id, goal))

/-- One submission of a goal modal opened from `SavingsPage`, with the inputs of
the form and the fate of each request. -/
inductive GoalAction where
  /-- A submission of `ContributeToGoalModal`. -/
  | contribute (amount : Option Int) (totalBalance now : Int) (newId : Nat)
      (updateOk addOk : Bool)
  /-- A submission of `WithdrawFromGoalModal`. -/
  | withdraw (amount : Option Int) (now : Int) (newId : Nat) (updateOk addOk : Bool)
  /-- A submission of `EditSavingGoalModal`. -/
  | edit (goalName : String) (targetAmount : Option Int) (updateOk : Bool)
  deriving DecidableEq

/-- The store after one submission on the goal listed under `id`. -/
def perform (id : Nat) (s : Store) (action : GoalAction) : Store :=
  match action with
  | GoalAction.contribute amount totalBalance now newId updateOk addOk =>
      (ContributeToGoalModal.handleSubmit (selectedGoal s id) amount totalBalance now newId
        updateOk addOk s).store
  | GoalAction.withdraw amount now newId updateOk addOk =>
      (WithdrawFromGoalModal.handleSubmit (selectedGoal s id) amount now newId updateOk addOk
        s).store
  | GoalAction.edit goalName targetAmount updateOk =>
      (EditSavingGoalModal.handleSubmit (selectedGoal s id) goalName targetAmount updateOk
        s).store

/-- The store after a sequence of submissions on the goal listed under `id`. -/
def performAll (id : Nat) (s : Store) (actions : List GoalAction) : Store :=
  actions.foldl (perform id) s

end SavingsPage

/-! ## AddLoanModal.jsx -/

namespace AddLoanModal

/-- The state `formData` of the form that registers a loan: four input texts,
`none` being the empty text. -/
structure FormData where
  loanName : String
  totalAmount : Option Int
  installments : Option Int
  installmentsPaid : Option Int
  deriving DecidableEq

/-- The function `calculateMonthlyPayment`. -/
def calculateMonthlyPayment (formData : FormData) : Int :=
  let total := jsOr formData.totalAmount 0
  let installments := jsOr formData.installments 0
  if total > 0 ∧ installments > 0 then mathRound (Double.div total installments) else 0

/-- The object `loanData` of `handleSubmit`. `installmentsPaid` is
`parseInt(formData.installmentsPaid)`, `none` when the text is empty: the
remaining amount is then NaN, which is stored as a remaining amount that reads as
missing, with status 'active'. The product `installmentsPaid * monthlyPayment`
is a product of doubles. -/
def loanData (formData : FormData) (totalAmount installments : Int)
    (installmentsPaid : Option Int) : Loan :=
  let monthlyPayment := calculateMonthlyPayment formData
  let remainingAmount := installmentsPaid.map (fun paid =>
    totalAmount - Double.mul paid monthlyPayment)
  { loanName := trim formData.loanName
    totalAmount := totalAmount
    remainingAmount := remainingAmount.map (fun r => max 0 r)
    installments := installments
    monthlyPayment := monthlyPayment
    status :=
      match remainingAmount with
      | some r => if r ≤ 0 then LoanStatus.paid else LoanStatus.active
      | none => LoanStatus.active }

/-- The call `addDoc(collection(db, 'loans'), loanData)` under a generated id. -/
def addLoan (addOk : Bool) (newId : Nat) (loan : Loan) (s : Store) : Outcome :=
  if addOk then
    { store := { s with loans := (newId, loan) :: deleteDoc s.loans newId }, success := true }
  else { store := s, success := false }

/-- The handler `handleSubmit` of the form that registers a loan. -/
def handleSubmit (currentUser : Bool) (formData : FormData) (newId : Nat) (addOk : Bool)
    (s : Store) : Outcome :=
  if !currentUser then { store := s, success := false }
  else if (trim formData.loanName).isEmpty then { store := s, success := false }
  else
    match formData.totalAmount with
    | none => { store := s, success := false }
    | some totalAmount =>
        if totalAmount ≤ 0 then { store := s, success := false }
        else
          match formData.installments with
          | none => { store := s, success := false }
          | some installments =>
              if installments ≤ 0 then { store := s, success := false }
              else
                match formData.installmentsPaid with
                | some paid =>
                    if paid < 0 then { store := s, success := false }
                    else if paid > installments then { store := s, success := false }
                    else
                      addLoan addOk newId
                        (loanData formData totalAmount installments (some paid)) s
                | none =>
                    addLoan addOk newId (loanData formData totalAmount installments none) s

end AddLoanModal

/-! ## functions/src/index.ts: handleRecurringTransactions -/

namespace Functions

/-- A document of the `recurringTransactions` collection: a template. -/
structure RecurringTransaction where
  userId : String
  accountId : String
  type : TransactionType
  amount : Int
  description : String
  category : String
  dayOfMonth : Nat
  deriving DecidableEq

/-- A document of the `accounts` collection. -/
structure Account where
  accountType : Option String
  usedCredit : Option Int
  currentBalance : Option Int
  deriving DecidableEq

/-- The transaction document that the processor writes (`isRecurring` is always
true and is left out). -/
structure GeneratedTransaction where
  userId : String
  accountId : String
  type : TransactionType
  amount : Int
  description : String
  category : String
  date : Int
  recurringTransactionId : String
  deriving DecidableEq

/-- The three collections the processor touches, keyed by document id. -/
structure Store where
  recurringTransactions : List (String × RecurringTransaction)
  transactions : List (String × GeneratedTransaction)
  accounts : List (String × Account)
  deriving DecidableEq

/-- The date of a run: `today.getDate()`, `today.toISOString().slice(0, 7)` and
the timestamp of `today`. -/
structure Today where
  dayOfMonth : Nat
  currentMonth : String
  timestamp : Int
  deriving DecidableEq

/-- The writes the processor stages in its batch. -/
inductive Write where
  /-- The write `batch.set(transactionRef, transactionData)`. -/
  | setTransaction (id : String) (t : GeneratedTransaction)
  /-- The write `batch.update(accountRef, data)` of `usedCredit`. -/
  | updateUsedCredit (accountId : String) (usedCredit : Int)
  /-- The write `batch.update(accountRef, data)` of `currentBalance`. -/
  | updateCurrentBalance (accountId : String) (currentBalance : Int)
  deriving DecidableEq

/-- Whether a collection holds a document with the given id. -/
def docExists {α : Type} (docs : List (String × α)) (id : String) : Bool :=
  docs.any (fun d => d.1 == id)

/-- The document with the given id, when there is one. -/
def docData {α : Type} (docs : List (String × α)) (id : String) : Option α :=
  (docs.find? (fun d => d.1 == id)).map Prod.snd

/-- The number of documents stored under the given id. -/
def docCount {α : Type} (docs : List (String × α)) (id : String) : Nat :=
  (docs.filter (fun d => d.1 == id)).length

/-- Create or replace the document with the given id. -/
def docSet {α : Type} (docs : List (String × α)) (id : String) (x : α) : List (String × α) :=
  (id, x) :: docs.filter (fun d => !(d.1 == id))

/-- Rewrite the document with the given id, leaving the others alone. -/
def docUpdate {α : Type} (docs : List (String × α)) (id : String) (f : α → α) :
    List (String × α) :=
  docs.map (fun d => if d.1 == id then (d.1, f d.2) else d)

/-- Effect of one staged write; an `update` of a missing account fails. -/
def applyWrite (s : Store) (w : Write) : Option Store :=
  match w with
  | Write.setTransaction id t => some { s with transactions := docSet s.transactions id t }
  | Write.updateUsedCredit accountId usedCredit =>
      if docExists s.accounts accountId then
        let accounts := docUpdate s.accounts accountId (fun a =>
          { a with usedCredit := some usedCredit })
        some { s with accounts := accounts }
      else none
  | Write.updateCurrentBalance accountId currentBalance =>
      if docExists s.accounts accountId then
        let accounts := docUpdate s.accounts accountId (fun a =>
          { a with currentBalance := some currentBalance })
        some { s with accounts := accounts }
      else none

/-- The call `batch.commit()`: every staged write is applied in order, or none. -/
def commit (commitOk : Bool) (batch : List Write) (s : Store) : Option Store :=
  if commitOk then batch.foldlM applyWrite s else none

/-- The account a staged write updates, when it updates one. -/
def target (w : Write) : Option String :=
  match w with
  | Write.setTransaction _ _ => none
  | Write.updateUsedCredit accountId _ => some accountId
  | Write.updateCurrentBalance accountId _ => some accountId

/-- The account document after a staged update of it. -/
def updatedAccount (w : Write) (a : Account) : Account :=
  match w with
  | Write.setTransaction _ _ => a
  | Write.updateUsedCredit _ usedCredit => { a with usedCredit := some usedCredit }
  | Write.updateCurrentBalance _ currentBalance => { a with currentBalance := some currentBalance }

/-- The id of the transaction of a template in a month: 'recurring_', the id of
the template, '_' and the month. -/
def transactionId (templateId currentMonth : String) : String :=
  "recurring_" ++ templateId ++ "_" ++ currentMonth

/-- The object `transactionData` built from a template. -/
def transactionData (today : Today) (doc : String × RecurringTransaction) :
    GeneratedTransaction :=
  { userId := doc.2.userId
    accountId := doc.2.accountId
    type := doc.2.type
    amount := doc.2.amount
    description := doc.2.description
    category := doc.2.category
    date := today.timestamp
    recurringTransactionId := doc.1 }

/-- The update staged on an existing account: a credit card tracks `usedCredit`,
any other account tracks `currentBalance`. -/
def accountWrite (accountData : Account) (recurringTransaction : RecurringTransaction) : Write :=
  if accountData.accountType = some "Tarjeta de Crédito" then
    let currentUsedCredit := jsOr accountData.usedCredit 0
    let newBalance :=
      if recurringTransaction.type = TransactionType.expense then
        currentUsedCredit + recurringTransaction.amount
      else max 0 (currentUsedCredit - recurringTransaction.amount)
    Write.updateUsedCredit recurringTransaction.accountId newBalance
  else
    let currentBalance := jsOr accountData.currentBalance 0
    let newBalance :=
      if recurringTransaction.type = TransactionType.income then
        currentBalance + recurringTransaction.amount
      else currentBalance - recurringTransaction.amount
    Write.updateCurrentBalance recurringTransaction.accountId newBalance

/-- The variables of the loop: the batch and `processedCount`. -/
structure LoopState where
  batch : List Write
  processedCount : Nat
  deriving DecidableEq

/-- One turn of the loop, with its `try` and `catch`. The transaction is staged,
then the account is read from the database: when that read throws
(`accountReadOk` is false for the template) the turn ends in the `catch` with the
transaction staged and the count unchanged; otherwise the account update is
staged when the account exists, and the count goes up. -/
def processTemplate (today : Today) (accountReadOk : String → Bool) (s : Store)
    (state : LoopState) (doc : String × RecurringTransaction) : LoopState :=
  let staged := state.batch ++
    [Write.setTransaction (transactionId doc.1 today.currentMonth) (transactionData today doc)]
  if !accountReadOk doc.1 then { batch := staged, processedCount := state.processedCount }
  else
    match docData s.accounts doc.2.accountId with
    | some accountData =>
        { batch := staged ++ [accountWrite accountData doc.2],
          processedCount := state.processedCount + 1 }
    | none => { batch := staged, processedCount := state.processedCount + 1 }

/-- The query of the processor: the templates whose `dayOfMonth` is today's. -/
def matchingTemplates (today : Today) (s : Store) : List (String × RecurringTransaction) :=
  s.recurringTransactions.filter (fun d => d.2.dayOfMonth == today.dayOfMonth)

/-- The batch and the count at the end of the loop. -/
def stagedBatch (today : Today) (accountReadOk : String → Bool) (s : Store) : LoopState :=
  (matchingTemplates today s).foldl (processTemplate today accountReadOk s)
    { batch := [], processedCount := 0 }

/-- What a run leaves behind: the store, the count it reports (when it reports
one) and whether it ended by throwing. -/
structure RunResult where
  store : Store
  processedCount : Option Nat
  failed : Bool
  deriving DecidableEq

/-- The function `handleRecurringTransactions`: nothing is done when no template
matches; otherwise the loop stages its writes, the batch is committed once and
the count is reported, a failed commit being rethrown. -/
def handleRecurringTransactions (today : Today) (accountReadOk : String → Bool)
    (commitOk : Bool) (s : Store) : RunResult :=
  if (matchingTemplates today s).isEmpty then
    { store := s, processedCount := none, failed := false }
  else
    match commit commitOk (stagedBatch today accountReadOk s).batch s with
    | some s' =>
        { store := s', processedCount := some (stagedBatch today accountReadOk s).processedCount,
          failed := false }
    | none => { store := s, processedCount := none, failed := true }

end Functions

/-! ## functions/src/index.ts: checkBudgetAlerts -/

namespace Functions

/-- A document of the `budgets` collection: the limits of one user for one
month, by category. -/
structure Budget where
  userId : String
  month : String
  limits : Option (List (String × Int))
  deriving DecidableEq

/-- A document of the `notifications` collection. The fields `category`, `month`
and `threshold` are those of a budget alert; the message and the percentage,
which are formatted texts and a floating-point number, are left out. -/
structure Notification where
  userId : String
  type : String
  title : String
  category : Option String
  month : Option String
  threshold : Option Int
  amountSpent : Option Int
  budgetLimit : Option Int
  isRead : Bool
  deriving DecidableEq

/-- The collections `checkBudgetAlerts` reads and writes. -/
structure AlertStore where
  transactions : List (String × GeneratedTransaction)
  budgets : List (String × Budget)
  notifications : List (String × Notification)
  deriving DecidableEq

/-- The calendar functions applied to the date of the transaction:
`toISOString().slice(0, 7)`, and the first and last instants of its month. -/
structure Calendar where
  monthOf : Int → String
  startOfMonth : Int → Int
  endOfMonth : Int → Int

/-- The number `percentageSpent = (totalSpent / categoryLimit) * 100`, computed
in doubles as the source does: the quotient is rounded, and so is its product
with 100. The limit is never 0 here. -/
def percentageSpent (totalSpent categoryLimit : Int) : Double :=
  (Double.div totalSpent categoryLimit).mulInt 100

/-- The condition of the loop over the thresholds:
`percentageSpent >= threshold && percentageSpent < threshold + 10`. -/
def inBand (totalSpent categoryLimit threshold : Int) : Bool :=
  (percentageSpent totalSpent categoryLimit).geInt threshold &&
    !(percentageSpent totalSpent categoryLimit).geInt (threshold + 10)

/-- The constant `alertThresholds`. -/
def alertThresholds : List Int := [90, 100, 110]

/-- The query `existingAlert`: the unread budget alerts of the user for the
category, the month and the threshold. -/
def existingAlert (notifications : List (String × Notification)) (userId category
    currentMonth : String) (threshold : Int) : List (String × Notification) :=
  notifications.filter (fun n =>
    n.2.userId == userId && n.2.type == "budget_alert" && n.2.category == some category &&
      n.2.month == some currentMonth && n.2.threshold == some threshold && n.2.isRead == false)

/-- The title chosen for a threshold. -/
def alertTitle (threshold : Int) : String :=
  if threshold = 90 then "⚠️ Presupuesto al 90%"
  else if threshold = 100 then "🚨 Presupuesto agotado"
  else if threshold = 110 then "💸 Presupuesto excedido"
  else ""

/-- The object `alertData`. -/
def alertData (userId category currentMonth : String) (threshold totalSpent
    categoryLimit : Int) : Notification :=
  { userId := userId
    type := "budget_alert"
    title := alertTitle threshold
    category := some category
    month := some currentMonth
    threshold := some threshold
    amountSpent := some totalSpent
    budgetLimit := some categoryLimit
    isRead := false }

/-- The loop over the thresholds: a threshold whose band does not hold the
percentage is passed over; one whose band holds it and that already has an unread
alert is passed over too (`continue`); otherwise the alert is added under a
generated id and the loop ends (`break`). -/
def alertLoop (userId category currentMonth : String) (totalSpent categoryLimit : Int)
    (newId : String) (notifications : List (String × Notification)) :
    List Int → List (String × Notification)
  | [] => notifications
  | threshold :: rest =>
      if inBand totalSpent categoryLimit threshold then
        if !(existingAlert notifications userId category currentMonth threshold).isEmpty then
          alertLoop userId category currentMonth totalSpent categoryLimit newId notifications rest
        else
          (newId, alertData userId category currentMonth threshold totalSpent categoryLimit) ::
            notifications
      else
        alertLoop userId category currentMonth totalSpent categoryLimit newId notifications rest

/-- The sum `totalSpent` over the query `expensesSnapshot`: the expenses of the
user in the category dated within the month of the transaction. -/
def totalSpent (calendar : Calendar) (transactions : List (String × GeneratedTransaction))
    (userId category : String) (transactionDate : Int) : Int :=
  ((transactions.filter (fun d =>
      d.2.userId == userId && d.2.type == TransactionType.expense && d.2.category == category &&
        decide (calendar.startOfMonth transactionDate ≤ d.2.date) &&
        decide (d.2.date ≤ calendar.endOfMonth transactionDate))).map
    (fun d => d.2.amount)).sum

/-- The function `checkBudgetAlerts`, run when `transaction` has been created.
Only its `userId`, `type`, `category` and `date` are read. -/
def checkBudgetAlerts (calendar : Calendar) (transaction : GeneratedTransaction)
    (newId : String) (s : AlertStore) : AlertStore :=
  if transaction.type ≠ TransactionType.expense then s
  else
    let userId := transaction.userId
    let category := transaction.category
    let currentMonth := calendar.monthOf transaction.date
    match s.budgets.find? (fun b => b.2.userId == userId && b.2.month == currentMonth) with
    | none => s
    | some budget =>
        let categoryLimit := budget.2.limits.bind (fun limits =>
          (limits.find? (fun l => l.1 == category)).map Prod.snd)
        if jsOr categoryLimit 0 = 0 then s
        else
          let spent := totalSpent calendar s.transactions userId category transaction.date
          let notifications := alertLoop userId category currentMonth spent
            (jsOr categoryLimit 0) newId s.notifications alertThresholds
          { s with notifications := notifications }

end Functions

/-! ## functions/src/index.ts: resetUserData -/

namespace Functions

/-- A document of a collection cleaned by `resetUserData`: the collection it
lies in, its id and its field `userId`. Collection and id make up its path. -/
structure OwnedDoc where
  collection : String
  id : String
  userId : String
  deriving DecidableEq

/-- The part of the database `resetUserData` works on: the documents of the
collections it queries, and the ids of the documents of `userFinancials` and of
`profiles`. -/
structure Database where
  documents : List OwnedDoc
  userFinancials : List String
  profiles : List String
  deriving DecidableEq

/-- An awaited call to the database, which may throw: the query of a collection,
the commit of the batch that starts at index `i` of its snapshot, and the two
deletions at the end. -/
inductive Operation where
  | get (collectionName : String)
  | commit (collectionName : String) (i : Nat)
  | deleteUserFinancials
  | deleteProfile
  deriving DecidableEq

/-- The codes of the `HttpsError` thrown by `resetUserData`. -/
inductive ResetError where
  | unauthenticated
  | internal
  deriving DecidableEq

/-- What the call answers: the field `deletedDocuments` of the returned object,
or the error thrown. -/
inductive ResetResult where
  | ok (deletedDocuments : Nat)
  | error (code : ResetError)
  deriving DecidableEq

/-- The state of the cleaning loops: the database, the counter `totalDeleted`,
the batches committed so far with the collection of each, in order, and whether
a call to the database has thrown. -/
structure ResetState where
  database : Database
  totalDeleted : Nat
  commits : List (String × List OwnedDoc)
  failed : Bool
  deriving DecidableEq

/-- The database after the call, the batches it committed, and its answer. -/
structure ResetOutcome where
  database : Database
  commits : List (String × List OwnedDoc)
  result : ResetResult
  deriving DecidableEq

/-- The constant `collectionsToClean`. -/
def collectionsToClean : List String :=
  ["transactions", "savingGoals", "loans", "budgets", "recurringTransactions", "notifications"]

/-- The constant `batchSize`. -/
def batchSize : Nat := 500

/-- The query `collection(collectionName).where('userId', '==', userId)`. -/
def query (db : Database) (collectionName userId : String) : List OwnedDoc :=
  db.documents.filter (fun d => d.collection == collectionName && d.userId == userId)

/-- The method `slice` of an array. -/
def sliceDocs (docs : List OwnedDoc) (start stop : Nat) : List OwnedDoc :=
  (docs.drop start).take (stop - start)

/-- The commit of a batch of `delete` writes: the documents at the paths of
`batchDocs` are removed. -/
def deleteBatch (batchDocs : List OwnedDoc) (db : Database) : Database :=
  let documents := db.documents.filter (fun d =>
    !batchDocs.any (fun b => b.collection == d.collection && b.id == d.id))
  { db with documents := documents }

/-- The loop `for (let i = 0; i < docs.length; i += batchSize)` from index `i`
on, with at most `fuel` turns: each turn commits the batch
`docs.slice(i, i + batchSize)` and adds its length to `totalDeleted`; a commit
that throws ends the function. -/
def deleteLoop (ok : Operation → Bool) (collectionName : String) (docs : List OwnedDoc) :
    Nat → Nat → ResetState → ResetState
  | 0, _, st => st
  | fuel + 1, i, st =>
      if i < docs.length then
        let batchDocs := sliceDocs docs i (i + batchSize)
        if ok (Operation.commit collectionName i) then
          deleteLoop ok collectionName docs fuel (i + batchSize)
            { database := deleteBatch batchDocs st.database
              totalDeleted := st.totalDeleted + batchDocs.length
              commits := st.commits ++ [(collectionName, batchDocs)]
              failed := false }
        else { st with failed := true }
      else st

/-- One turn of the loop over `collectionsToClean`: the documents of the user
in the collection are queried and, unless there are none, deleted in batches.
Nothing is done once a call has thrown. The batch loop is given `docs.length`
turns, which it never uses up. -/
def cleanCollection (ok : Operation → Bool) (userId : String) (st : ResetState)
    (collectionName : String) : ResetState :=
  if st.failed then st
  else if !ok (Operation.get collectionName) then { st with failed := true }
  else
    let docs := query st.database collectionName userId
    if docs.isEmpty then st
    else deleteLoop ok collectionName docs docs.length 0 st

/-- The state in which the loop over `collectionsToClean` starts. -/
def startState (db : Database) : ResetState :=
  { database := db, totalDeleted := 0, commits := [], failed := false }

/-- The callable function `resetUserData`. `data` is the request data, `auth`
the uid of `context.auth` if the call is authenticated; `ok` tells which calls
to the database succeed. An error thrown by the database is answered with the
code 'internal'; what was deleted before it stays deleted. -/
def resetUserData (_data : Option String) (auth : Option String) (ok : Operation → Bool)
    (db : Database) : ResetOutcome :=
  match auth with
  | none =>
      { database := db, commits := [], result := ResetResult.error ResetError.unauthenticated }
  | some userId =>
      let st := collectionsToClean.foldl (cleanCollection ok userId) (startState db)
      if st.failed then
        { database := st.database, commits := st.commits,
          result := ResetResult.error ResetError.internal }
      else if !ok Operation.deleteUserFinancials then
        { database := st.database, commits := st.commits,
          result := ResetResult.error ResetError.internal }
      else
        let userFinancials := st.database.userFinancials.filter (fun id => id != userId)
        if !ok Operation.deleteProfile then
          { database := { st.database with userFinancials := userFinancials },
            commits := st.commits, result := ResetResult.error ResetError.internal }
        else
          let profiles := st.database.profiles.filter (fun id => id != userId)
          { database := { st.database with userFinancials := userFinancials,
                                           profiles := profiles },
            commits := st.commits, result := ResetResult.ok st.totalDeleted }

/-- The batches committed for one collection, in order. -/
def commitsOf (collectionName : String) (commits : List (String × List OwnedDoc)) :
    List (List OwnedDoc) :=
  (commits.filter (fun e => e.1 == collectionName)).map Prod.snd

end Functions

/-! ## Rules of the specification (sections 4.1 and 4.3) -/

namespace Spec

/-- Delta rule, debit part: an income adds its amount to the debit balance, an
expense that is not paid by credit takes its amount from it. -/
def debitDelta (type : TransactionType) (paymentMethod : Option PaymentMethod)
    (amount : Int) : Int :=
  match type with
  | TransactionType.income => amount
  | TransactionType.expense =>
      if paymentMethod = some PaymentMethod.credito then 0 else -amount

/-- Delta rule, credit part: an expense paid by credit adds its amount to the
used credit. -/
def creditDelta (type : TransactionType) (paymentMethod : Option PaymentMethod)
    (amount : Int) : Int :=
  match type with
  | TransactionType.income => 0
  | TransactionType.expense =>
      if paymentMethod = some PaymentMethod.credito then amount else 0

/-- Payment rule of the specification (section 4.3): `0 < amount ≤
remainingAmount`, `amount ≤` the current debit balance, and `amount ≥
min(monthlyPayment, remainingAmount)` unless the payment liquidates the loan. -/
def paymentAllowed (amount remainingAmount monthlyPayment debitBalance : Int) : Prop :=
  0 < amount ∧ amount ≤ remainingAmount ∧ amount ≤ debitBalance ∧
    (min monthlyPayment remainingAmount ≤ amount ∨ amount = remainingAmount)

instance (amount remainingAmount monthlyPayment debitBalance : Int) :
    Decidable (paymentAllowed amount remainingAmount monthlyPayment debitBalance) := by
  unfold paymentAllowed
  infer_instance

end Spec

/-! ## Inputs used in the examples -/

/-- A store without any document: no transaction, no loan, no goal and no
`userFinancials` document. -/
def emptyStore : Store :=
  { transactions := [], loans := [], savingGoals := [], userFinancials := none }

/-- A clock whose `today` is day 400 and whose `oneYearAgo` is day 35. -/
def sampleClock : TransactionModal.Clock :=
  { today := 400, oneYearAgo := 35 }

/-- A form holding an income of 100000 paid into the debit account. -/
def incomeForm : TransactionModal.FormData :=
  { description := "Sueldo", amount := some 100000, date := some 390,
    type := TransactionType.income, category := "Salario",
    paymentMethod := some PaymentMethod.debito, bankName := "" }

/-- A form holding an expense of the given amount paid with the given method. -/
def expenseForm (amount : Int) (paymentMethod : PaymentMethod) : TransactionModal.FormData :=
  { description := "Compra", amount := some amount, date := some 395,
    type := TransactionType.expense, category := "Comida",
    paymentMethod := some paymentMethod, bankName := "" }

/-- The aggregate of the scenarios: `debitBalance = 100000`, `usedCredit = 0`. -/
def fundedStore : Store :=
  { emptyStore with
    userFinancials := some { debitBalance := some 100000, creditLimit := some 500000,
                             usedCredit := some 0 } }

/-- The credit expense of 30000 of the scenarios, as stored. -/
def creditExpense : Transaction :=
  { description := "Compra", amount := 30000, type := TransactionType.expense,
    category := "Comida", paymentMethod := some PaymentMethod.credito,
    bankName := some "", date := 395 }

/-- The store of the scenarios after the credit expense of 30000 was created
under id 1: `debitBalance = 100000`, `usedCredit = 30000`. -/
def storeAfterCreditExpense : Store :=
  { emptyStore with
    transactions := [(1, creditExpense)]
    userFinancials := some { debitBalance := some 100000, creditLimit := some 500000,
                             usedCredit := some 30000 } }

/-- The state of the scenarios after the credit expense of 30000 was created
under id 1 on `fundedStore` by the form. -/
def createdCreditExpense : Outcome :=
  TransactionModal.handleSubmit true (expenseForm 30000 PaymentMethod.credito) none
    sampleClock 1 true fundedStore

/-- The state reached from `storeAfterCreditExpense` by deleting the credit
expense of 30000 and then creating a credit expense of 50000 under id 2. -/
def deletedThenCreated : Outcome :=
  TransactionModal.handleSubmit true (expenseForm 50000 PaymentMethod.credito) none
    sampleClock 2 true
    (TransactionsPage.handleDeleteTransaction true true 1 storeAfterCreditExpense).store

/-- The state reached from `storeAfterCreditExpense` by editing the credit
expense of 30000 into a credit expense of 50000. -/
def editedInPlace : Outcome :=
  TransactionModal.handleSubmit true (expenseForm 50000 PaymentMethod.credito)
    (some (1, creditExpense)) sampleClock 2 true storeAfterCreditExpense

/-- A loan of 1200000 in 12 instalments of 100000 with the given remaining amount
and status. -/
def carLoan (remainingAmount : Int) (status : LoanStatus) : Loan :=
  { loanName := "Auto", totalAmount := 1200000, remainingAmount := some remainingAmount,
    installments := 12, monthlyPayment := 100000, status := status }

/-- A store holding the given loan under id 1 and an aggregate with the given
debit balance. -/
def loanStore (loan : Loan) (debitBalance : Int) : Store :=
  { emptyStore with
    loans := [(1, loan)]
    userFinancials := some { debitBalance := some debitBalance, creditLimit := some 500000,
                             usedCredit := some 20000 } }

/-- First payment of the sequence: 300000 on the active loan whose remaining
amount is 300000, with a debit balance of 1000000. -/
def firstPayment : Outcome :=
  MakeLoanPaymentModal.handleSubmit (some (1, carLoan 300000 LoanStatus.active)) (some 300000)
    1000000 500 7 true (loanStore (carLoan 300000 LoanStatus.active) 1000000)

/-- Two payments made from the page: 300000 with a balance of 1000000, then
100000 with the balance of 700000 that is left. -/
def samplePayments : List LoansPage.Payment :=
  [ { paymentAmount := some 300000, totalBalance := 1000000, now := 500, newId := 7,
      commitOk := true },
    { paymentAmount := some 100000, totalBalance := 700000, now := 501, newId := 8,
      commitOk := true } ]

/-- The goal of the scenarios with the given accumulated amount: target 500000. -/
def travelGoal (currentAmount : Int) : SavingGoal :=
  { goalName := "Viaje", targetAmount := 500000, currentAmount := currentAmount }

/-- A store holding the empty goal under id 1 and a debit balance of 100000. -/
def goalStore : Store :=
  { fundedStore with savingGoals := [(1, travelGoal 0)] }

/-- Contribution of 50000 to the empty goal, with the balance of 100000 handed to
the modal; both writes succeed. -/
def contribution : Outcome :=
  ContributeToGoalModal.handleSubmit (some (1, travelGoal 0)) (some 50000) 100000 500 7 true true
    goalStore

/-- Withdrawal of 20000 from the goal as stored after the contribution; both
writes succeed. -/
def withdrawal : Outcome :=
  WithdrawFromGoalModal.handleSubmit
    ((getDoc? contribution.store.savingGoals 1).map (fun goal => (1, goal))) (some 20000) 501 8
    true true contribution.store

/-- Contribution of 50000 to the empty goal in which the goal update goes through
and the insert of the transaction fails. -/
def contributionCutShort : Outcome :=
  ContributeToGoalModal.handleSubmit (some (1, travelGoal 0)) (some 50000) 100000 500 7 true
    false goalStore

/-- Withdrawal of 20000 from the goal as stored after the contribution, in which
the goal update goes through and the insert of the transaction fails. -/
def withdrawalCutShort : Outcome :=
  WithdrawFromGoalModal.handleSubmit (SavingsPage.selectedGoal contribution.store 1)
    (some 20000) 501 8 true false contribution.store

/-- The form that creates the goal of the scenarios: target 500000, nothing saved. -/
def travelGoalForm : AddSavingGoalModal.FormData :=
  { goalName := "Viaje", targetAmount := some 500000, currentAmount := some 0 }

/-- The same form with the optional current amount left empty. -/
def emptyAmountGoalForm : AddSavingGoalModal.FormData :=
  { goalName := "Viaje", targetAmount := some 500000, currentAmount := none }

/-- A sequence of submissions on one goal: a contribution of 50000, a lowering of
the target to 60000, a withdrawal of 20000 and a contribution of 600000. -/
def sampleGoalActions : List SavingsPage.GoalAction :=
  [ SavingsPage.GoalAction.contribute (some 50000) 100000 500 7 true true,
    SavingsPage.GoalAction.edit "Viaje corto" (some 60000) true,
    SavingsPage.GoalAction.withdraw (some 20000) 501 8 true true,
    SavingsPage.GoalAction.contribute (some 600000) 1000000 502 9 true true ]

/-- The form that registers the loan of the scenarios: 1200000 in 12 instalments,
9 of them already paid. -/
def carLoanForm : AddLoanModal.FormData :=
  { loanName := "Auto", totalAmount := some 1200000, installments := some 12,
    installmentsPaid := some 9 }

/-- A form dated after `today` of `sampleClock`. -/
def futureForm : TransactionModal.FormData :=
  { incomeForm with date := some 401 }

/-- A monthly rent of 1000 charged on day 5 to the account 'a1'. -/
def rentTemplate : Functions.RecurringTransaction :=
  { userId := "u1", accountId := "a1", type := TransactionType.expense, amount := 1000,
    description := "Arriendo", category := "Vivienda", dayOfMonth := 5 }

/-- A server-side store with the rent template 't1' and the current account 'a1'
holding 10000. -/
def recurringStore : Functions.Store :=
  { recurringTransactions := [("t1", rentTemplate)]
    transactions := []
    accounts := [("a1", { accountType := some "Cuenta Corriente", usedCredit := none,
                          currentBalance := some 10000 })] }

/-- A run on day 5 of March 2025. -/
def marchFifth (timestamp : Int) : Functions.Today :=
  { dayOfMonth := 5, currentMonth := "2025-03", timestamp := timestamp }

/-- The first run of the processor on day 5 of March 2025. -/
def firstRun : Functions.RunResult :=
  Functions.handleRecurringTransactions (marchFifth 100) (fun _ => true) true recurringStore

/-- A second run on the same day, on the store left by the first. -/
def secondRun : Functions.RunResult :=
  Functions.handleRecurringTransactions (marchFifth 200) (fun _ => true) true firstRun.store

/-- A monthly salary of 5000 received on day 5 on the account 'a2'. -/
def salaryTemplate : Functions.RecurringTransaction :=
  { userId := "u1", accountId := "a2", type := TransactionType.income, amount := 5000,
    description := "Sueldo", category := "Salario", dayOfMonth := 5 }

/-- A server-side store with the rent template 't1' on the account 'a1' and the
salary template 't2' on the account 'a2'. -/
def twoTemplateStore : Functions.Store :=
  { recurringTransactions := [("t1", rentTemplate), ("t2", salaryTemplate)]
    transactions := []
    accounts := [("a1", { accountType := some "Cuenta Corriente", usedCredit := none,
                          currentBalance := some 10000 }),
                 ("a2", { accountType := some "Cuenta Vista", usedCredit := none,
                          currentBalance := some 200 })] }

/-- The reads of the accounts in a run in which the read for the template 't1'
throws. -/
def rentReadFails (templateId : String) : Bool :=
  !(templateId == "t1")

/-- A monthly fee of 300 charged on day 5 to the account 'zz'. -/
def feeTemplate : Functions.RecurringTransaction :=
  { userId := "u1", accountId := "zz", type := TransactionType.expense, amount := 300,
    description := "Cuota", category := "Otros", dayOfMonth := 5 }

/-- A server-side store with the rent template 't1' on the account 'a1' and the
fee template 't3' on the account 'zz', which does not exist. -/
def orphanStore : Functions.Store :=
  { recurringStore with recurringTransactions := [("t1", rentTemplate), ("t3", feeTemplate)] }

/-- A monthly charge of 2000 on day 5 to the account 'a1'. -/
def secondRentTemplate : Functions.RecurringTransaction :=
  { rentTemplate with amount := 2000, description := "Gastos comunes" }

/-- A server-side store with two expense templates, of 1000 and of 2000, on the
same current account 'a1' holding 10000. -/
def sharedAccountStore : Functions.Store :=
  { recurringStore with
    recurringTransactions := [("t1", rentTemplate), ("t4", secondRentTemplate)] }

/-- A server-side store with the rent template charged to the credit card 'a1'
whose used credit is 4000. -/
def cardStore : Functions.Store :=
  { recurringStore with
    accounts := [("a1", { accountType := some "Tarjeta de Crédito", usedCredit := some 4000,
                          currentBalance := some 77 })] }

/-- The form that registers a loan of 9007199254740991 (2^53 - 1) in 3
instalments, all of them paid. -/
def hugeLoanForm : AddLoanModal.FormData :=
  { loanName := "Flota", totalAmount := some 9007199254740991, installments := some 3,
    installmentsPaid := some 3 }

/-- The form that registers a loan of 1000 in 3 instalments, all of them paid. -/
def roundedLoanForm : AddLoanModal.FormData :=
  { loanName := "Notebook", totalAmount := some 1000, installments := some 3,
    installmentsPaid := some 3 }

/-- A calendar in which a date is a day number of the year 2025 and every date
used in the examples falls in March. -/
def marchCalendar : Functions.Calendar :=
  { monthOf := fun _ => "2025-03", startOfMonth := fun _ => 60, endOfMonth := fun _ => 90 }

/-- An expense of the given amount in category 'Comida' dated day 64. -/
def foodExpense (amount : Int) : Functions.GeneratedTransaction :=
  { userId := "u1", accountId := "a1", type := TransactionType.expense, amount := amount,
    description := "Supermercado", category := "Comida", date := 64,
    recurringTransactionId := "" }

/-- A store with a budget of 100 for 'Comida' in March 2025, one expense of the
given amount in that category and no notification. -/
def budgetStore (amount : Int) : Functions.AlertStore :=
  { transactions := [("x1", foodExpense amount)]
    budgets := [("b1", { userId := "u1", month := "2025-03", limits := some [("Comida", 100)] })]
    notifications := [] }

/-- An unread budget alert of the user 'u1' for 'Comida' in March 2025 at the
threshold 110. -/
def unreadAlert : Functions.Notification :=
  Functions.alertData "u1" "Comida" "2025-03" 110 112 100

/-- The store `budgetStore 115` in which the alert at the threshold 110 has been
raised already and is unread. -/
def alertedStore : Functions.AlertStore :=
  { budgetStore 115 with notifications := [("n0", unreadAlert)] }

/-- A database with three transactions and a loan of 'u1', a transaction of 'u2',
and the financial and profile documents of both. -/
def resetDatabase : Functions.Database :=
  { documents :=
      [{ collection := "transactions", id := "x1", userId := "u1" },
       { collection := "transactions", id := "x2", userId := "u2" },
       { collection := "transactions", id := "x3", userId := "u1" },
       { collection := "loans", id := "l1", userId := "u1" },
       { collection := "transactions", id := "x4", userId := "u1" }]
    userFinancials := ["u1", "u2"]
    profiles := ["u1", "u2"] }

/-- Every call to the database succeeds. -/
def allSucceed : Functions.Operation → Bool := fun _ => true

/-! ## Lemmas on the transaction form -/

section TransactionLemmas

open TransactionModal

/-- A form that passes `validateForm` holds an amount between 1 and 100000000. -/
theorem validateForm_amount {formData : FormData} {clock : Clock}
    (h : validateForm formData clock = true) :
    ∃ amount, formData.amount = some amount ∧ 0 < amount ∧ amount ≤ 100000000 := by
  unfold validateForm validationErrors at h
  simp only [Bool.and_eq_true] at h
  obtain ⟨⟨⟨⟨_, ha⟩, _⟩, _⟩, _⟩ := h
  cases hamt : formData.amount with
  | none => simp [hamt] at ha
  | some a =>
      refine ⟨a, rfl, ?_, ?_⟩
      · by_contra hneg
        have : a ≤ 0 := not_lt.mp hneg
        simp [hamt, this] at ha
      · by_contra hneg
        have h1 : a > 100000000 := not_le.mp hneg
        have h2 : ¬ a ≤ 0 := by omega
        simp [hamt, h1, h2] at ha

/-- A form that passes `validateForm` holds a date. -/
theorem validateForm_date {formData : FormData} {clock : Clock}
    (h : validateForm formData clock = true) : ∃ date, formData.date = some date := by
  unfold validateForm validationErrors at h
  simp only [Bool.and_eq_true] at h
  obtain ⟨_, hd⟩ := h
  cases hdate : formData.date with
  | none => simp [hdate] at hd
  | some d => exact ⟨d, rfl⟩

/-- The aggregate document left by a committed create: both balances are the
ones of `updatedBalances`, the credit limit is kept. -/
theorem handleSubmit_create {formData : FormData} {clock : Clock} {amount : Int}
    (hvalid : validateForm formData clock = true) (hamount : formData.amount = some amount)
    (newId : Nat) (s : Store) :
    (handleSubmit true formData none clock newId true s).success = true ∧
    (handleSubmit true formData none clock newId true s).store.userFinancials =
      some { debitBalance := some (updatedBalances s.userFinancials formData.type
                formData.paymentMethod amount none).debitBalance
             creditLimit := s.userFinancials.bind (fun f => f.creditLimit)
             usedCredit := some (updatedBalances s.userFinancials formData.type
                formData.paymentMethod amount none).usedCredit } := by
  obtain ⟨date, hdate⟩ := validateForm_date hvalid
  simp [handleSubmit, hvalid, hamount, hdate, commit, finish, applyWrite, List.foldlM]

/-- The aggregate document left by a committed edit of a stored transaction. -/
theorem handleSubmit_edit {formData : FormData} {clock : Clock} {amount : Int}
    (hvalid : validateForm formData clock = true) (hamount : formData.amount = some amount)
    (id : Nat) (old : Transaction) (newId : Nat) (s : Store)
    (hdoc : hasDoc s.transactions id = true) :
    (handleSubmit true formData (some (id, old)) clock newId true s).success = true ∧
    (handleSubmit true formData (some (id, old)) clock newId true s).store.userFinancials =
      some { debitBalance := some (updatedBalances s.userFinancials formData.type
                formData.paymentMethod amount (some old)).debitBalance
             creditLimit := s.userFinancials.bind (fun f => f.creditLimit)
             usedCredit := some (updatedBalances s.userFinancials formData.type
                formData.paymentMethod amount (some old)).usedCredit } := by
  obtain ⟨date, hdate⟩ := validateForm_date hvalid
  simp [handleSubmit, hvalid, hamount, hdate, commit, finish, applyWrite, List.foldlM, hdoc]

end TransactionLemmas

/-! ## Claims on the transaction form -/

section TransactionClaims

open TransactionModal

/-- C1. Creating an income transaction: on an aggregate whose balances are not
negative (an absent aggregate is read as 0 and 0), the create path of
`handleSubmit` computes `debitBalance = old debitBalance + amount` and
`usedCredit = old usedCredit` for every income of positive amount, and for a
form that passes `validateForm` the committed `userFinancials` document holds
exactly these two values. -/
theorem create_income_adds_amount_to_debit (s : Store) (formData : FormData) (clock : Clock)
    (newId : Nat) (amount : Int)
    (hd : 0 ≤ (readBalances s.userFinancials).debitBalance)
    (hu : 0 ≤ (readBalances s.userFinancials).usedCredit)
    (htype : formData.type = TransactionType.income)
    (hamount : formData.amount = some amount) (ha : 0 < amount) :
    updatedBalances s.userFinancials formData.type formData.paymentMethod amount none =
        { debitBalance := (readBalances s.userFinancials).debitBalance + amount,
          usedCredit := (readBalances s.userFinancials).usedCredit } ∧
      (validateForm formData clock = true →
        (handleSubmit true formData none clock newId true s).success = true ∧
        (handleSubmit true formData none clock newId true s).store.userFinancials.bind
            (fun f => f.debitBalance) =
          some ((readBalances s.userFinancials).debitBalance + amount) ∧
        (handleSubmit true formData none clock newId true s).store.userFinancials.bind
            (fun f => f.usedCredit) =
          some (readBalances s.userFinancials).usedCredit) := by
  have hpath : updatedBalances s.userFinancials formData.type formData.paymentMethod amount none =
      { debitBalance := (readBalances s.userFinancials).debitBalance + amount,
        usedCredit := (readBalances s.userFinancials).usedCredit } := by
    simp only [updatedBalances, formChange, revertPrevious, htype, if_true, add_zero]
    rw [max_eq_right (by omega), max_eq_right hu]
  refine ⟨hpath, fun hvalid => ?_⟩
  obtain ⟨hs, hf⟩ := handleSubmit_create hvalid hamount newId s
  rw [hf, hpath]
  exact ⟨hs, rfl, rfl⟩

/-- C1, at the scenario of the specification: an income of 100000 on an empty
aggregate gives `debitBalance = 100000` and `usedCredit = 0`. -/
theorem create_income_adds_amount_to_debit_witness :
    validateForm incomeForm sampleClock = true ∧
      updatedBalances none TransactionType.income (some PaymentMethod.debito) 100000 none =
        { debitBalance := 100000, usedCredit := 0 } ∧
      (handleSubmit true incomeForm none sampleClock 1 true emptyStore).success = true ∧
      (handleSubmit true incomeForm none sampleClock 1 true emptyStore).store.userFinancials.bind
          (fun f => f.debitBalance) = some 100000 ∧
      (handleSubmit true incomeForm none sampleClock 1 true emptyStore).store.userFinancials.bind
          (fun f => f.usedCredit) = some 0 :=
  have h := create_income_adds_amount_to_debit emptyStore incomeForm sampleClock 1 100000
    (by decide) (by decide) rfl rfl (by decide)
  ⟨by decide, h.1, h.2 (by decide)⟩

/-- C2. Creating an expense transaction: on an aggregate whose balances are not
negative, an expense of positive amount paid by credit gives
`usedCredit = old usedCredit + amount` and leaves `debitBalance`; any other
expense gives `debitBalance = max 0 (old debitBalance - amount)` and leaves
`usedCredit`. A form that passes `validateForm` is committed whatever the
balances of the store are, with exactly these two values. -/
theorem create_expense_routes_by_payment_method (s : Store) (formData : FormData)
    (clock : Clock) (newId : Nat) (amount : Int)
    (hd : 0 ≤ (readBalances s.userFinancials).debitBalance)
    (hu : 0 ≤ (readBalances s.userFinancials).usedCredit)
    (htype : formData.type = TransactionType.expense)
    (hamount : formData.amount = some amount) (ha : 0 < amount) :
    (formData.paymentMethod = some PaymentMethod.credito →
        updatedBalances s.userFinancials formData.type formData.paymentMethod amount none =
          { debitBalance := (readBalances s.userFinancials).debitBalance,
            usedCredit := (readBalances s.userFinancials).usedCredit + amount }) ∧
      (formData.paymentMethod ≠ some PaymentMethod.credito →
        updatedBalances s.userFinancials formData.type formData.paymentMethod amount none =
          { debitBalance := max 0 ((readBalances s.userFinancials).debitBalance - amount),
            usedCredit := (readBalances s.userFinancials).usedCredit }) ∧
      (validateForm formData clock = true →
        (handleSubmit true formData none clock newId true s).success = true ∧
        (handleSubmit true formData none clock newId true s).store.userFinancials =
          some { debitBalance := some (updatedBalances s.userFinancials formData.type
                    formData.paymentMethod amount none).debitBalance
                 creditLimit := s.userFinancials.bind (fun f => f.creditLimit)
                 usedCredit := some (updatedBalances s.userFinancials formData.type
                    formData.paymentMethod amount none).usedCredit }) := by
  refine ⟨fun hpm => ?_, fun hpm => ?_, fun hvalid => handleSubmit_create hvalid hamount newId s⟩
  · have hsum : 0 ≤ (readBalances s.userFinancials).usedCredit + amount := by omega
    simp [updatedBalances, formChange, revertPrevious, htype, hpm, max_eq_right hd,
      max_eq_right hsum]
  · simp [updatedBalances, formChange, revertPrevious, htype, hpm, max_eq_right hu,
      sub_eq_add_neg]

/-- C2, at two inputs: the credit expense of 30000 of the specification, and a
debit expense of 150000 that exceeds the balance of 100000 and is committed with
`debitBalance = 0`. -/
theorem create_expense_routes_by_payment_method_witness :
    updatedBalances fundedStore.userFinancials TransactionType.expense
        (some PaymentMethod.credito) 30000 none = { debitBalance := 100000, usedCredit := 30000 } ∧
      validateForm (expenseForm 150000 PaymentMethod.debito) sampleClock = true ∧
      updatedBalances fundedStore.userFinancials TransactionType.expense
        (some PaymentMethod.debito) 150000 none = { debitBalance := 0, usedCredit := 0 } ∧
      (handleSubmit true (expenseForm 150000 PaymentMethod.debito) none sampleClock 1 true
        fundedStore).success = true :=
  have h1 := create_expense_routes_by_payment_method fundedStore
    (expenseForm 30000 PaymentMethod.credito) sampleClock 1 30000
    (by decide) (by decide) rfl rfl (by decide)
  have h2 := create_expense_routes_by_payment_method fundedStore
    (expenseForm 150000 PaymentMethod.debito) sampleClock 1 150000
    (by decide) (by decide) rfl rfl (by decide)
  ⟨h1.1 rfl, by decide, h2.2.1 (by decide), (h2.2.2 (by decide)).1⟩

/-- C3. Editing a transaction applies one combined delta: for every stored
transaction, every new form value and every aggregate, the edit path of
`handleSubmit` computes
`debitBalance = max 0 (debitBalance - debitDelta old + debitDelta new)` and
`usedCredit = max 0 (usedCredit - creditDelta old + creditDelta new)`, the deltas
being those of the delta rule of the specification; for a valid form on a
transaction that is in the store, the committed `userFinancials` document holds
exactly these two values. -/
theorem edit_applies_one_combined_delta (s : Store) (formData : FormData) (clock : Clock)
    (newId id : Nat) (old : Transaction) (amount : Int) :
    updatedBalances s.userFinancials formData.type formData.paymentMethod amount (some old) =
        { debitBalance := max 0 ((readBalances s.userFinancials).debitBalance
            - Spec.debitDelta old.type old.paymentMethod old.amount
            + Spec.debitDelta formData.type formData.paymentMethod amount),
          usedCredit := max 0 ((readBalances s.userFinancials).usedCredit
            - Spec.creditDelta old.type old.paymentMethod old.amount
            + Spec.creditDelta formData.type formData.paymentMethod amount) } ∧
      (validateForm formData clock = true → formData.amount = some amount →
        hasDoc s.transactions id = true →
        (handleSubmit true formData (some (id, old)) clock newId true s).success = true ∧
        (handleSubmit true formData (some (id, old)) clock newId true s).store.userFinancials =
          some { debitBalance := some (max 0 ((readBalances s.userFinancials).debitBalance
                    - Spec.debitDelta old.type old.paymentMethod old.amount
                    + Spec.debitDelta formData.type formData.paymentMethod amount))
                 creditLimit := s.userFinancials.bind (fun f => f.creditLimit)
                 usedCredit := some (max 0 ((readBalances s.userFinancials).usedCredit
                    - Spec.creditDelta old.type old.paymentMethod old.amount
                    + Spec.creditDelta formData.type formData.paymentMethod amount)) }) := by
  have hpath : updatedBalances s.userFinancials formData.type formData.paymentMethod amount
      (some old) =
        { debitBalance := max 0 ((readBalances s.userFinancials).debitBalance
            - Spec.debitDelta old.type old.paymentMethod old.amount
            + Spec.debitDelta formData.type formData.paymentMethod amount),
          usedCredit := max 0 ((readBalances s.userFinancials).usedCredit
            - Spec.creditDelta old.type old.paymentMethod old.amount
            + Spec.creditDelta formData.type formData.paymentMethod amount) } := by
    have hd : (readBalances s.userFinancials).debitBalance
          + (revertPrevious (formChange formData.type formData.paymentMethod amount) (some old)).1
        = (readBalances s.userFinancials).debitBalance
          - Spec.debitDelta old.type old.paymentMethod old.amount
          + Spec.debitDelta formData.type formData.paymentMethod amount := by
      cases hot : old.type <;> cases hnt : formData.type <;>
        by_cases hop : old.paymentMethod = some PaymentMethod.credito <;>
        by_cases hnp : formData.paymentMethod = some PaymentMethod.credito <;>
        simp [revertPrevious, formChange, Spec.debitDelta, hot, hnt, hop, hnp] <;> omega
    have hc : (readBalances s.userFinancials).usedCredit
          + (revertPrevious (formChange formData.type formData.paymentMethod amount) (some old)).2
        = (readBalances s.userFinancials).usedCredit
          - Spec.creditDelta old.type old.paymentMethod old.amount
          + Spec.creditDelta formData.type formData.paymentMethod amount := by
      cases hot : old.type <;> cases hnt : formData.type <;>
        by_cases hop : old.paymentMethod = some PaymentMethod.credito <;>
        by_cases hnp : formData.paymentMethod = some PaymentMethod.credito <;>
        simp [revertPrevious, formChange, Spec.creditDelta, hot, hnt, hop, hnp] <;> omega
    simp only [updatedBalances]
    rw [hd, hc]
  refine ⟨hpath, fun hvalid hamount hdoc => ?_⟩
  obtain ⟨hs, hf⟩ := handleSubmit_edit hvalid hamount id old newId s hdoc
  rw [hf, hpath]
  exact ⟨hs, rfl⟩

/-- C3, at the scenario of the specification: editing the credit expense of
30000 into a credit expense of 50000 while `usedCredit = 30000` gives
`usedCredit = 50000`, and `debitBalance` stays at 100000. -/
theorem edit_applies_one_combined_delta_witness :
    (handleSubmit true (expenseForm 50000 PaymentMethod.credito) (some (1, creditExpense))
        sampleClock 2 true storeAfterCreditExpense).success = true ∧
      (handleSubmit true (expenseForm 50000 PaymentMethod.credito) (some (1, creditExpense))
        sampleClock 2 true storeAfterCreditExpense).store.userFinancials =
        some { debitBalance := some 100000, creditLimit := some 500000,
               usedCredit := some 50000 } :=
  (edit_applies_one_combined_delta storeAfterCreditExpense
    (expenseForm 50000 PaymentMethod.credito) sampleClock 2 1 creditExpense 50000).2
    (by decide) rfl (by decide)

/-- C4, the code at the failing input. `handleDeleteTransaction` never writes
`userFinancials`; on the scenario of the specification the credit expense of
30000 is created (`usedCredit` goes from 0 to 30000, nothing is clamped) and then
deleted: the transaction is gone, `usedCredit` is still 30000 and the aggregate
differs from the one before the create. -/
theorem delete_leaves_aggregate_untouched :
    (∀ (confirmed deleteOk : Bool) (transactionId : Nat) (s : Store),
        (TransactionsPage.handleDeleteTransaction confirmed deleteOk transactionId
          s).store.userFinancials = s.userFinancials) ∧
      createdCreditExpense.success = true ∧
      createdCreditExpense.store.transactions = [(1, creditExpense)] ∧
      createdCreditExpense.store.userFinancials =
        some { debitBalance := some 100000, creditLimit := some 500000,
               usedCredit := some 30000 } ∧
      (TransactionsPage.handleDeleteTransaction true true 1
        createdCreditExpense.store).success = true ∧
      (TransactionsPage.handleDeleteTransaction true true 1
        createdCreditExpense.store).store.transactions = [] ∧
      (TransactionsPage.handleDeleteTransaction true true 1
        createdCreditExpense.store).store.userFinancials =
        some { debitBalance := some 100000, creditLimit := some 500000,
               usedCredit := some 30000 } ∧
      (TransactionsPage.handleDeleteTransaction true true 1
        createdCreditExpense.store).store.userFinancials ≠ fundedStore.userFinancials := by
  refine ⟨?_, by decide, by decide, by decide, by decide, by decide, by decide, by decide⟩
  intro confirmed deleteOk transactionId s
  unfold TransactionsPage.handleDeleteTransaction
  cases confirmed <;> cases deleteOk <;> rfl

/-- C5, the code at the failing input. On `debitBalance = 100000`,
`usedCredit = 30000` (nothing is clamped) the edit of the credit expense of 30000
into one of 50000 writes `usedCredit = 50000`, while deleting it and creating the
expense of 50000 writes `usedCredit = 80000`: both leave one transaction of
50000, with different aggregates. -/
theorem edit_differs_from_delete_then_create :
    editedInPlace.success = true ∧ deletedThenCreated.success = true ∧
      editedInPlace.store.transactions.map (fun d => d.2.amount) = [50000] ∧
      deletedThenCreated.store.transactions.map (fun d => d.2.amount) = [50000] ∧
      editedInPlace.store.userFinancials =
        some { debitBalance := some 100000, creditLimit := some 500000,
               usedCredit := some 50000 } ∧
      deletedThenCreated.store.userFinancials =
        some { debitBalance := some 100000, creditLimit := some 500000,
               usedCredit := some 80000 } ∧
      editedInPlace.store.userFinancials ≠ deletedThenCreated.store.userFinancials := by
  decide

end TransactionClaims

/-! ## Lemmas on document collections -/

section DocLemmas

variable {α : Type}

/-- Lookup in a collection with one more document in front. -/
theorem getDoc?_cons (d : Nat × α) (rest : List (Nat × α)) (id : Nat) :
    getDoc? (d :: rest) id = if d.1 = id then some d.2 else getDoc? rest id := by
  by_cases hd : d.1 = id
  · simp [getDoc?, List.find?_cons, hd]
  · have hb : (d.1 == id) = false := by simpa using hd
    simp [getDoc?, List.find?_cons, hd, hb]

/-- A document that can be read exists. -/
theorem hasDoc_of_getDoc? {docs : List (Nat × α)} {id : Nat} {x : α}
    (h : getDoc? docs id = some x) : hasDoc docs id = true := by
  induction docs with
  | nil => simp [getDoc?] at h
  | cons d rest ih =>
      rw [getDoc?_cons] at h
      by_cases hd : d.1 = id
      · simp [hasDoc, hd]
      · rw [if_neg hd] at h
        have := ih h
        simp only [hasDoc, List.any_cons, Bool.or_eq_true] at this ⊢
        exact Or.inr this

/-- Reading a document back after `updateDoc` gives the rewritten document. -/
theorem getDoc?_updateDoc (docs : List (Nat × α)) (id : Nat) (f : α → α) :
    getDoc? (updateDoc docs id f) id = (getDoc? docs id).map f := by
  induction docs with
  | nil => rfl
  | cons d rest ih =>
      have hcons : updateDoc (d :: rest) id f =
          (if d.1 == id then (d.1, f d.2) else d) :: updateDoc rest id f := rfl
      rw [hcons, getDoc?_cons, getDoc?_cons, ih]
      by_cases hd : d.1 = id
      · simp [hd]
      · have hb : (d.1 == id) = false := by simpa using hd
        simp [hd, hb]

/-- Deleting an id that is not in the collection changes nothing. -/
theorem deleteDoc_of_not_hasDoc {docs : List (Nat × α)} {id : Nat}
    (h : hasDoc docs id = false) : deleteDoc docs id = docs := by
  induction docs with
  | nil => rfl
  | cons d rest ih =>
      simp only [hasDoc, List.any_cons, Bool.or_eq_false_iff] at h
      have hrest : deleteDoc rest id = rest := ih (by simpa [hasDoc] using h.2)
      have hcons : deleteDoc (d :: rest) id = d :: deleteDoc rest id := by
        simp [deleteDoc, List.filter_cons, h.1]
      rw [hcons, hrest]

end DocLemmas

/-! ## Lemmas on double-precision numbers -/

section DoubleLemmas

open Double Functions

/-- The halving loop computes the integer part of the binary logarithm when it is
given enough turns. -/
theorem log2Loop_spec : ∀ (fuel n : Nat), n ≤ fuel → 0 < n →
    2 ^ log2Loop fuel n ≤ n ∧ n < 2 ^ (log2Loop fuel n + 1) := by
  intro fuel
  induction fuel with
  | zero => intro n h1 h2; omega
  | succ fuel ih =>
      intro n h1 h2
      by_cases hn : n < 2
      · simp only [log2Loop, hn, if_true]
        omega
      · simp only [log2Loop, hn, if_false]
        obtain ⟨a, b⟩ := ih (n / 2) (by omega) (by omega)
        rw [pow_succ, pow_succ]
        constructor <;> omega

/-- The integer part of the binary logarithm: `2 ^ log2 n ≤ n < 2 ^ (log2 n + 1)`. -/
theorem log2_spec (n : Nat) (hn : 0 < n) : 2 ^ log2 n ≤ n ∧ n < 2 ^ (log2 n + 1) :=
  log2Loop_spec n n le_rfl hn

/-- The scaled denominator is positive. -/
theorem scaledDen_pos (den : Nat) (e : Int) (hden : 0 < den) : 0 < scaledDen den e := by
  unfold scaledDen
  split
  · positivity
  · exact hden

/-- The scaled fraction is the fraction divided by the power of 2. -/
theorem scaled_ratio (a den : Nat) (e : Int) (hden : 0 < den) :
    (scaledNum a e : ℚ) / (scaledDen den e : ℚ) = ((a : ℚ) / (den : ℚ)) / (2 : ℚ) ^ e := by
  have hd : (den : ℚ) ≠ 0 := by positivity
  unfold scaledNum scaledDen
  by_cases he : 0 ≤ e
  · simp only [he, if_true]
    obtain ⟨k, rfl⟩ := Int.eq_ofNat_of_zero_le he
    simp only [Int.toNat_ofNat, Nat.cast_mul, Nat.cast_pow, Nat.cast_ofNat, zpow_natCast]
    field_simp
  · simp only [he, if_false]
    obtain ⟨k, hk⟩ := Int.exists_eq_neg_ofNat (by omega : e ≤ 0)
    subst hk
    simp only [neg_neg, Int.toNat_ofNat, Nat.cast_mul, Nat.cast_pow, Nat.cast_ofNat, zpow_neg,
      zpow_natCast]
    field_simp

/-- The test of `binade`, as a comparison of the fraction with a power of 2. -/
theorem scaled_le_iff (a den : Nat) (e : Int) (hden : 0 < den) :
    scaledDen den e ≤ scaledNum a e ↔ (2 : ℚ) ^ e ≤ (a : ℚ) / (den : ℚ) := by
  have hD : (0 : ℚ) < (scaledDen den e : ℚ) := by exact_mod_cast scaledDen_pos den e hden
  have h2 : (0 : ℚ) < (2 : ℚ) ^ e := by positivity
  have hr := scaled_ratio a den e hden
  rw [← Nat.cast_le (α := ℚ), ← one_le_div hD, hr, one_le_div h2]

/-- The binary exponent `E` of a positive fraction: `2 ^ E ≤ a / den < 2 ^ (E + 1)`. -/
theorem binade_spec (a den : Nat) (ha : 0 < a) (hden : 0 < den) :
    (2 : ℚ) ^ binade a den ≤ (a : ℚ) / (den : ℚ) ∧
      (a : ℚ) / (den : ℚ) < (2 : ℚ) ^ (binade a den + 1) := by
  obtain ⟨a1, a2⟩ := log2_spec a ha
  obtain ⟨d1, d2⟩ := log2_spec den hden
  have hdq : (0 : ℚ) < (den : ℚ) := by exact_mod_cast hden
  have a1q : (2 : ℚ) ^ (log2 a : Int) ≤ (a : ℚ) := by
    rw [zpow_natCast]; exact_mod_cast a1
  have a2q : (a : ℚ) < (2 : ℚ) ^ ((log2 a : Int) + 1) := by
    have : ((log2 a : Int) + 1) = ((log2 a + 1 : Nat) : Int) := by push_cast; ring
    rw [this, zpow_natCast]; exact_mod_cast a2
  have d1q : (2 : ℚ) ^ (log2 den : Int) ≤ (den : ℚ) := by
    rw [zpow_natCast]; exact_mod_cast d1
  have d2q : (den : ℚ) < (2 : ℚ) ^ ((log2 den : Int) + 1) := by
    have : ((log2 den : Int) + 1) = ((log2 den + 1 : Nat) : Int) := by push_cast; ring
    rw [this, zpow_natCast]; exact_mod_cast d2
  have hupper : (a : ℚ) / (den : ℚ) < (2 : ℚ) ^ ((log2 a : Int) - (log2 den : Int) + 1) := by
    rw [div_lt_iff₀ hdq]
    have e1 : (2 : ℚ) ^ ((log2 a : Int) - (log2 den : Int) + 1) * (2 : ℚ) ^ (log2 den : Int) =
        (2 : ℚ) ^ ((log2 a : Int) + 1) := by
      rw [← zpow_add₀ (by norm_num : (2 : ℚ) ≠ 0)]; congr 1; ring
    calc (a : ℚ) < (2 : ℚ) ^ ((log2 a : Int) + 1) := a2q
      _ = (2 : ℚ) ^ ((log2 a : Int) - (log2 den : Int) + 1) * (2 : ℚ) ^ (log2 den : Int) := e1.symm
      _ ≤ (2 : ℚ) ^ ((log2 a : Int) - (log2 den : Int) + 1) * (den : ℚ) := by
          apply mul_le_mul_of_nonneg_left d1q; positivity
  have hlower : (2 : ℚ) ^ ((log2 a : Int) - (log2 den : Int) - 1) ≤ (a : ℚ) / (den : ℚ) := by
    rw [le_div_iff₀ hdq]
    have e1 : (2 : ℚ) ^ ((log2 a : Int) - (log2 den : Int) - 1) *
        (2 : ℚ) ^ ((log2 den : Int) + 1) = (2 : ℚ) ^ (log2 a : Int) := by
      rw [← zpow_add₀ (by norm_num : (2 : ℚ) ≠ 0)]; congr 1; ring
    calc (2 : ℚ) ^ ((log2 a : Int) - (log2 den : Int) - 1) * (den : ℚ)
        ≤ (2 : ℚ) ^ ((log2 a : Int) - (log2 den : Int) - 1) * (2 : ℚ) ^ ((log2 den : Int) + 1) := by
          apply mul_le_mul_of_nonneg_left d2q.le; positivity
      _ = (2 : ℚ) ^ (log2 a : Int) := e1
      _ ≤ (a : ℚ) := a1q
  unfold binade
  by_cases hc : scaledDen den ((log2 a : Int) - (log2 den : Int)) ≤
      scaledNum a ((log2 a : Int) - (log2 den : Int))
  · simp only [hc, if_true]
    exact ⟨(scaled_le_iff a den _ hden).mp hc, hupper⟩
  · simp only [hc, if_false]
    refine ⟨hlower, ?_⟩
    have := (scaled_le_iff a den ((log2 a : Int) - (log2 den : Int)) hden).not.mp hc
    rw [sub_add_cancel]
    exact not_le.mp this

/-- The rounded quotient is at least the integer quotient. -/
theorem roundHalfEven_ge (n d : Nat) : n / d ≤ roundHalfEven n d := by
  unfold roundHalfEven
  split_ifs <;> omega

/-- The rounded quotient is at most the integer quotient plus 1. -/
theorem roundHalfEven_le (n d : Nat) : roundHalfEven n d ≤ n / d + 1 := by
  unfold roundHalfEven
  split_ifs <;> omega

/-- The rounded quotient is at most half a unit above the fraction. -/
theorem roundHalfEven_upper (n d : Nat) (hd : 0 < d) :
    2 * (d * roundHalfEven n d) ≤ 2 * n + d := by
  have h := Nat.div_add_mod n d
  have hm := Nat.mod_lt n hd
  unfold roundHalfEven
  generalize n / d = q at h ⊢
  generalize n % d = r at h hm ⊢
  subst h
  have hq : d * (q + 1) = d * q + d := by ring
  split_ifs <;> try simp only [hq]
  all_goals generalize d * q = p
  all_goals omega

/-- The rounded quotient is at most half a unit below the fraction. -/
theorem roundHalfEven_lower (n d : Nat) (hd : 0 < d) :
    2 * n ≤ 2 * (d * roundHalfEven n d) + d := by
  have h := Nat.div_add_mod n d
  have hm := Nat.mod_lt n hd
  unfold roundHalfEven
  generalize n / d = q at h ⊢
  generalize n % d = r at h hm ⊢
  subst h
  have hq : d * (q + 1) = d * q + d := by ring
  split_ifs <;> try simp only [hq]
  all_goals generalize d * q = p
  all_goals omega

/-- Rounding depends on the value of the fraction only. -/
theorem roundHalfEven_scale (c n d : Nat) (hc : 0 < c) :
    roundHalfEven (c * n) (c * d) = roundHalfEven n d := by
  unfold roundHalfEven
  rw [Nat.mul_div_mul_left _ _ hc, Nat.mul_mod_mul_left]
  have e0 : 2 * (c * (n % d)) = c * (2 * (n % d)) := by ring
  have e1 : (2 * (c * (n % d)) < c * d) ↔ (2 * (n % d) < d) := by
    rw [e0]; exact Nat.mul_lt_mul_left hc
  have e2 : (c * d < 2 * (c * (n % d))) ↔ (d < 2 * (n % d)) := by
    rw [e0]; exact Nat.mul_lt_mul_left hc
  simp only [e1, e2]

/-- The double nearest to a positive fraction. -/
theorem ofRatio_pos (a den : Nat) (ha : 0 < a) :
    ofRatio (a : Int) den =
      { mantissa := (roundHalfEven (scaledNum a (binade a den - 52))
          (scaledDen den (binade a den - 52)) : Int)
        exponent := binade a den - 52 } := by
  have hne : (a : Int) ≠ 0 := by exact_mod_cast ha.ne'
  have hs : Int.sign (a : Int) = 1 := Int.sign_eq_one_of_pos (by exact_mod_cast ha)
  simp [ofRatio, hne, hs]

/-- Rounding a positive fraction to a double: the exponent is that of the
fraction with 52 taken off, and the result lies within half a unit of the last
place of the fraction. -/
theorem ofRatio_spec (a den : Nat) (ha : 0 < a) (hden : 0 < den) :
    0 < (ofRatio (a : Int) den).mantissa ∧
      (2 : ℚ) ^ ((ofRatio (a : Int) den).exponent + 52) ≤ (a : ℚ) / (den : ℚ) ∧
      (a : ℚ) / (den : ℚ) < (2 : ℚ) ^ ((ofRatio (a : Int) den).exponent + 53) ∧
      |(ofRatio (a : Int) den).toRat - (a : ℚ) / (den : ℚ)| ≤
        (2 : ℚ) ^ ((ofRatio (a : Int) den).exponent - 1) := by
  rw [ofRatio_pos a den ha]
  obtain ⟨b1, b2⟩ := binade_spec a den ha hden
  set e := binade a den - 52 with he
  have hD := scaledDen_pos den e hden
  have hDq : (0 : ℚ) < (scaledDen den e : ℚ) := by exact_mod_cast hD
  have hratio := scaled_ratio a den e hden
  have h2e : (0 : ℚ) < (2 : ℚ) ^ e := by positivity
  have hx : (a : ℚ) / (den : ℚ) =
      ((scaledNum a e : ℚ) / (scaledDen den e : ℚ)) * (2 : ℚ) ^ e := by
    rw [hratio]; field_simp; ring
  have hup := roundHalfEven_upper (scaledNum a e) (scaledDen den e) hD
  have hlo := roundHalfEven_lower (scaledNum a e) (scaledDen den e) hD
  have hupq : 2 * ((scaledDen den e : ℚ) * (roundHalfEven (scaledNum a e) (scaledDen den e) : ℚ)) ≤
      2 * (scaledNum a e : ℚ) + (scaledDen den e : ℚ) := by exact_mod_cast hup
  have hloq : 2 * (scaledNum a e : ℚ) ≤
      2 * ((scaledDen den e : ℚ) * (roundHalfEven (scaledNum a e) (scaledDen den e) : ℚ)) +
        (scaledDen den e : ℚ) := by exact_mod_cast hlo
  have hN : (2 : ℚ) ^ (52 : Int) ≤ (scaledNum a e : ℚ) / (scaledDen den e : ℚ) := by
    rw [hratio, le_div_iff₀ h2e, ← zpow_add₀ (by norm_num : (2 : ℚ) ≠ 0)]
    have : (52 : Int) + e = binade a den := by omega
    rw [this]; exact b1
  have hmpos : 0 < roundHalfEven (scaledNum a e) (scaledDen den e) := by
    have h1 : scaledDen den e * 2 ^ 52 ≤ scaledNum a e := by
      have : (2 : ℚ) ^ (52 : Int) * (scaledDen den e : ℚ) ≤ (scaledNum a e : ℚ) :=
        (le_div_iff₀ hDq).mp hN
      have h3 : ((scaledDen den e * 2 ^ 52 : Nat) : ℚ) ≤ (scaledNum a e : ℚ) := by
        push_cast
        rw [mul_comm]
        exact_mod_cast this
      exact_mod_cast h3
    have h2 : 2 ^ 52 ≤ scaledNum a e / scaledDen den e :=
      (Nat.le_div_iff_mul_le hD).mpr (by rw [mul_comm]; exact h1)
    have := roundHalfEven_ge (scaledNum a e) (scaledDen den e)
    have h4 : 0 < 2 ^ 52 := by norm_num
    omega
  refine ⟨Int.natCast_pos.mpr hmpos, ?_, ?_, ?_⟩
  · have : e + 52 = binade a den := by omega
    simp only [this]; exact b1
  · have : e + 53 = binade a den + 1 := by omega
    simp only [this]; exact b2
  · simp only [toRat, Int.cast_natCast]
    rw [hx, ← sub_mul, abs_mul, abs_of_pos h2e]
    have hhalf : (2 : ℚ) ^ (e - 1) = (1 / 2) * (2 : ℚ) ^ e := by
      rw [zpow_sub₀ (by norm_num : (2 : ℚ) ≠ 0)]; simp; ring
    rw [hhalf]
    apply mul_le_mul_of_nonneg_right _ h2e.le
    have h1 : (scaledNum a e : ℚ) / (scaledDen den e : ℚ) ≤
        (roundHalfEven (scaledNum a e) (scaledDen den e) : ℚ) + 1 / 2 := by
      rw [div_le_iff₀ hDq]; nlinarith
    have h2 : (roundHalfEven (scaledNum a e) (scaledDen den e) : ℚ) - 1 / 2 ≤
        (scaledNum a e : ℚ) / (scaledDen den e : ℚ) := by
      rw [le_div_iff₀ hDq]; nlinarith
    rw [abs_le]
    constructor <;> linarith

/-- The arithmetic behind `Math.round` of a rounded quotient: when the quotient
`t / n` is scaled by `2 * P` with `n < 2 * P` and rounded to the integer `m`,
half rounding `m / (2 * P)` up gives the nearest integer of `t / n`. -/
theorem round_scaled_arith (t n P m : Nat) (hn : 0 < n) (hsmall : n < 2 * P)
    (hm1 : t * (2 * P) / n ≤ m) (hm2 : 2 * (n * m) ≤ 2 * (t * (2 * P)) + n) :
    (2 * m + 2 * P) / (2 * (2 * P)) = (2 * t + n) / (2 * n) := by
  have hk1 : 2 * n * ((2 * t + n) / (2 * n)) ≤ 2 * t + n := Nat.mul_div_le _ _
  have hk2 : 2 * t + n < 2 * n * ((2 * t + n) / (2 * n) + 1) := by
    have := Nat.lt_mul_div_succ (2 * t + n) (by omega : 0 < 2 * n)
    simpa using this
  generalize (2 * t + n) / (2 * n) = k at hk1 hk2
  apply Nat.div_eq_of_lt_le
  · rcases Nat.eq_zero_or_pos k with hk0 | hkpos
    · rw [hk0]; omega
    · obtain ⟨j, hj⟩ : ∃ j, 2 * k = j + 1 := ⟨2 * k - 1, by omega⟩
      have h1 : j * n ≤ 2 * t := by
        have : j * n + n = 2 * n * k := by
          calc j * n + n = (j + 1) * n := by ring
            _ = 2 * k * n := by rw [hj]
            _ = 2 * n * k := by ring
        omega
      have hA : P * j ≤ t * (2 * P) / n := by
        rw [Nat.le_div_iff_mul_le hn]
        calc P * j * n = P * (j * n) := by ring
          _ ≤ P * (2 * t) := Nat.mul_le_mul_left _ h1
          _ = t * (2 * P) := by ring
      have hA2 : P * j ≤ m := le_trans hA hm1
      have h3 : k * (2 * (2 * P)) = 2 * (P * j) + 2 * P := by
        calc k * (2 * (2 * P)) = 2 * ((2 * k) * P) := by ring
          _ = 2 * ((j + 1) * P) := by rw [hj]
          _ = 2 * (P * j) + 2 * P := by ring
      omega
  · have h4 : 2 * t + 1 ≤ 2 * n * k + n := by linarith
    have h1 : m < (2 * k + 1) * P := by
      by_contra hcon
      have h2 : (2 * k + 1) * P ≤ m := not_lt.mp hcon
      have h3 : n * ((2 * k + 1) * P) ≤ n * m := Nat.mul_le_mul_left _ h2
      have h5 : (2 * t + 1) * (2 * P) ≤ (2 * n * k + n) * (2 * P) := Nat.mul_le_mul_right _ h4
      have e1 : n * ((2 * k + 1) * P) = 2 * (n * k * P) + n * P := by ring
      have e2 : (2 * n * k + n) * (2 * P) = 4 * (n * k * P) + 2 * (n * P) := by ring
      have e3 : (2 * t + 1) * (2 * P) = 2 * (t * (2 * P)) + 2 * P := by ring
      rw [e1] at h3
      rw [e2, e3] at h5
      generalize n * k * P = a at h3 h5
      generalize n * P = b at h3 h5
      generalize t * (2 * P) = c at h5 hm2
      generalize n * m = d at h3 hm2
      omega
    have e4 : (k + 1) * (2 * (2 * P)) = 2 * ((2 * k + 1) * P) + 2 * P := by ring
    omega

/-- On amounts below 2^52 the rounded double quotient is the nearest integer of
the exact quotient, half rounded up. -/
theorem mathRound_ofRatio (t n : Nat) (ht : 0 < t) (hn : 0 < n) (hbound : t < 2 ^ 52) :
    mathRound (ofRatio (t : Int) n) = (((2 * t + n) / (2 * n) : Nat) : Int) := by
  obtain ⟨_, hlow, _, _⟩ := ofRatio_spec t n ht hn
  rw [ofRatio_pos t n ht] at hlow ⊢
  simp only at hlow
  set e := binade t n - 52 with he
  have hnq : (0 : ℚ) < (n : ℚ) := by exact_mod_cast hn
  -- the exponent is negative
  have hx : (t : ℚ) / (n : ℚ) < (2 : ℚ) ^ (52 : Int) := by
    rw [div_lt_iff₀ hnq]
    have h1 : (t : ℚ) < (2 : ℚ) ^ (52 : Int) := by
      norm_num
      exact_mod_cast hbound
    have h2 : (1 : ℚ) ≤ (n : ℚ) := by exact_mod_cast hn
    have h3 : (0 : ℚ) < (2 : ℚ) ^ (52 : Int) := by positivity
    nlinarith
  have hlt : (2 : ℚ) ^ (e + 52) < (2 : ℚ) ^ (52 : Int) := lt_of_le_of_lt hlow hx
  have heneg : e < 0 := by
    have := (zpow_lt_zpow_iff_right₀ (by norm_num : (1 : ℚ) < 2)).mp hlt
    omega
  obtain ⟨s, hs⟩ := Int.exists_eq_neg_ofNat (by omega : e ≤ 0)
  have hspos : 0 < s := by omega
  have hnum : scaledNum t e = t * 2 ^ s := by
    simp [scaledNum, hs, show ¬ (0 : Int) ≤ -(s : Int) by omega]
  have hden : scaledDen n e = n := by
    simp [scaledDen, hs, show ¬ (0 : Int) ≤ -(s : Int) by omega]
  rw [hnum, hden]
  -- normalisation: n * 2^52 ≤ t * 2^s
  have hnorm : n * 2 ^ 52 ≤ t * 2 ^ s := by
    have h1 : (2 : ℚ) ^ (e + 52) * (n : ℚ) ≤ (t : ℚ) := (le_div_iff₀ hnq).mp hlow
    have h2 : (2 : ℚ) ^ (e + 52) * (2 : ℚ) ^ (s : Nat) = (2 : ℚ) ^ (52 : Nat) := by
      rw [hs, ← zpow_natCast, ← zpow_natCast, ← zpow_add₀ (by norm_num : (2 : ℚ) ≠ 0)]
      congr 1
      push_cast
      ring
    have h2s : (0 : ℚ) < (2 : ℚ) ^ (s : Nat) := by positivity
    have h3 : ((n * 2 ^ 52 : Nat) : ℚ) ≤ ((t * 2 ^ s : Nat) : ℚ) := by
      push_cast
      calc (n : ℚ) * 2 ^ 52 = (2 : ℚ) ^ (e + 52) * (n : ℚ) * (2 : ℚ) ^ (s : Nat) := by
            rw [← h2]; ring
        _ ≤ (t : ℚ) * (2 : ℚ) ^ (s : Nat) := mul_le_mul_of_nonneg_right h1 h2s.le
    exact_mod_cast h3
  have hsmall : n < 2 ^ s := by
    by_contra hcon
    have h1 : 2 ^ s ≤ n := not_lt.mp hcon
    have h2 : t * 2 ^ s < 2 ^ 52 * 2 ^ s := Nat.mul_lt_mul_of_lt_of_le hbound le_rfl (by positivity)
    have h3 : 2 ^ s * 2 ^ 52 ≤ n * 2 ^ 52 := Nat.mul_le_mul_right _ h1
    nlinarith
  obtain ⟨P, hP⟩ : ∃ P, 2 ^ s = 2 * P := by
    obtain ⟨s', rfl⟩ := Nat.exists_eq_succ_of_ne_zero hspos.ne'
    exact ⟨2 ^ s', by rw [pow_succ]; ring⟩
  have hval : mathRound
      { mantissa := (roundHalfEven (t * 2 ^ s) n : Int), exponent := e } =
      (((2 * roundHalfEven (t * 2 ^ s) n + 2 ^ s) / 2 ^ (s + 1) : Nat) : Int) := by
    simp only [mathRound, hs, show ¬ (0 : Int) ≤ -(s : Int) by omega, if_false, neg_neg,
      Int.toNat_ofNat]
    push_cast
    rfl
  rw [hval, pow_succ, hP, mul_comm (2 * P) 2]
  congr 1
  apply round_scaled_arith t n P _ hn (hP ▸ hsmall)
  · exact roundHalfEven_ge _ _
  · exact roundHalfEven_upper _ _ hn

/-- No rounding takes place on a denominator of 1. -/
theorem roundHalfEven_one (n : Nat) : roundHalfEven n 1 = n := by
  simp [roundHalfEven, Nat.mod_one]

/-- An integer of magnitude at most 2^53 is a double. -/
theorem toInt_ofRatio_one (z : Int) (hz : |z| ≤ 2 ^ 53) : (ofRatio z 1).toInt = z := by
  by_cases h0 : z = 0
  · subst h0
    simp [ofRatio, toInt]
  · have ha : 0 < z.natAbs := Int.natAbs_pos.mpr h0
    have hzabs : (z.natAbs : Int) = |z| := Int.natCast_natAbs z
    have hale : z.natAbs ≤ 2 ^ 53 := by
      have : (z.natAbs : Int) ≤ 2 ^ 53 := by rw [hzabs]; exact hz
      exact_mod_cast this
    obtain ⟨b1, b2⟩ := binade_spec z.natAbs 1 ha Nat.one_pos
    simp only [Nat.cast_one, div_one] at b1 b2
    have hsign : Int.sign z * (z.natAbs : Int) = z := Int.sign_mul_natAbs z
    simp only [ofRatio, h0, if_false]
    rcases lt_trichotomy (binade z.natAbs 1 - 52) 0 with hneg | hzero | hpos
    · obtain ⟨s, hs⟩ := Int.exists_eq_neg_ofNat (by omega : binade z.natAbs 1 - 52 ≤ 0)
      have hnn : ¬ (0 : Int) ≤ -(s : Int) := by omega
      simp only [hs, scaledNum, scaledDen, hnn, if_false, neg_neg, Int.toNat_ofNat,
        roundHalfEven_one, toInt]
      push_cast
      have hsign2 : Int.sign z * |z| = z := by rw [← hzabs]; exact hsign
      rw [← mul_assoc, hsign2]
      exact Int.mul_ediv_cancel _ (by positivity)
    · simp only [hzero, scaledNum, scaledDen, le_refl, if_true, Int.toNat_zero, pow_zero,
        mul_one, roundHalfEven_one, toInt]
      exact hsign
    · -- the magnitude is 2^53
      have hE : (2 : ℚ) ^ (53 : Int) ≤ (2 : ℚ) ^ binade z.natAbs 1 :=
        zpow_le_zpow_right₀ (by norm_num) (by omega)
      have haq : (z.natAbs : ℚ) ≤ (2 : ℚ) ^ (53 : Int) := by
        norm_num
        exact_mod_cast hale
      have hub := (zpow_le_zpow_iff_right₀ (by norm_num : (1 : ℚ) < 2)).mp (le_trans b1 haq)
      have haeq : (z.natAbs : ℚ) = (2 : ℚ) ^ (53 : Int) := le_antisymm haq (le_trans hE b1)
      have hbin : binade z.natAbs 1 - 52 = 1 := by omega
      have hanat : z.natAbs = 2 ^ 53 := by
        have : (z.natAbs : ℚ) = ((2 ^ 53 : Nat) : ℚ) := by rw [haeq]; norm_num
        exact_mod_cast this
      rw [hbin, hanat]
      have hr : roundHalfEven (scaledNum (2 ^ 53) 1) (scaledDen 1 1) = 2 ^ 52 := by decide
      rw [hr]
      have hz2 : z = Int.sign z * 2 ^ 53 := by
        conv_lhs => rw [← hsign, hanat]
        norm_num
      simp only [toInt, zero_le_one, if_true]
      conv_rhs => rw [hz2]
      norm_num
      ring

/-- The product of two integers is exact as long as it is of magnitude at most
2^53. -/
theorem doubleMul_exact (a b : Int) (h : |a * b| ≤ 2 ^ 53) : Double.mul a b = a * b :=
  toInt_ofRatio_one (a * b) h

/-- The comparison `d >= t` is that of the numbers the two stand for. -/
theorem geInt_iff (d : Double) (t : Int) : geInt d t = true ↔ (t : ℚ) ≤ d.toRat := by
  unfold geInt toRat
  by_cases he : 0 ≤ d.exponent
  · rw [if_pos he]
    obtain ⟨k, hk⟩ := Int.eq_ofNat_of_zero_le he
    simp only [decide_eq_true_eq, hk, Int.toNat_ofNat, zpow_natCast]
    constructor
    · intro h; exact_mod_cast h
    · intro h; exact_mod_cast h
  · rw [if_neg he]
    obtain ⟨k, hk⟩ := Int.exists_eq_neg_ofNat (by omega : d.exponent ≤ 0)
    simp only [hk, decide_eq_true_eq, neg_neg, Int.toNat_ofNat, zpow_neg, zpow_natCast]
    rw [← div_eq_mul_inv, le_div_iff₀ (by positivity)]
    constructor
    · intro h; exact_mod_cast h
    · intro h; exact_mod_cast h

/-- A double that is not positive is not at least a positive integer. -/
theorem geInt_of_nonpos (d : Double) (t : Int) (hd : d.mantissa ≤ 0) (ht : 0 < t) :
    geInt d t = false := by
  cases hg : geInt d t with
  | false => rfl
  | true =>
      exfalso
      have h := (geInt_iff d t).mp hg
      have h1 : d.toRat ≤ 0 := by
        unfold toRat
        apply mul_nonpos_of_nonpos_of_nonneg
        · exact_mod_cast hd
        · positivity
      have h2 : (0 : ℚ) < (t : ℚ) := by exact_mod_cast ht
      linarith

/-- The mantissa of the rounded fraction has the sign of the numerator. -/
theorem ofRatio_mantissa_nonpos (num : Int) (den : Nat) (h : num ≤ 0) :
    (ofRatio num den).mantissa ≤ 0 := by
  unfold ofRatio
  by_cases h0 : num = 0
  · simp [h0]
  · simp only [h0, if_false]
    have hs : Int.sign num = -1 := Int.sign_eq_neg_one_of_neg (by omega)
    rw [hs]
    have : (0 : Int) ≤ (roundHalfEven (scaledNum num.natAbs (binade num.natAbs den - 52))
      (scaledDen den (binade num.natAbs den - 52)) : Int) := Int.natCast_nonneg _
    omega

/-- The binary exponent of a fraction is the only `E` with
`2 ^ E ≤ a / den < 2 ^ (E + 1)`. -/
theorem binade_unique (a den : Nat) (ha : 0 < a) (hden : 0 < den) (E : Int)
    (h1 : (2 : ℚ) ^ E ≤ (a : ℚ) / (den : ℚ)) (h2 : (a : ℚ) / (den : ℚ) < (2 : ℚ) ^ (E + 1)) :
    binade a den = E := by
  obtain ⟨b1, b2⟩ := binade_spec a den ha hden
  have l1 := (zpow_lt_zpow_iff_right₀ (by norm_num : (1 : ℚ) < 2)).mp (lt_of_le_of_lt h1 b2)
  have l2 := (zpow_lt_zpow_iff_right₀ (by norm_num : (1 : ℚ) < 2)).mp (lt_of_le_of_lt b1 h2)
  omega

/-- Rounding depends on the value of the fraction only. -/
theorem ofRatio_scale (c a den : Nat) (hc : 0 < c) (ha : 0 < a) (hden : 0 < den) :
    ofRatio ((c * a : Nat) : Int) (c * den) = ofRatio (a : Int) den := by
  have hcq : (c : ℚ) ≠ 0 := by positivity
  have hratio : ((c * a : Nat) : ℚ) / ((c * den : Nat) : ℚ) = (a : ℚ) / (den : ℚ) := by
    push_cast
    rw [mul_div_mul_left _ _ hcq]
  obtain ⟨b1, b2⟩ := binade_spec a den ha hden
  have hbin : binade (c * a) (c * den) = binade a den :=
    binade_unique (c * a) (c * den) (by positivity) (by positivity) _
      (by rw [hratio]; exact b1) (by rw [hratio]; exact b2)
  rw [ofRatio_pos (c * a) (c * den) (by positivity), ofRatio_pos a den ha, hbin]
  have hn : scaledNum (c * a) (binade a den - 52) = c * scaledNum a (binade a den - 52) := by
    unfold scaledNum
    split_ifs
    · rfl
    · ring
  have hd : scaledDen (c * den) (binade a den - 52) = c * scaledDen den (binade a den - 52) := by
    unfold scaledDen
    split_ifs
    · ring
    · rfl
  rw [hn, hd, roundHalfEven_scale _ _ _ hc]

/-- The relative error of rounding a positive fraction is at most 2^-53. -/
theorem ofRatio_rel (a den : Nat) (ha : 0 < a) (hden : 0 < den) :
    (a : ℚ) / (den : ℚ) * (1 - 1 / 2 ^ 53) ≤ (ofRatio (a : Int) den).toRat ∧
      (ofRatio (a : Int) den).toRat ≤ (a : ℚ) / (den : ℚ) * (1 + 1 / 2 ^ 53) := by
  obtain ⟨_, h1, _, h3⟩ := ofRatio_spec a den ha hden
  have hsplit : (2 : ℚ) ^ ((ofRatio (a : Int) den).exponent - 1) =
      (2 : ℚ) ^ ((ofRatio (a : Int) den).exponent + 52) * (1 / 2 ^ 53) := by
    have : (ofRatio (a : Int) den).exponent - 1 =
        ((ofRatio (a : Int) den).exponent + 52) + (-53 : Int) := by ring
    rw [this, zpow_add₀ (by norm_num : (2 : ℚ) ≠ 0)]
    norm_num
  rw [hsplit] at h3
  have h4 : (2 : ℚ) ^ ((ofRatio (a : Int) den).exponent + 52) * (1 / 2 ^ 53) ≤
      (a : ℚ) / (den : ℚ) * (1 / 2 ^ 53) :=
    mul_le_mul_of_nonneg_right h1 (by positivity)
  have h5 := abs_le.mp (le_trans h3 h4)
  constructor <;> linarith [h5.1, h5.2]

/-- The product of a positive double and a positive integer is the rounding of
the exact product. -/
theorem mulInt_pos (d : Double) (k : Nat) (hd : 0 < d.mantissa) (hk : 0 < k) :
    ∃ a den : Nat, 0 < a ∧ 0 < den ∧ mulInt d (k : Int) = ofRatio (a : Int) den ∧
      (a : ℚ) / (den : ℚ) = d.toRat * (k : ℚ) := by
  obtain ⟨m, hm⟩ := Int.eq_ofNat_of_zero_le hd.le
  have hmpos : 0 < m := by omega
  unfold mulInt toRat
  by_cases he : 0 ≤ d.exponent
  · rw [if_pos he]
    obtain ⟨j, hj⟩ := Int.eq_ofNat_of_zero_le he
    refine ⟨m * k * 2 ^ j, 1, by positivity, Nat.one_pos, ?_, ?_⟩
    · simp only [hm, hj, Int.toNat_ofNat]
      norm_cast
    · simp only [hm, hj, zpow_natCast]
      push_cast
      ring
  · rw [if_neg he]
    obtain ⟨j, hj⟩ := Int.exists_eq_neg_ofNat (by omega : d.exponent ≤ 0)
    refine ⟨m * k, 2 ^ j, by positivity, by positivity, ?_, ?_⟩
    · simp only [hj, hm, neg_neg, Int.toNat_ofNat]
      norm_cast
    · simp only [hm, hj, zpow_neg, zpow_natCast]
      push_cast
      field_simp

/-- The product of a double that is not positive and a natural number is not
positive. -/
theorem mulInt_mantissa_nonpos (d : Double) (k : Nat) (hd : d.mantissa ≤ 0) :
    (mulInt d (k : Int)).mantissa ≤ 0 := by
  unfold mulInt
  have hk : (0 : Int) ≤ (k : Int) := Int.natCast_nonneg k
  split
  · apply ofRatio_mantissa_nonpos
    exact mul_nonpos_of_nonpos_of_nonneg (mul_nonpos_of_nonpos_of_nonneg hd hk) (by positivity)
  · apply ofRatio_mantissa_nonpos
    exact mul_nonpos_of_nonpos_of_nonneg hd hk

/-- The percentage computed for a positive amount on a positive limit lies
within two roundings of the exact percentage. -/
theorem percentageSpent_rel (s L : Nat) (hs : 0 < s) (hL : 0 < L) :
    100 * ((s : ℚ) / (L : ℚ)) * ((1 - 1 / 2 ^ 53) * (1 - 1 / 2 ^ 53)) ≤
        (percentageSpent (s : Int) (L : Int)).toRat ∧
      (percentageSpent (s : Int) (L : Int)).toRat ≤
        100 * ((s : ℚ) / (L : ℚ)) * ((1 + 1 / 2 ^ 53) * (1 + 1 / 2 ^ 53)) := by
  have hdiv : Double.div (s : Int) (L : Int) = ofRatio (s : Int) L := by
    have h1 : Int.sign (L : Int) = 1 := Int.sign_eq_one_of_pos (by exact_mod_cast hL)
    simp [Double.div, h1]
  obtain ⟨hm, _, _, _⟩ := ofRatio_spec s L hs hL
  obtain ⟨r1, r2⟩ := ofRatio_rel s L hs hL
  obtain ⟨a, den, ha, hden, hmul, hratio⟩ := mulInt_pos (ofRatio (s : Int) L) 100 hm (by norm_num)
  obtain ⟨q1, q2⟩ := ofRatio_rel a den ha hden
  have hp : percentageSpent (s : Int) (L : Int) = ofRatio (a : Int) den := by
    unfold percentageSpent
    rw [hdiv]
    exact_mod_cast hmul
  rw [hp]
  rw [hratio] at q1 q2
  have hx : (0 : ℚ) ≤ (s : ℚ) / (L : ℚ) := by positivity
  push_cast at q1 q2
  constructor
  · nlinarith
  · nlinarith

/-- On a positive limit of at most 2^44 the comparison of the computed percentage
with one of the bounds 90, 100, 110 and 120 agrees with the exact comparison. -/
theorem percentageSpent_ge_iff (s L t : Int) (hL : 0 < L) (hbound : L ≤ 2 ^ 44)
    (ht : t = 90 ∨ t = 100 ∨ t = 110 ∨ t = 120) :
    (percentageSpent s L).geInt t = true ↔ t * L ≤ 100 * s := by
  have htpos : 0 < t := by omega
  have htle : t ≤ 120 := by omega
  rcases le_or_lt s 0 with hs | hs
  · -- nothing spent: the percentage is not positive
    have h1 : Int.sign L = 1 := Int.sign_eq_one_of_pos hL
    have hd : (Double.div s L).mantissa ≤ 0 := by
      unfold Double.div
      apply ofRatio_mantissa_nonpos
      rw [h1]; omega
    have hp : (percentageSpent s L).mantissa ≤ 0 := by
      unfold percentageSpent
      exact_mod_cast mulInt_mantissa_nonpos (Double.div s L) 100 hd
    rw [geInt_of_nonpos _ t hp htpos]
    constructor
    · intro h; exact Bool.noConfusion h
    · intro h
      exfalso
      have : 0 < t * L := Int.mul_pos htpos hL
      omega
  · obtain ⟨a, ha⟩ := Int.eq_ofNat_of_zero_le hs.le
    obtain ⟨b, hb⟩ := Int.eq_ofNat_of_zero_le hL.le
    subst ha hb
    have hapos : 0 < a := by exact_mod_cast hs
    have hbpos : 0 < b := by exact_mod_cast hL
    have hbq : (0 : ℚ) < (b : ℚ) := by exact_mod_cast hbpos
    have hble : (b : ℚ) ≤ 2 ^ 44 := by exact_mod_cast hbound
    obtain ⟨r1, r2⟩ := percentageSpent_rel a b hapos hbpos
    rw [geInt_iff]
    have htq : (0 : ℚ) < (t : ℚ) := by exact_mod_cast htpos
    have htq2 : (t : ℚ) ≤ 120 := by exact_mod_cast htle
    rcases lt_trichotomy (t * (b : Int)) (100 * (a : Int)) with hlt | heq | hgt
    · -- above the bound by at least 1 / L
      have h1 : t * (b : Int) + 1 ≤ 100 * (a : Int) := by omega
      have h1q : (t : ℚ) * (b : ℚ) + 1 ≤ 100 * (a : ℚ) := by exact_mod_cast h1
      have hp : (t : ℚ) + 1 / (b : ℚ) ≤ 100 * ((a : ℚ) / (b : ℚ)) := by
        rw [← mul_div_assoc, le_div_iff₀ hbq, add_mul, one_div, inv_mul_cancel₀ hbq.ne']
        exact h1q
      have hw : (1 : ℚ) / 2 ^ 44 ≤ 1 / (b : ℚ) := by
        apply one_div_le_one_div_of_le hbq hble
      constructor
      · intro _; omega
      · intro _
        have hc : (0 : ℚ) ≤ (1 - 1 / 2 ^ 53) * (1 - 1 / 2 ^ 53) := by norm_num
        have h2 : ((t : ℚ) + 1 / (b : ℚ)) * ((1 - 1 / 2 ^ 53) * (1 - 1 / 2 ^ 53)) ≤
            100 * ((a : ℚ) / (b : ℚ)) * ((1 - 1 / 2 ^ 53) * (1 - 1 / 2 ^ 53)) :=
          mul_le_mul_of_nonneg_right hp hc
        have h3 : (t : ℚ) ≤ ((t : ℚ) + 1 / (b : ℚ)) * ((1 - 1 / 2 ^ 53) * (1 - 1 / 2 ^ 53)) := by
          norm_num at hw ⊢
          linarith
        linarith
    · -- exactly on the bound: the two roundings are those of the bound itself
      constructor
      · intro _; omega
      · intro _
        rw [← geInt_iff]
        have hdiv : ∀ (c x y : Nat), 0 < c → 0 < x → 0 < y → a = c * x → b = c * y →
            percentageSpent (a : Int) (b : Int) = (ofRatio (x : Int) y).mulInt 100 := by
          intro c x y hc hx hy hax hby
          unfold percentageSpent Double.div
          have h1 : Int.sign (b : Int) = 1 := Int.sign_eq_one_of_pos hL
          rw [h1, one_mul, Int.natAbs_ofNat, hax, hby, ofRatio_scale c x y hc hx hy]
        rcases ht with rfl | rfl | rfl | rfl
        · rw [hdiv (b / 10) 9 10 (by omega) (by norm_num) (by norm_num) (by omega) (by omega)]
          decide
        · rw [hdiv b 1 1 hbpos (by norm_num) (by norm_num) (by omega) (by omega)]
          decide
        · rw [hdiv (b / 10) 11 10 (by omega) (by norm_num) (by norm_num) (by omega) (by omega)]
          decide
        · rw [hdiv (b / 5) 6 5 (by omega) (by norm_num) (by norm_num) (by omega) (by omega)]
          decide
    · -- below the bound by at least 1 / L
      have h1 : 100 * (a : Int) + 1 ≤ t * (b : Int) := by omega
      have h1q : 100 * (a : ℚ) + 1 ≤ (t : ℚ) * (b : ℚ) := by exact_mod_cast h1
      have hp : 100 * ((a : ℚ) / (b : ℚ)) ≤ (t : ℚ) - 1 / (b : ℚ) := by
        rw [← mul_div_assoc, div_le_iff₀ hbq, sub_mul, one_div, inv_mul_cancel₀ hbq.ne']
        linarith
      have hw : (1 : ℚ) / 2 ^ 44 ≤ 1 / (b : ℚ) := by
        apply one_div_le_one_div_of_le hbq hble
      constructor
      · intro h
        exfalso
        have hc : (0 : ℚ) ≤ (1 + 1 / 2 ^ 53) * (1 + 1 / 2 ^ 53) := by norm_num
        have h2 : 100 * ((a : ℚ) / (b : ℚ)) * ((1 + 1 / 2 ^ 53) * (1 + 1 / 2 ^ 53)) ≤
            ((t : ℚ) - 1 / (b : ℚ)) * ((1 + 1 / 2 ^ 53) * (1 + 1 / 2 ^ 53)) :=
          mul_le_mul_of_nonneg_right hp hc
        have h3 : ((t : ℚ) - 1 / (b : ℚ)) * ((1 + 1 / 2 ^ 53) * (1 + 1 / 2 ^ 53)) < (t : ℚ) := by
          norm_num at hw ⊢
          linarith
        linarith
      · intro h; omega

example : inBand 6703294007107615 5586078339256346 110 = false := by decide

/-- The mantissa of the rounded fraction is not negative when the numerator is
not. -/
theorem ofRatio_mantissa_nonneg (num : Int) (den : Nat) (h : 0 ≤ num) :
    0 ≤ (Double.ofRatio num den).mantissa := by
  unfold Double.ofRatio
  by_cases h0 : num = 0
  · simp [h0]
  · simp only [h0, if_false]
    have hs : Int.sign num = 1 := Int.sign_eq_one_of_pos (by omega)
    rw [hs, one_mul]
    exact Int.natCast_nonneg _

/-- The function `Math.round` gives no negative number on a double that is not
negative. -/
theorem mathRound_nonneg (d : Double) (h : 0 ≤ d.mantissa) : 0 ≤ mathRound d := by
  unfold mathRound
  split
  · exact mul_nonneg h (by positivity)
  · exact Int.ediv_nonneg (by positivity) (by positivity)

/-- The product of two integers that are not negative is not negative. -/
theorem doubleMul_nonneg (a b : Int) (ha : 0 ≤ a) (hb : 0 ≤ b) : 0 ≤ Double.mul a b := by
  have hm := ofRatio_mantissa_nonneg (a * b) 1 (mul_nonneg ha hb)
  unfold Double.mul Double.toInt
  split
  · exact mul_nonneg hm (by positivity)
  · exact Int.ediv_nonneg hm (by positivity)

/-- The nearest integer of `num / den`, a half being rounded up, as a floor. -/
theorem nearest_bounds (num den : Int) (hden : 0 < den) :
    2 * num - den < 2 * den * ((2 * num + den) / (2 * den)) ∧
      2 * den * ((2 * num + den) / (2 * den)) ≤ 2 * num + den := by
  have h2 : (0 : Int) < 2 * den := by omega
  have hdiv := Int.ediv_add_emod (2 * num + den) (2 * den)
  have hnonneg := Int.emod_nonneg (2 * num + den) (ne_of_gt h2)
  have hlt := Int.emod_lt_of_pos (2 * num + den) h2
  constructor <;> linarith

/-- For a total below 2^52 `Math.round(total / installments)` is the nearest
integer of the exact quotient, a half being rounded up. -/
theorem mathRound_div (t n : Int) (ht : 0 < t) (hn : 0 < n) (hb : t < 2 ^ 52) :
    mathRound (Double.div t n) = (2 * t + n) / (2 * n) := by
  obtain ⟨a, rfl⟩ := Int.eq_ofNat_of_zero_le ht.le
  obtain ⟨b, rfl⟩ := Int.eq_ofNat_of_zero_le hn.le
  have hs : Int.sign (b : Int) = 1 := Int.sign_eq_one_of_pos hn
  have hdiv : Double.div (a : Int) (b : Int) = Double.ofRatio (a : Int) b := by
    simp [Double.div, hs]
  rw [hdiv, mathRound_ofRatio a b (by exact_mod_cast ht) (by exact_mod_cast hn)
    (by exact_mod_cast hb)]
  push_cast
  rfl

/-- The monthly payment the form computes is not negative. -/
theorem mathRound_div_nonneg (t n : Int) (ht : 0 ≤ t) (hn : 0 < n) :
    0 ≤ mathRound (Double.div t n) := by
  apply mathRound_nonneg
  unfold Double.div
  apply ofRatio_mantissa_nonneg
  rw [Int.sign_eq_one_of_pos hn, one_mul]
  exact ht

end DoubleLemmas

/-! ## Lemmas on the loan payment -/

section LoanLemmas

open MakeLoanPaymentModal

/-- Acceptance of a non-empty input by `validatePayment` on a loan whose stored
remaining amount is positive, as a condition on the numbers. -/
theorem validatePayment_some_iff (loan : Loan) (remainingAmount amount totalBalance : Int)
    (hstored : loan.remainingAmount = some remainingAmount) (hpos : 0 < remainingAmount) :
    (validatePayment (some amount) loan totalBalance).isValid = true ↔
      0 < amount ∧ amount ≤ remainingAmount ∧ amount ≤ totalBalance ∧
        (loan.monthlyPayment ≤ amount ∨ remainingAmount ≤ loan.monthlyPayment) := by
  have hne : remainingAmount ≠ 0 := by omega
  simp only [validatePayment, hstored, jsOr, hne, if_false]
  split_ifs with h1 h2 h3 h4
  · simp; omega
  · simp; omega
  · simp; omega
  · simp
    rcases h4 with ⟨h4a, h4b⟩
    have hm : loan.monthlyPayment < remainingAmount := by
      rcases le_total loan.monthlyPayment remainingAmount with hle | hle
      · rw [min_eq_left hle] at h4b; exact h4b
      · rw [min_eq_right hle] at h4b; omega
    rw [min_eq_left hm.le] at h4a
    omega
  · simp
    refine ⟨by omega, by omega, by omega, ?_⟩
    by_contra hcon
    push_neg at hcon
    apply h4
    rw [min_eq_left hcon.2.le]
    exact ⟨hcon.1, hcon.2⟩

/-- An accepted payment is positive and at most the remaining amount the modal
reads from the loan. -/
theorem validatePayment_bounds (paymentAmount : Option Int) (loan : Loan) (totalBalance : Int)
    (h : (validatePayment paymentAmount loan totalBalance).isValid = true) :
    ∃ amount, paymentAmount = some amount ∧ 0 < amount ∧
      amount ≤ jsOr loan.remainingAmount loan.totalAmount := by
  cases paymentAmount with
  | none => simp [validatePayment] at h
  | some amount =>
      refine ⟨amount, rfl, ?_⟩
      simp only [validatePayment] at h
      split_ifs at h with h1 h2 h3 h4
      all_goals first | (simp at h; done) | exact ⟨by omega, by omega⟩

/-- The loan document after a submission of the payment modal opened on a stored
loan: the store is as it was, or the loan holds the new remaining amount, with
status 'paid' when that is 0. -/
theorem handleSubmit_loan (s : Store) (id : Nat) (loan : Loan) (paymentAmount : Option Int)
    (totalBalance now : Int) (newId : Nat) (commitOk : Bool)
    (hdoc : getDoc? s.loans id = some loan) :
    (handleSubmit (some (id, loan)) paymentAmount totalBalance now newId commitOk s).store = s ∨
      ∃ amount, paymentAmount = some amount ∧ 0 < amount ∧
        amount ≤ jsOr loan.remainingAmount loan.totalAmount ∧
        getDoc? (handleSubmit (some (id, loan)) paymentAmount totalBalance now newId commitOk
            s).store.loans id =
          some { loan with
            remainingAmount :=
              some (jsOr loan.remainingAmount loan.totalAmount - amount)
            status :=
              if jsOr loan.remainingAmount loan.totalAmount - amount = 0 then LoanStatus.paid
              else loan.status } := by
  by_cases hvalid : (validatePayment paymentAmount loan totalBalance).isValid = true
  · obtain ⟨amount, rfl, hpos, hle⟩ := validatePayment_bounds paymentAmount loan totalBalance hvalid
    have hhas : hasDoc s.loans id = true := hasDoc_of_getDoc? hdoc
    cases commitOk with
    | false => left; simp [handleSubmit, hvalid, commit, finish]
    | true =>
        right
        refine ⟨amount, rfl, hpos, hle, ?_⟩
        by_cases hzero : jsOr loan.remainingAmount loan.totalAmount - amount ≤ 0
        · have hz : jsOr loan.remainingAmount loan.totalAmount - amount = 0 := by omega
          cases hfin : s.userFinancials with
          | none =>
              simp [handleSubmit, hvalid, commit, finish, List.foldlM, applyWrite, loanUpdate,
                financialsUpdate, hhas, hz, hfin, getDoc?_updateDoc, hdoc]
          | some f =>
              simp [handleSubmit, hvalid, commit, finish, List.foldlM, applyWrite, loanUpdate,
                financialsUpdate, hhas, hz, hfin, getDoc?_updateDoc, hdoc]
        · have hz : jsOr loan.remainingAmount loan.totalAmount - amount ≠ 0 := by omega
          cases hfin : s.userFinancials with
          | none =>
              simp [handleSubmit, hvalid, commit, finish, List.foldlM, applyWrite, loanUpdate,
                financialsUpdate, hhas, hz, hzero, hfin, getDoc?_updateDoc, hdoc]
          | some f =>
              simp [handleSubmit, hvalid, commit, finish, List.foldlM, applyWrite, loanUpdate,
                financialsUpdate, hhas, hz, hzero, hfin, getDoc?_updateDoc, hdoc]
  · left
    simp [handleSubmit, hvalid]

/-- A loan that is not active is not listed, and no payment can be made on it
from the page. -/
theorem makePayment_of_paid (s : Store) (id : Nat) (loan : Loan) (payment : LoansPage.Payment)
    (hdoc : getDoc? s.loans id = some loan) (hpaid : loan.status = LoanStatus.paid) :
    LoansPage.listedLoan s id = none ∧
      LoansPage.makePayment id payment s = { store := s, success := false } := by
  have hlist : LoansPage.listedLoan s id = none := by
    simp [LoansPage.listedLoan, hdoc, hpaid]
  exact ⟨hlist, by simp [LoansPage.makePayment, hlist]⟩

/-- One payment made from the page on a well-formed loan: the loan stays
well-formed, its stored remaining amount does not increase, and a paid loan is
left alone. -/
theorem makePayment_step (s : Store) (id : Nat) (loan : Loan) (payment : LoansPage.Payment)
    (hdoc : getDoc? s.loans id = some loan) (hwf : loan.wellFormed = true) :
    ∃ loan', getDoc? (LoansPage.makePayment id payment s).store.loans id = some loan' ∧
      loan'.wellFormed = true ∧
      (∀ r, loan.remainingAmount = some r →
        ∃ r', loan'.remainingAmount = some r' ∧ 0 ≤ r' ∧ r' ≤ r) ∧
      (loan.status = LoanStatus.paid → loan' = loan) := by
  have hkeep : ∀ out : Outcome, out.store = s →
      ∃ loan', getDoc? out.store.loans id = some loan' ∧ loan'.wellFormed = true ∧
        (∀ r, loan.remainingAmount = some r →
          ∃ r', loan'.remainingAmount = some r' ∧ 0 ≤ r' ∧ r' ≤ r) ∧
        (loan.status = LoanStatus.paid → loan' = loan) := by
    intro out hout
    rw [hout]
    refine ⟨loan, hdoc, hwf, ?_, fun _ => rfl⟩
    intro r hr
    refine ⟨r, hr, ?_, le_rfl⟩
    simp only [Loan.wellFormed, hr] at hwf
    cases hst : loan.status <;> simp [hst] at hwf <;> omega
  by_cases hp : loan.status = LoanStatus.paid
  · rw [(makePayment_of_paid s id loan payment hdoc hp).2]
    exact hkeep _ rfl
  · have hst : loan.status = LoanStatus.active := by
      cases h : loan.status with
      | active => rfl
      | paid => exact absurd h hp
    have hlist : LoansPage.listedLoan s id = some loan := by
      simp [LoansPage.listedLoan, hdoc, hst]
    simp only [LoansPage.makePayment, hlist]
    split_ifs with hdis
    · exact hkeep _ rfl
    · rcases handleSubmit_loan s id loan payment.paymentAmount payment.totalBalance payment.now
        payment.newId payment.commitOk hdoc with hsame | ⟨amount, _, hpos, hle, hnew⟩
      · exact hkeep _ hsame
      · refine ⟨_, hnew, ?_, ?_, ?_⟩
        · simp only [Loan.wellFormed]
          by_cases hz : jsOr loan.remainingAmount loan.totalAmount - amount = 0
          · simp [hz]
          · simp [hz, hst]; omega
        · intro r hr
          refine ⟨_, rfl, by omega, ?_⟩
          simp only [Loan.wellFormed, hr, hst] at hwf
          have hrpos : 0 < r := by simpa using hwf
          have : jsOr loan.remainingAmount loan.totalAmount = r := by
            simp [jsOr, hr]; omega
          omega
        · intro hp'; exact absurd hp' hp

/-- A sequence of payments made from the page on a well-formed loan. -/
theorem makePayments_keeps (id : Nat) (payments : List LoansPage.Payment) :
    ∀ (s : Store) (loan : Loan), getDoc? s.loans id = some loan → loan.wellFormed = true →
      ∃ loan', getDoc? (LoansPage.makePayments id s payments).loans id = some loan' ∧
        loan'.wellFormed = true ∧
        (∀ r, loan.remainingAmount = some r →
          ∃ r', loan'.remainingAmount = some r' ∧ 0 ≤ r' ∧ r' ≤ r) ∧
        (loan.status = LoanStatus.paid → loan' = loan) := by
  induction payments with
  | nil =>
      intro s loan hdoc hwf
      refine ⟨loan, hdoc, hwf, ?_, fun _ => rfl⟩
      intro r hr
      refine ⟨r, hr, ?_, le_rfl⟩
      simp only [Loan.wellFormed, hr] at hwf
      cases hst : loan.status <;> simp [hst] at hwf <;> omega
  | cons payment rest ih =>
      intro s loan hdoc hwf
      obtain ⟨loan1, hdoc1, hwf1, hmono1, hpaid1⟩ := makePayment_step s id loan payment hdoc hwf
      obtain ⟨loan2, hdoc2, hwf2, hmono2, hpaid2⟩ := ih _ loan1 hdoc1 hwf1
      refine ⟨loan2, ?_, hwf2, ?_, ?_⟩
      · simpa [LoansPage.makePayments] using hdoc2
      · intro r hr
        obtain ⟨r1, hr1, h0, h1⟩ := hmono1 r hr
        obtain ⟨r2, hr2, h2, h3⟩ := hmono2 r1 hr1
        exact ⟨r2, hr2, h2, le_trans h3 h1⟩
      · intro hp
        have h1 := hpaid1 hp
        rw [h1] at hpaid2
        exact hpaid2 hp

/-- A loan registered by `AddLoanModal` is well-formed. -/
theorem loanData_wellFormed (formData : AddLoanModal.FormData) (totalAmount installments : Int)
    (installmentsPaid : Option Int) :
    (AddLoanModal.loanData formData totalAmount installments installmentsPaid).wellFormed =
      true := by
  cases installmentsPaid with
  | none => simp [AddLoanModal.loanData, Loan.wellFormed]
  | some paid =>
      simp only [AddLoanModal.loanData, Loan.wellFormed, Option.map_some']
      split_ifs with h
      · simp [max_eq_left h]
      · have hpos : 0 < totalAmount -
            Double.mul paid (AddLoanModal.calculateMonthlyPayment formData) := by omega
        simp [max_eq_right hpos.le, hpos]

end LoanLemmas

/-! ## Claims on the loan payment -/

section LoanClaims

open MakeLoanPaymentModal

/-- C6, the claim as stated fails. On a loan whose remaining amount (50000) is
below the monthly payment (100000), `validatePayment` accepts a payment of 10000
although it is below `min(monthlyPayment, remainingAmount) = 50000` and does not
liquidate the loan. -/
theorem validatePayment_accepts_part_of_last_instalment :
    (validatePayment (some 10000) (carLoan 50000 LoanStatus.active) 1000000).isValid = true ∧
      ¬ Spec.paymentAllowed 10000 50000 100000 1000000 := by
  decide

/-- C6, amended. On a loan whose stored `remainingAmount` is positive,
`validatePayment` accepts exactly the amounts with `0 < amount ≤ remainingAmount`,
`amount ≤ totalBalance` and `amount ≥ monthlyPayment`, the last condition being
dropped when `remainingAmount ≤ monthlyPayment`; an empty input is rejected. -/
theorem validatePayment_accepts_iff (loan : Loan) (remainingAmount : Int)
    (paymentAmount : Option Int) (totalBalance : Int)
    (hstored : loan.remainingAmount = some remainingAmount) (hpos : 0 < remainingAmount) :
    (validatePayment paymentAmount loan totalBalance).isValid = true ↔
      ∃ amount, paymentAmount = some amount ∧ 0 < amount ∧ amount ≤ remainingAmount ∧
        amount ≤ totalBalance ∧
        (loan.monthlyPayment ≤ amount ∨ remainingAmount ≤ loan.monthlyPayment) := by
  cases paymentAmount with
  | none => simp [validatePayment]
  | some amount =>
      simp only [Option.some.injEq, exists_eq_left']
      exact validatePayment_some_iff loan remainingAmount amount totalBalance hstored hpos

/-- C6, amended, at a concrete input: on the loan with 300000 remaining and a
monthly payment of 100000, a payment of 100000 is accepted with a balance of
1000000. -/
theorem validatePayment_accepts_iff_witness :
    (carLoan 300000 LoanStatus.active).remainingAmount = some 300000 ∧
      (validatePayment (some 100000) (carLoan 300000 LoanStatus.active) 1000000).isValid = true :=
  ⟨rfl, (validatePayment_accepts_iff (carLoan 300000 LoanStatus.active) 300000 (some 100000)
    1000000 rfl (by decide)).mpr ⟨100000, rfl, by decide, by decide, by decide,
      Or.inl (by decide)⟩⟩

/-- C7. A fully paid loan accepts no further payment. A stored loan that is
well-formed and holds the remaining amount 0 has status 'paid'; `LoansPage` lists
active loans only, so the payment modal cannot be opened on it: whatever the
amount, the balance and the fate of the commit, a payment attempted from the page
ends without success and leaves the store as it is. -/
theorem paid_loan_accepts_no_payment (s : Store) (id : Nat) (loan : Loan)
    (payment : LoansPage.Payment)
    (hdoc : getDoc? s.loans id = some loan) (hwf : loan.wellFormed = true)
    (hzero : loan.remainingAmount = some 0) :
    loan.status = LoanStatus.paid ∧
      LoansPage.listedLoan s id = none ∧
      LoansPage.makePayment id payment s = { store := s, success := false } := by
  have hpaid : loan.status = LoanStatus.paid := by
    cases hst : loan.status with
    | paid => rfl
    | active => simp [Loan.wellFormed, hst, hzero] at hwf
  exact ⟨hpaid, makePayment_of_paid s id loan payment hdoc hpaid⟩

/-- C7, at the scenario of the specification: on the loan of 1200000 that is
fully paid a payment of 100000 with a balance of 700000 writes nothing. -/
theorem paid_loan_accepts_no_payment_witness :
    getDoc? (loanStore (carLoan 0 LoanStatus.paid) 700000).loans 1 =
        some (carLoan 0 LoanStatus.paid) ∧
      LoansPage.makePayment 1
          { paymentAmount := some 100000, totalBalance := 700000, now := 500, newId := 7,
            commitOk := true }
          (loanStore (carLoan 0 LoanStatus.paid) 700000) =
        { store := loanStore (carLoan 0 LoanStatus.paid) 700000, success := false } :=
  ⟨by decide,
    (paid_loan_accepts_no_payment (loanStore (carLoan 0 LoanStatus.paid) 700000) 1
      (carLoan 0 LoanStatus.paid)
      { paymentAmount := some 100000, totalBalance := 700000, now := 500, newId := 7,
        commitOk := true }
      (by decide) (by decide) rfl).2.2⟩

/-- C8. Loan monotonicity. After every finite sequence of payments made from
`LoansPage` on a stored well-formed loan (accepted or not, whatever the fate of
the commits) the loan is still stored and well-formed: its status is 'paid'
exactly when its stored remaining amount is 0, a stored remaining amount has not
increased and is not negative, and a loan that was 'paid' is left as it was, so
it never owes a positive amount nor returns to 'active'. -/
theorem loan_payments_are_monotone (s : Store) (id : Nat) (loan : Loan)
    (payments : List LoansPage.Payment)
    (hdoc : getDoc? s.loans id = some loan) (hwf : loan.wellFormed = true) :
    ∃ loan', getDoc? (LoansPage.makePayments id s payments).loans id = some loan' ∧
      loan'.wellFormed = true ∧
      (loan'.status = LoanStatus.paid ↔ loan'.remainingAmount = some 0) ∧
      (loan'.status = LoanStatus.active → loan.status = LoanStatus.active) ∧
      (∀ r, loan.remainingAmount = some r →
        ∃ r', loan'.remainingAmount = some r' ∧ 0 ≤ r' ∧ r' ≤ r) ∧
      (loan.status = LoanStatus.paid → loan' = loan) := by
  obtain ⟨loan', hdoc', hwf', hmono, hpaid⟩ := makePayments_keeps id payments s loan hdoc hwf
  refine ⟨loan', hdoc', hwf', ?_, ?_, hmono, hpaid⟩
  · cases hst : loan'.status with
    | paid =>
        cases hr : loan'.remainingAmount with
        | none => simp [Loan.wellFormed, hst, hr] at hwf'
        | some r =>
            have : r = 0 := by simpa [Loan.wellFormed, hst, hr] using hwf'
            simp [this]
    | active =>
        cases hr : loan'.remainingAmount with
        | none => simp
        | some r =>
            have hpos : 0 < r := by simpa [Loan.wellFormed, hst, hr] using hwf'
            constructor
            · intro h; cases h
            · intro h
              have := Option.some.inj h
              omega
  · intro hact
    cases hst : loan.status with
    | active => rfl
    | paid =>
        rw [hpaid hst, hst] at hact
        cases hact

/-- C8, at the scenario of the specification: on the active loan with 300000
remaining the payment of 300000 stores the remaining amount 0 with status 'paid',
and the payment of 100000 that follows changes nothing. -/
theorem loan_payments_are_monotone_witness :
    getDoc? (LoansPage.makePayments 1 (loanStore (carLoan 300000 LoanStatus.active) 1000000)
        samplePayments).loans 1 = some (carLoan 0 LoanStatus.paid) ∧
      ∃ loan', getDoc? (LoansPage.makePayments 1
          (loanStore (carLoan 300000 LoanStatus.active) 1000000) samplePayments).loans 1 =
            some loan' ∧
        (loan'.status = LoanStatus.paid ↔ loan'.remainingAmount = some 0) :=
  ⟨by decide,
    (loan_payments_are_monotone (loanStore (carLoan 300000 LoanStatus.active) 1000000) 1
      (carLoan 300000 LoanStatus.active) samplePayments (by decide) (by decide)).imp
      (fun _ h => ⟨h.1, h.2.2.1⟩)⟩

/-- C9. Effect of an accepted loan payment. For a stored loan with a positive
`remainingAmount` and an amount accepted by `validatePayment`, `handleSubmit`
commits: the loan gets `remainingAmount = max 0 (remainingAmount - amount)`, its
status becomes 'paid' when that is 0 and is left alone otherwise; one expense
transaction of that amount in category 'Préstamos' is added to the ledger; an
existing aggregate gets `debitBalance = max 0 (debitBalance - amount)` and keeps
its other fields, and a missing aggregate is created from the balance held by
the page with `usedCredit = 0`. -/
theorem loan_payment_effect (s : Store) (id : Nat) (loan : Loan)
    (remainingAmount amount totalBalance now : Int) (newId : Nat)
    (hdoc : getDoc? s.loans id = some loan)
    (hfresh : hasDoc s.transactions newId = false)
    (hstored : loan.remainingAmount = some remainingAmount) (hpos : 0 < remainingAmount)
    (haccepted : (validatePayment (some amount) loan totalBalance).isValid = true) :
    (handleSubmit (some (id, loan)) (some amount) totalBalance now newId true s).success = true ∧
      getDoc? (handleSubmit (some (id, loan)) (some amount) totalBalance now newId true
          s).store.loans id =
        some { loan with
          remainingAmount := some (max 0 (remainingAmount - amount))
          status := if max 0 (remainingAmount - amount) = 0 then LoanStatus.paid
            else loan.status } ∧
      (handleSubmit (some (id, loan)) (some amount) totalBalance now newId true
          s).store.transactions =
        (newId, paymentTransaction loan amount now) :: s.transactions ∧
      (paymentTransaction loan amount now).type = TransactionType.expense ∧
      (paymentTransaction loan amount now).amount = amount ∧
      (paymentTransaction loan amount now).category = "Préstamos" ∧
      (∀ f, s.userFinancials = some f →
        (handleSubmit (some (id, loan)) (some amount) totalBalance now newId true
            s).store.userFinancials =
          some { f with debitBalance := some (max 0 (jsOr f.debitBalance 0 - amount)) }) ∧
      (s.userFinancials = none →
        (handleSubmit (some (id, loan)) (some amount) totalBalance now newId true
            s).store.userFinancials =
          some { debitBalance := some (max 0 (totalBalance - amount)), creditLimit := some 0,
                 usedCredit := some 0 }) := by
  obtain ⟨hpos_a, hle, -, -⟩ :=
    (validatePayment_some_iff loan remainingAmount amount totalBalance hstored hpos).mp haccepted
  have hne : remainingAmount ≠ 0 := by omega
  have hhas : hasDoc s.loans id = true := hasDoc_of_getDoc? hdoc
  have hmax : max 0 (remainingAmount - amount) = remainingAmount - amount :=
    max_eq_right (by omega)
  have hjs : jsOr loan.remainingAmount loan.totalAmount = remainingAmount := by
    simp [jsOr, hstored, hne]
  have hdel : deleteDoc s.transactions newId = s.transactions := deleteDoc_of_not_hasDoc hfresh
  rw [hmax]
  by_cases hzero : remainingAmount - amount ≤ 0
  · have hz : remainingAmount - amount = 0 := by omega
    cases hfin : s.userFinancials with
    | none =>
        simp [handleSubmit, haccepted, hjs, commit, finish, List.foldlM, applyWrite, loanUpdate,
          financialsUpdate, hhas, hz, hfin, hdel, getDoc?_updateDoc, hdoc, paymentTransaction]
    | some f =>
        simp [handleSubmit, haccepted, hjs, commit, finish, List.foldlM, applyWrite, loanUpdate,
          financialsUpdate, hhas, hz, hfin, hdel, getDoc?_updateDoc, hdoc, paymentTransaction]
  · have hz : remainingAmount - amount ≠ 0 := by omega
    cases hfin : s.userFinancials with
    | none =>
        simp [handleSubmit, haccepted, hjs, commit, finish, List.foldlM, applyWrite, loanUpdate,
          financialsUpdate, hhas, hz, hzero, hfin, hdel, getDoc?_updateDoc, hdoc,
          paymentTransaction]
    | some f =>
        simp [handleSubmit, haccepted, hjs, commit, finish, List.foldlM, applyWrite, loanUpdate,
          financialsUpdate, hhas, hz, hzero, hfin, hdel, getDoc?_updateDoc, hdoc,
          paymentTransaction]

/-- C9, at the scenario of the specification: paying 300000 on the loan with
300000 remaining, with a debit balance of 1000000, stores `remainingAmount = 0`
and status 'paid', records the expense and leaves `debitBalance = 700000`. -/
theorem loan_payment_effect_witness :
    (validatePayment (some 300000) (carLoan 300000 LoanStatus.active) 1000000).isValid = true ∧
      firstPayment.success = true ∧
      getDoc? firstPayment.store.loans 1 = some (carLoan 0 LoanStatus.paid) ∧
      firstPayment.store.transactions =
        [(7, paymentTransaction (carLoan 300000 LoanStatus.active) 300000 500)] ∧
      firstPayment.store.userFinancials =
        some { debitBalance := some 700000, creditLimit := some 500000,
               usedCredit := some 20000 } :=
  have h := loan_payment_effect (loanStore (carLoan 300000 LoanStatus.active) 1000000) 1
    (carLoan 300000 LoanStatus.active) 300000 300000 1000000 500 7
    (by decide) (by decide) rfl (by decide) (by decide)
  ⟨by decide, h.1, h.2.1, h.2.2.1, h.2.2.2.2.2.2.1 _ rfl⟩

end LoanClaims

/-! ## Claims on the savings goals -/

section GoalClaims

/-- The two writes of a goal modal leave `userFinancials` as it was. -/
theorem goalWrites_userFinancials (updateOk addOk : Bool) (id : Nat) (newCurrentAmount : Int)
    (newId : Nat) (t : Transaction) (s : Store) :
    (goalWrites updateOk addOk id newCurrentAmount newId t s).store.userFinancials =
      s.userFinancials := by
  unfold goalWrites updateGoalAmount addTransaction
  cases updateOk <;> cases addOk <;> cases hasDoc s.savingGoals id <;> rfl

/-- C10, the code at the failing input. Neither goal modal ever writes
`userFinancials`, whatever its inputs. On the goal with target 500000 and a
debit balance of 100000 the contribution of 50000 is accepted (the goal holds
50000, an 'Ahorros' expense of 50000 is recorded) and the debit balance is still
100000; the withdrawal of 20000 that follows is accepted (the goal holds 30000,
an 'Ahorros' income of 20000 is recorded) and the debit balance is still
100000. -/
theorem goal_operations_leave_aggregate_untouched :
    (∀ (goal : Option (Nat × SavingGoal)) (amount : Option Int) (totalBalance now : Int)
        (newId : Nat) (updateOk addOk : Bool) (s : Store),
        (ContributeToGoalModal.handleSubmit goal amount totalBalance now newId updateOk addOk
          s).store.userFinancials = s.userFinancials) ∧
      (∀ (goal : Option (Nat × SavingGoal)) (amount : Option Int) (now : Int)
        (newId : Nat) (updateOk addOk : Bool) (s : Store),
        (WithdrawFromGoalModal.handleSubmit goal amount now newId updateOk addOk
          s).store.userFinancials = s.userFinancials) ∧
      contribution.success = true ∧
      contribution.store.savingGoals = [(1, travelGoal 50000)] ∧
      contribution.store.transactions.map (fun d => (d.2.type, d.2.category, d.2.amount)) =
        [(TransactionType.expense, "Ahorros", 50000)] ∧
      TransactionModal.readBalances goalStore.userFinancials =
        { debitBalance := 100000, usedCredit := 0 } ∧
      TransactionModal.readBalances contribution.store.userFinancials =
        { debitBalance := 100000, usedCredit := 0 } ∧
      withdrawal.success = true ∧
      withdrawal.store.savingGoals = [(1, travelGoal 30000)] ∧
      withdrawal.store.transactions.map (fun d => (d.2.type, d.2.category, d.2.amount)) =
        [(TransactionType.income, "Ahorros", 20000), (TransactionType.expense, "Ahorros", 50000)] ∧
      TransactionModal.readBalances withdrawal.store.userFinancials =
        { debitBalance := 100000, usedCredit := 0 } := by
  refine ⟨?_, ?_, by decide, by decide, by decide, by decide, by decide, by decide, by decide,
    by decide, by decide⟩
  · intro goal amount totalBalance now newId updateOk addOk s
    rcases goal with _ | ⟨id, g⟩
    · rfl
    · rcases amount with _ | a
      · rfl
      · simp only [ContributeToGoalModal.handleSubmit]
        split_ifs <;> first | rfl | exact goalWrites_userFinancials _ _ _ _ _ _ _
  · intro goal amount now newId updateOk addOk s
    rcases goal with _ | ⟨id, g⟩
    · rfl
    · rcases amount with _ | a
      · rfl
      · simp only [WithdrawFromGoalModal.handleSubmit]
        split_ifs <;> first | rfl | exact goalWrites_userFinancials _ _ _ _ _ _ _

/-- The goal collection after the two writes of a goal modal: untouched, or
with the new amount on the goal. -/
theorem goalWrites_savingGoals (updateOk addOk : Bool) (id : Nat) (newCurrentAmount : Int)
    (newId : Nat) (t : Transaction) (s : Store) :
    (goalWrites updateOk addOk id newCurrentAmount newId t s).store.savingGoals =
        s.savingGoals ∨
      (goalWrites updateOk addOk id newCurrentAmount newId t s).store.savingGoals =
        updateDoc s.savingGoals id (fun g => { g with currentAmount := newCurrentAmount }) := by
  unfold goalWrites updateGoalAmount addTransaction
  cases updateOk <;> cases addOk <;> cases hasDoc s.savingGoals id <;> simp

/-- The outcome of the two writes of a goal modal when both requests go through
and the goal document exists. -/
theorem goalWrites_success (id : Nat) (newCurrentAmount : Int) (newId : Nat) (t : Transaction)
    (s : Store) (hdoc : hasDoc s.savingGoals id = true) (addOk : Bool) :
    (goalWrites true addOk id newCurrentAmount newId t s).success = addOk ∧
      (goalWrites true addOk id newCurrentAmount newId t s).store.savingGoals =
        updateDoc s.savingGoals id (fun g => { g with currentAmount := newCurrentAmount }) ∧
      (goalWrites true addOk id newCurrentAmount newId t s).store.transactions =
        if addOk then (newId, t) :: deleteDoc s.transactions newId else s.transactions := by
  unfold goalWrites updateGoalAmount addTransaction
  cases addOk <;> simp [hdoc]

/-- C11, the code at the failing input. The goal modals issue `updateDoc` and
`addDoc` one after the other without a batch. When the update of the goal goes
through and the insert of the transaction fails, the contribution of 50000 ends
with an error, no transaction is recorded, and the goal already holds 50000
instead of 0; the withdrawal of 20000 likewise leaves the goal at 30000 instead
of 50000 with no income recorded. -/
theorem goal_update_survives_failed_insert :
    contributionCutShort.success = false ∧
      contributionCutShort.store.transactions = goalStore.transactions ∧
      getDoc? goalStore.savingGoals 1 = some (travelGoal 0) ∧
      getDoc? contributionCutShort.store.savingGoals 1 = some (travelGoal 50000) ∧
      withdrawalCutShort.success = false ∧
      withdrawalCutShort.store.transactions = contribution.store.transactions ∧
      getDoc? contribution.store.savingGoals 1 = some (travelGoal 50000) ∧
      getDoc? withdrawalCutShort.store.savingGoals 1 = some (travelGoal 30000) := by
  decide

/-- C14. Contribution acceptance. For a goal that is in the store,
`ContributeToGoalModal.handleSubmit` (both requests going through) succeeds
exactly when the input holds an amount with `0 < amount`,
`amount ≤ targetAmount - currentAmount` and `amount ≤ totalBalance`; for such an
amount the goal is stored with `currentAmount + amount` as soon as the update
request goes through; for every other input nothing is written, whatever the
fate of the requests. -/
theorem contribution_accepted_iff (s : Store) (id : Nat) (goal : SavingGoal)
    (amount : Option Int) (totalBalance now : Int) (newId : Nat)
    (hdoc : getDoc? s.savingGoals id = some goal) :
    ((ContributeToGoalModal.handleSubmit (some (id, goal)) amount totalBalance now newId true
          true s).success = true ↔
        ∃ a, amount = some a ∧ 0 < a ∧ a ≤ goal.targetAmount - goal.currentAmount ∧
          a ≤ totalBalance) ∧
      (∀ a, amount = some a → 0 < a → a ≤ goal.targetAmount - goal.currentAmount →
        a ≤ totalBalance → ∀ addOk,
        getDoc? (ContributeToGoalModal.handleSubmit (some (id, goal)) amount totalBalance now
            newId true addOk s).store.savingGoals id =
          some { goal with currentAmount := goal.currentAmount + a }) ∧
      ((¬ ∃ a, amount = some a ∧ 0 < a ∧ a ≤ goal.targetAmount - goal.currentAmount ∧
          a ≤ totalBalance) → ∀ updateOk addOk,
        ContributeToGoalModal.handleSubmit (some (id, goal)) amount totalBalance now newId
            updateOk addOk s = { store := s, success := false }) := by
  have hhas : hasDoc s.savingGoals id = true := hasDoc_of_getDoc? hdoc
  have hacc : ∀ a, 0 < a → a ≤ goal.targetAmount - goal.currentAmount → a ≤ totalBalance →
      ∀ updateOk addOk,
      ContributeToGoalModal.handleSubmit (some (id, goal)) (some a) totalBalance now newId
          updateOk addOk s =
        goalWrites updateOk addOk id (goal.currentAmount + a) newId
          { description := "Aporte a " ++ goal.goalName, amount := a,
            type := TransactionType.expense, category := "Ahorros", paymentMethod := none,
            bankName := none, date := now } s := by
    intro a h1 h2 h3 updateOk addOk
    have g1 : ¬ a ≤ 0 := by omega
    have g2 : ¬ goal.currentAmount + a > goal.targetAmount := by omega
    have g3 : ¬ a > totalBalance := by omega
    simp [ContributeToGoalModal.handleSubmit, g1, g2, g3]
  have hrej : (¬ ∃ a, amount = some a ∧ 0 < a ∧ a ≤ goal.targetAmount - goal.currentAmount ∧
      a ≤ totalBalance) → ∀ updateOk addOk,
      ContributeToGoalModal.handleSubmit (some (id, goal)) amount totalBalance now newId
          updateOk addOk s = { store := s, success := false } := by
    intro hno updateOk addOk
    cases amount with
    | none => rfl
    | some a =>
        simp only [ContributeToGoalModal.handleSubmit]
        split_ifs with g1 g2 g3
        · rfl
        · rfl
        · rfl
        · exact absurd ⟨a, rfl, by omega, by omega, by omega⟩ hno
  refine ⟨⟨fun hs => ?_, fun hA => ?_⟩, ?_, hrej⟩
  · by_contra hno
    rw [hrej hno true true] at hs
    exact Bool.false_ne_true hs
  · obtain ⟨a, rfl, h1, h2, h3⟩ := hA
    rw [hacc a h1 h2 h3 true true]
    exact (goalWrites_success id _ newId _ s hhas true).1
  · intro a ha h1 h2 h3 addOk
    subst ha
    rw [hacc a h1 h2 h3 true addOk, (goalWrites_success id _ newId _ s hhas addOk).2.1,
      getDoc?_updateDoc, hdoc]
    rfl

/-- C14, at the scenario of the specification: on the goal with target 500000
and nothing saved, a contribution of 600000 is rejected with a balance of 1000000
and nothing is written, while a contribution of 50000 is accepted. -/
theorem contribution_accepted_iff_witness :
    getDoc? goalStore.savingGoals 1 = some (travelGoal 0) ∧
      ContributeToGoalModal.handleSubmit (some (1, travelGoal 0)) (some 600000) 1000000 500 7
        true true goalStore = { store := goalStore, success := false } ∧
      (ContributeToGoalModal.handleSubmit (some (1, travelGoal 0)) (some 50000) 100000 500 7
        true true goalStore).success = true :=
  have h1 := contribution_accepted_iff goalStore 1 (travelGoal 0) (some 600000) 1000000 500 7
    (by decide)
  have h2 := contribution_accepted_iff goalStore 1 (travelGoal 0) (some 50000) 100000 500 7
    (by decide)
  ⟨by decide, h1.2.2 (by decide) true true,
    h2.1.mpr ⟨50000, rfl, by decide, by decide, by decide⟩⟩

/-- C15. Withdrawal acceptance and effect. For a goal that is in the store,
`WithdrawFromGoalModal.handleSubmit` (both requests going through) succeeds
exactly when the input holds an amount with `0 < amount ≤ currentAmount`; it then
stores the goal with `currentAmount - amount` and adds one income transaction of
that amount in category 'Ahorros' to the ledger; for every other input nothing
is written, whatever the fate of the requests. -/
theorem withdrawal_accepted_iff (s : Store) (id : Nat) (goal : SavingGoal)
    (amount : Option Int) (now : Int) (newId : Nat)
    (hdoc : getDoc? s.savingGoals id = some goal)
    (hfresh : hasDoc s.transactions newId = false) :
    ((WithdrawFromGoalModal.handleSubmit (some (id, goal)) amount now newId true true
          s).success = true ↔
        ∃ a, amount = some a ∧ 0 < a ∧ a ≤ goal.currentAmount) ∧
      (∀ a, amount = some a → 0 < a → a ≤ goal.currentAmount →
        getDoc? (WithdrawFromGoalModal.handleSubmit (some (id, goal)) amount now newId true
            true s).store.savingGoals id =
          some { goal with currentAmount := goal.currentAmount - a } ∧
        (WithdrawFromGoalModal.handleSubmit (some (id, goal)) amount now newId true true
            s).store.transactions =
          (newId, { description := "Retiro de " ++ goal.goalName, amount := a,
                    type := TransactionType.income, category := "Ahorros",
                    paymentMethod := none, bankName := none, date := now }) ::
            s.transactions) ∧
      ((¬ ∃ a, amount = some a ∧ 0 < a ∧ a ≤ goal.currentAmount) → ∀ updateOk addOk,
        WithdrawFromGoalModal.handleSubmit (some (id, goal)) amount now newId updateOk addOk s =
          { store := s, success := false }) := by
  have hhas : hasDoc s.savingGoals id = true := hasDoc_of_getDoc? hdoc
  have hdel : deleteDoc s.transactions newId = s.transactions := deleteDoc_of_not_hasDoc hfresh
  have hacc : ∀ a, 0 < a → a ≤ goal.currentAmount → ∀ updateOk addOk,
      WithdrawFromGoalModal.handleSubmit (some (id, goal)) (some a) now newId updateOk addOk s =
        goalWrites updateOk addOk id (goal.currentAmount - a) newId
          { description := "Retiro de " ++ goal.goalName, amount := a,
            type := TransactionType.income, category := "Ahorros", paymentMethod := none,
            bankName := none, date := now } s := by
    intro a h1 h2 updateOk addOk
    have g1 : ¬ a ≤ 0 := by omega
    have g2 : ¬ a > goal.currentAmount := by omega
    have g3 : ¬ goal.currentAmount - a < 0 := by omega
    simp [WithdrawFromGoalModal.handleSubmit, g1, g2, g3]
  have hrej : (¬ ∃ a, amount = some a ∧ 0 < a ∧ a ≤ goal.currentAmount) → ∀ updateOk addOk,
      WithdrawFromGoalModal.handleSubmit (some (id, goal)) amount now newId updateOk addOk s =
        { store := s, success := false } := by
    intro hno updateOk addOk
    cases amount with
    | none => rfl
    | some a =>
        simp only [WithdrawFromGoalModal.handleSubmit]
        split_ifs with g1 g2 g3
        · rfl
        · rfl
        · rfl
        · exact absurd ⟨a, rfl, by omega, by omega⟩ hno
  refine ⟨⟨fun hs => ?_, fun hA => ?_⟩, ?_, hrej⟩
  · by_contra hno
    rw [hrej hno true true] at hs
    exact Bool.false_ne_true hs
  · obtain ⟨a, rfl, h1, h2⟩ := hA
    rw [hacc a h1 h2 true true]
    exact (goalWrites_success id _ newId _ s hhas true).1
  · intro a ha h1 h2
    subst ha
    rw [hacc a h1 h2 true true, (goalWrites_success id _ newId _ s hhas true).2.1,
      (goalWrites_success id _ newId _ s hhas true).2.2, getDoc?_updateDoc, hdoc, hdel]
    exact ⟨rfl, rfl⟩

/-- C15, at a concrete input: withdrawing 20000 from the goal that holds 50000
is accepted and leaves 30000, while withdrawing 60000 is rejected and writes
nothing. -/
theorem withdrawal_accepted_iff_witness :
    (WithdrawFromGoalModal.handleSubmit (some (1, travelGoal 50000)) (some 20000) 501 8 true
        true contribution.store).success = true ∧
      getDoc? (WithdrawFromGoalModal.handleSubmit (some (1, travelGoal 50000)) (some 20000) 501
        8 true true contribution.store).store.savingGoals 1 = some (travelGoal 30000) ∧
      WithdrawFromGoalModal.handleSubmit (some (1, travelGoal 50000)) (some 60000) 501 8 true
        true contribution.store = { store := contribution.store, success := false } :=
  have h1 := withdrawal_accepted_iff contribution.store 1 (travelGoal 50000) (some 20000) 501 8
    (by decide) (by decide)
  have h2 := withdrawal_accepted_iff contribution.store 1 (travelGoal 50000) (some 60000) 501 8
    (by decide) (by decide)
  ⟨h1.1.mpr ⟨20000, rfl, by decide, by decide⟩,
    (h1.2.1 20000 rfl (by decide) (by decide)).1, h2.2.2 (by decide) true true⟩

/-- Reading back a document that `updateDoc` rewrote. -/
theorem getDoc?_updateDoc_of_some {α : Type} {docs : List (Nat × α)} {id : Nat} {x : α}
    (f : α → α) (hdoc : getDoc? docs id = some x) :
    getDoc? (updateDoc docs id f) id = some (f x) := by
  rw [getDoc?_updateDoc, hdoc]
  rfl

/-- One submission of a goal modal on the listed goal keeps the goal within its
bounds. -/
theorem perform_keeps_bounds (id : Nat) (s : Store) (action : SavingsPage.GoalAction)
    (h : ∃ goal, getDoc? s.savingGoals id = some goal ∧ 0 ≤ goal.currentAmount ∧
      goal.currentAmount ≤ goal.targetAmount) :
    ∃ goal, getDoc? (SavingsPage.perform id s action).savingGoals id = some goal ∧
      0 ≤ goal.currentAmount ∧ goal.currentAmount ≤ goal.targetAmount := by
  obtain ⟨goal, hdoc, h0, h1⟩ := h
  have hsel : SavingsPage.selectedGoal s id = some (id, goal) := by
    simp [SavingsPage.selectedGoal, hdoc]
  have hkeep : ∃ goal, getDoc? s.savingGoals id = some goal ∧ 0 ≤ goal.currentAmount ∧
      goal.currentAmount ≤ goal.targetAmount := ⟨goal, hdoc, h0, h1⟩
  cases action with
  | contribute amount totalBalance now newId updateOk addOk =>
      simp only [SavingsPage.perform, hsel]
      cases amount with
      | none => exact hkeep
      | some a =>
          simp only [ContributeToGoalModal.handleSubmit]
          split_ifs with g1 g2 g3
          · exact hkeep
          · exact hkeep
          · exact hkeep
          · rcases goalWrites_savingGoals updateOk addOk id (goal.currentAmount + a) newId
              { description := "Aporte a " ++ goal.goalName, amount := a,
                type := TransactionType.expense, category := "Ahorros", paymentMethod := none,
                bankName := none, date := now } s with hw | hw
            · rw [hw]; exact hkeep
            · rw [hw, getDoc?_updateDoc_of_some _ hdoc]
              exact ⟨_, rfl, by simp only; omega, by simp only; omega⟩
  | withdraw amount now newId updateOk addOk =>
      simp only [SavingsPage.perform, hsel]
      cases amount with
      | none => exact hkeep
      | some a =>
          simp only [WithdrawFromGoalModal.handleSubmit]
          split_ifs with g1 g2 g3
          · exact hkeep
          · exact hkeep
          · exact hkeep
          · rcases goalWrites_savingGoals updateOk addOk id (goal.currentAmount - a) newId
              { description := "Retiro de " ++ goal.goalName, amount := a,
                type := TransactionType.income, category := "Ahorros", paymentMethod := none,
                bankName := none, date := now } s with hw | hw
            · rw [hw]; exact hkeep
            · rw [hw, getDoc?_updateDoc_of_some _ hdoc]
              exact ⟨_, rfl, by simp only; omega, by simp only; omega⟩
  | edit goalName targetAmount updateOk =>
      simp only [SavingsPage.perform, hsel]
      cases targetAmount with
      | none =>
          simp only [EditSavingGoalModal.handleSubmit]
          split_ifs <;> exact hkeep
      | some newTargetAmount =>
          simp only [EditSavingGoalModal.handleSubmit]
          split_ifs with g1 g2 g3 g4
          · exact hkeep
          · exact hkeep
          · exact hkeep
          · simp only
            rw [getDoc?_updateDoc_of_some _ hdoc]
            exact ⟨_, rfl, by simp only; omega, by simp only; omega⟩
          · exact hkeep

/-- A sequence of submissions of the goal modals on the listed goal keeps the
goal within its bounds. -/
theorem performAll_keeps_bounds (id : Nat) (actions : List SavingsPage.GoalAction) (s : Store)
    (h : ∃ goal, getDoc? s.savingGoals id = some goal ∧ 0 ≤ goal.currentAmount ∧
      goal.currentAmount ≤ goal.targetAmount) :
    ∃ goal, getDoc? (SavingsPage.performAll id s actions).savingGoals id = some goal ∧
      0 ≤ goal.currentAmount ∧ goal.currentAmount ≤ goal.targetAmount := by
  induction actions generalizing s with
  | nil => exact h
  | cons action rest ih =>
      simp only [SavingsPage.performAll, List.foldl_cons]
      exact ih (SavingsPage.perform id s action) (perform_keeps_bounds id s action h)

/-- A goal created by `AddSavingGoalModal.handleSubmit` from a numeric current
amount is stored with `0 < targetAmount` and `0 ≤ currentAmount ≤ targetAmount`,
and after every finite sequence of submissions of the contribution, withdrawal
and edit modals on that goal (accepted or not, whatever the fate of their
requests) the stored goal still satisfies `0 ≤ currentAmount ≤ targetAmount`. -/
theorem numeric_goal_keeps_bounds (s : Store) (currentUser addOk : Bool)
    (formData : AddSavingGoalModal.FormData) (newId : Nat) (currentAmount : Int)
    (actions : List SavingsPage.GoalAction)
    (hnumeric : formData.currentAmount = some currentAmount)
    (hcreated : (AddSavingGoalModal.handleSubmit currentUser formData newId addOk s).success =
      true) :
    (∃ goal, getDoc? (AddSavingGoalModal.handleSubmit currentUser formData newId addOk
          s).store.savingGoals newId = some goal ∧
        0 < goal.targetAmount ∧ 0 ≤ goal.currentAmount ∧
        goal.currentAmount ≤ goal.targetAmount) ∧
      ∃ goal, getDoc? (SavingsPage.performAll newId
          (AddSavingGoalModal.handleSubmit currentUser formData newId addOk s).store
          actions).savingGoals newId = some goal ∧
        0 ≤ goal.currentAmount ∧ goal.currentAmount ≤ goal.targetAmount := by
  have hstart : ∃ goal, getDoc? (AddSavingGoalModal.handleSubmit currentUser formData newId
        addOk s).store.savingGoals newId = some goal ∧
      0 < goal.targetAmount ∧ 0 ≤ goal.currentAmount ∧
      goal.currentAmount ≤ goal.targetAmount := by
    revert hcreated
    cases htarget : formData.targetAmount with
    | none =>
        simp only [AddSavingGoalModal.handleSubmit, htarget]
        split_ifs <;> simp
    | some targetAmount =>
        simp only [AddSavingGoalModal.handleSubmit, htarget, hnumeric]
        split_ifs with g1 g2 g3 g4 g5 g6
        · simp
        · simp
        · simp
        · simp
        · simp
        · intro _
          refine ⟨{ goalName := trim formData.goalName, targetAmount := targetAmount,
                    currentAmount := currentAmount }, ?_, ?_, ?_, ?_⟩
          · simp only [getDoc?_cons, if_true]
          · simp only; omega
          · simp only; omega
          · simp only; omega
        · simp
  refine ⟨hstart, ?_⟩
  obtain ⟨goal, hdoc, -, h0, h1⟩ := hstart
  exact performAll_keeps_bounds newId actions _ ⟨goal, hdoc, h0, h1⟩

/-- The goal with target 500000 is created empty, then receives 50000, has its
target lowered to 60000, gives back 20000 and is refused a contribution of
600000; it ends with 30000 of 60000. -/
theorem numeric_goal_keeps_bounds_example :
    (AddSavingGoalModal.handleSubmit true travelGoalForm 1 true fundedStore).success = true ∧
      getDoc? (SavingsPage.performAll 1
        (AddSavingGoalModal.handleSubmit true travelGoalForm 1 true fundedStore).store
        sampleGoalActions).savingGoals 1 =
        some { goalName := "Viaje corto", targetAmount := 60000, currentAmount := 30000 } ∧
      ∃ goal, getDoc? (SavingsPage.performAll 1
          (AddSavingGoalModal.handleSubmit true travelGoalForm 1 true fundedStore).store
          sampleGoalActions).savingGoals 1 = some goal ∧
        0 ≤ goal.currentAmount ∧ goal.currentAmount ≤ goal.targetAmount :=
  ⟨by decide, by decide,
    (numeric_goal_keeps_bounds fundedStore true true travelGoalForm 1 0 sampleGoalActions rfl
      (by decide)).2⟩

/-- C13, the code at the failing input. The form that creates the goal 'Viaje'
with target 500000 and the optional current amount left empty passes the four
checks of `AddSavingGoalModal.handleSubmit` (`parseFloat` of the empty text is
NaN, which is neither `< 0` nor `> targetAmount`): the handler ends with the
success toast and the goal it adds has a `currentAmount` that is NaN, so the
accepted goal does not satisfy `0 ≤ currentAmount ≤ targetAmount`; with the text
'0' the same form stores the current amount 0. -/
theorem empty_current_amount_is_stored_as_nan :
    AddSavingGoalModal.handleSubmit true emptyAmountGoalForm 1 true fundedStore =
        { store :=
            { fundedStore with
              nanGoals := [(1, { goalName := "Viaje", targetAmount := 500000 })] },
          success := true } ∧
      (AddSavingGoalModal.handleSubmit true emptyAmountGoalForm 1 true
        fundedStore).store.savingGoals = [] ∧
      (AddSavingGoalModal.handleSubmit true travelGoalForm 1 true fundedStore).store.savingGoals =
        [(1, { goalName := "Viaje", targetAmount := 500000, currentAmount := 0 })] := by
  decide

end GoalClaims

/-! ## Claims on validation and on the creation of a loan -/

section FormClaims

/-- C17. Transaction validation: `validateForm` rejects every form whose amount
is `≤ 0`, whose category is missing, whose payment method is missing, whose date
is later than now or whose date is more than one year before now, and
`handleSubmit` then leaves the store as it was and ends with an error. -/
theorem validateForm_rejects (formData : TransactionModal.FormData)
    (clock : TransactionModal.Clock)
    (h : (∃ amount, formData.amount = some amount ∧ amount ≤ 0) ∨ formData.category = "" ∨
      formData.paymentMethod = none ∨
      (∃ date, formData.date = some date ∧ (clock.today < date ∨ date < clock.oneYearAgo))) :
    TransactionModal.validateForm formData clock = false ∧
      ∀ (currentUser : Bool) (transactionToEdit : Option (Nat × Transaction)) (newId : Nat)
        (commitOk : Bool) (s : Store),
        TransactionModal.handleSubmit currentUser formData transactionToEdit clock newId
          commitOk s = { store := s, success := false } := by
  have hinvalid : TransactionModal.validateForm formData clock = false := by
    rcases h with ⟨amount, ha, hle⟩ | hcat | hpm | ⟨date, hd, hlate | hearly⟩
    · simp [TransactionModal.validateForm, TransactionModal.validationErrors, ha, hle]
    · have hempty : "".isEmpty = true := by decide
      simp [TransactionModal.validateForm, TransactionModal.validationErrors, hcat, hempty]
    · simp [TransactionModal.validateForm, TransactionModal.validationErrors, hpm]
    · simp [TransactionModal.validateForm, TransactionModal.validationErrors, hd, hlate]
    · have hnot : ¬ clock.today < date ∨ clock.today < date := (em _).symm
      rcases hnot with hn | hl
      · simp [TransactionModal.validateForm, TransactionModal.validationErrors, hd, hn, hearly]
      · simp [TransactionModal.validateForm, TransactionModal.validationErrors, hd, hl]
  refine ⟨hinvalid, ?_⟩
  intro currentUser transactionToEdit newId commitOk s
  cases currentUser <;> simp [TransactionModal.handleSubmit, hinvalid]

/-- C17, at a concrete input: the income form dated one day after today is
rejected and nothing is written. -/
theorem validateForm_rejects_witness :
    TransactionModal.validateForm futureForm sampleClock = false ∧
      TransactionModal.handleSubmit true futureForm none sampleClock 1 true fundedStore =
        { store := fundedStore, success := false } :=
  have h := validateForm_rejects futureForm sampleClock
    (Or.inr (Or.inr (Or.inr ⟨401, rfl, Or.inl (by decide)⟩)))
  ⟨h.1, h.2 true none 1 true fundedStore⟩

/-- The monthly payment computed for a positive total and a positive number of
instalments. -/
theorem calculateMonthlyPayment_eq (formData : AddLoanModal.FormData)
    (totalAmount installments : Int)
    (htotal : formData.totalAmount = some totalAmount) (htotalPos : 0 < totalAmount)
    (hinst : formData.installments = some installments) (hinstPos : 0 < installments) :
    AddLoanModal.calculateMonthlyPayment formData =
      mathRound (Double.div totalAmount installments) := by
  have h1 : totalAmount ≠ 0 := by omega
  have h2 : installments ≠ 0 := by omega
  simp [AddLoanModal.calculateMonthlyPayment, htotal, hinst, jsOr, h1, h2, htotalPos, hinstPos]

/-- The outcome of `AddLoanModal.handleSubmit` on an accepted input. -/
theorem addLoan_accepted (s : Store) (formData : AddLoanModal.FormData) (newId : Nat)
    (totalAmount installments installmentsPaid : Int)
    (hname : (trim formData.loanName).isEmpty = false)
    (htotal : formData.totalAmount = some totalAmount) (htotalPos : 0 < totalAmount)
    (hinst : formData.installments = some installments) (hinstPos : 0 < installments)
    (hpaid : formData.installmentsPaid = some installmentsPaid)
    (hpaid0 : 0 ≤ installmentsPaid) (hpaidLe : installmentsPaid ≤ installments) :
    AddLoanModal.handleSubmit true formData newId true s =
      { store := { s with loans :=
          (newId, AddLoanModal.loanData formData totalAmount installments
            (some installmentsPaid)) :: deleteDoc s.loans newId },
        success := true } := by
  have g1 : ¬ totalAmount ≤ 0 := by omega
  have g2 : ¬ installments ≤ 0 := by omega
  have g3 : ¬ installmentsPaid < 0 := by omega
  have g4 : ¬ installmentsPaid > installments := by omega
  simp [AddLoanModal.handleSubmit, hname, htotal, hinst, hpaid, g1, g2, g3, g4,
    AddLoanModal.addLoan]

/-- The product `installmentsPaid * monthlyPayment` is exact for a total below
2^52. -/
theorem paid_product_exact (totalAmount installments installmentsPaid : Int)
    (htotalPos : 0 < totalAmount) (hinstPos : 0 < installments)
    (hpaid0 : 0 ≤ installmentsPaid) (hpaidLe : installmentsPaid ≤ installments)
    (hbound : totalAmount < 2 ^ 52) :
    Double.mul installmentsPaid (mathRound (Double.div totalAmount installments)) =
      installmentsPaid * mathRound (Double.div totalAmount installments) := by
  have hm := mathRound_div totalAmount installments htotalPos hinstPos hbound
  have hb := nearest_bounds totalAmount installments hinstPos
  have hm0 := mathRound_div_nonneg totalAmount installments htotalPos.le hinstPos
  rw [← hm] at hb
  generalize mathRound (Double.div totalAmount installments) = m at hb hm0 ⊢
  apply doubleMul_exact
  have hprod0 : 0 ≤ installmentsPaid * m := mul_nonneg hpaid0 hm0
  rw [abs_of_nonneg hprod0]
  have h1 : installmentsPaid * m ≤ installments * m := mul_le_mul_of_nonneg_right hpaidLe hm0
  rcases eq_or_lt_of_le hm0 with h0 | hpos
  · rw [← h0]; norm_num
  · have h2 : installments ≤ installments * m := by nlinarith
    have h3 : (2 : Int) ^ 53 = 2 * 2 ^ 52 := by norm_num
    nlinarith [hb.2]

/-- C16, the claim as stated fails. For a loan of 9007199254740991 in 3
instalments, all paid, the quotient is 3002399751580330.33 and its nearest
integer is 3002399751580330, for which the claim gives a remaining amount of 1
and status 'active'; the double quotient is 3002399751580330.5, and
`AddLoanModal.handleSubmit` stores the monthly payment 3002399751580331 with a
remaining amount of 0 and status 'paid'. -/
theorem loan_monthly_payment_misrounded :
    (AddLoanModal.handleSubmit true hugeLoanForm 1 true emptyStore).store.loans =
        [(1, { loanName := "Flota", totalAmount := 9007199254740991,
               remainingAmount := some 0, installments := 3,
               monthlyPayment := 3002399751580331, status := LoanStatus.paid })] ∧
      (2 * 9007199254740991 - 3 < 2 * 3 * (3002399751580330 : Int) ∧
        2 * 3 * (3002399751580330 : Int) ≤ 2 * 9007199254740991 + 3) ∧
      ¬ (2 * 3 * (3002399751580331 : Int) ≤ 2 * 9007199254740991 + 3) ∧
      max 0 ((9007199254740991 : Int) - 3 * 3002399751580330) = 1 := by
  decide

/-- C16, amended. Loan creation. For a named loan with `totalAmount > 0`,
`installments > 0` and `0 ≤ installmentsPaid ≤ installments`,
`AddLoanModal.handleSubmit` adds one loan document whose `monthlyPayment` is
`Math.round` of the double quotient `totalAmount / installments`, whose
`remainingAmount` is `max 0 (totalAmount - installmentsPaid * monthlyPayment)`,
the product being a product of doubles, and whose status is 'paid' if that
amount is `≤ 0`, 'active' otherwise; so `0 ≤ remainingAmount ≤ totalAmount`, and
the status is 'paid' exactly when the stored remaining amount is 0. When
`totalAmount` is below 2^52 the monthly payment is the nearest integer of the
exact quotient, a half being rounded up, and the product is exact. -/
theorem loan_creation (s : Store) (formData : AddLoanModal.FormData) (newId : Nat)
    (totalAmount installments installmentsPaid : Int)
    (hname : (trim formData.loanName).isEmpty = false)
    (htotal : formData.totalAmount = some totalAmount) (htotalPos : 0 < totalAmount)
    (hinst : formData.installments = some installments) (hinstPos : 0 < installments)
    (hpaid : formData.installmentsPaid = some installmentsPaid)
    (hpaid0 : 0 ≤ installmentsPaid) (hpaidLe : installmentsPaid ≤ installments) :
    (AddLoanModal.handleSubmit true formData newId true s).success = true ∧
      ∃ loan : Loan,
        (AddLoanModal.handleSubmit true formData newId true s).store.loans =
          (newId, loan) :: deleteDoc s.loans newId ∧
        loan.totalAmount = totalAmount ∧ loan.installments = installments ∧
        loan.monthlyPayment = mathRound (Double.div totalAmount installments) ∧
        loan.remainingAmount =
          some (max 0 (totalAmount - Double.mul installmentsPaid loan.monthlyPayment)) ∧
        loan.status =
          (if max 0 (totalAmount - Double.mul installmentsPaid loan.monthlyPayment) ≤ 0
            then LoanStatus.paid else LoanStatus.active) ∧
        0 ≤ max 0 (totalAmount - Double.mul installmentsPaid loan.monthlyPayment) ∧
        max 0 (totalAmount - Double.mul installmentsPaid loan.monthlyPayment) ≤ totalAmount ∧
        (loan.status = LoanStatus.paid ↔
          max 0 (totalAmount - Double.mul installmentsPaid loan.monthlyPayment) = 0) ∧
        (totalAmount < 2 ^ 52 →
          2 * totalAmount - installments < 2 * installments * loan.monthlyPayment ∧
          2 * installments * loan.monthlyPayment ≤ 2 * totalAmount + installments ∧
          loan.remainingAmount =
            some (max 0 (totalAmount - installmentsPaid * loan.monthlyPayment))) := by
  have hmonthly := calculateMonthlyPayment_eq formData totalAmount installments htotal
    htotalPos hinst hinstPos
  have hm0 := mathRound_div_nonneg totalAmount installments htotalPos.le hinstPos
  have hprod : 0 ≤ Double.mul installmentsPaid
      (mathRound (Double.div totalAmount installments)) := doubleMul_nonneg _ _ hpaid0 hm0
  rw [addLoan_accepted s formData newId totalAmount installments installmentsPaid hname htotal
    htotalPos hinst hinstPos hpaid hpaid0 hpaidLe]
  refine ⟨rfl, AddLoanModal.loanData formData totalAmount installments (some installmentsPaid),
    rfl, rfl, rfl, ?_, ?_, ?_, ?_, ?_, ?_, ?_⟩
  · simp only [AddLoanModal.loanData, hmonthly]
  · simp only [AddLoanModal.loanData, hmonthly, Option.map_some']
  · simp only [AddLoanModal.loanData, hmonthly, Option.map_some']
    by_cases hle : totalAmount -
        Double.mul installmentsPaid (mathRound (Double.div totalAmount installments)) ≤ 0
    · simp [hle]
    · have hlt : 0 < totalAmount -
          Double.mul installmentsPaid (mathRound (Double.div totalAmount installments)) := by
        omega
      simp [hle, max_eq_right hlt.le]
  · exact le_max_left _ _
  · simp only [AddLoanModal.loanData, hmonthly]
    exact max_le htotalPos.le (by omega)
  · simp only [AddLoanModal.loanData, hmonthly, Option.map_some']
    by_cases hle : totalAmount -
        Double.mul installmentsPaid (mathRound (Double.div totalAmount installments)) ≤ 0
    · simp [hle]
    · have hlt : 0 < totalAmount -
          Double.mul installmentsPaid (mathRound (Double.div totalAmount installments)) := by
        omega
      simp [hle, max_eq_right hlt.le]
      omega
  · intro hbound
    have hround := nearest_bounds totalAmount installments hinstPos
    rw [← mathRound_div totalAmount installments htotalPos hinstPos hbound] at hround
    have hexact := paid_product_exact totalAmount installments installmentsPaid htotalPos
      hinstPos hpaid0 hpaidLe hbound
    refine ⟨?_, ?_, ?_⟩
    · simp only [AddLoanModal.loanData, hmonthly]; exact hround.1
    · simp only [AddLoanModal.loanData, hmonthly]; exact hround.2
    · simp only [AddLoanModal.loanData, hmonthly, Option.map_some', hexact]

/-- C16, amended, at a concrete input: 1200000 in 12 instalments with 9 paid is
stored with a monthly payment of 100000, 300000 remaining and status 'active'. -/
theorem loan_creation_witness :
    (AddLoanModal.handleSubmit true carLoanForm 1 true emptyStore).success = true ∧
      (AddLoanModal.handleSubmit true carLoanForm 1 true emptyStore).store.loans =
        [(1, carLoan 300000 LoanStatus.active)] ∧
      ∃ loan : Loan,
        (AddLoanModal.handleSubmit true carLoanForm 1 true emptyStore).store.loans =
          (1, loan) :: deleteDoc emptyStore.loans 1 ∧
        loan.monthlyPayment = mathRound (Double.div 1200000 12) :=
  have h := loan_creation emptyStore carLoanForm 1 1200000 12 9 (by decide) rfl (by decide) rfl
    (by decide) rfl (by decide) (by decide)
  ⟨h.1, by decide, h.2.imp (fun _ hl => ⟨hl.1, hl.2.2.2.1⟩)⟩

/-- C30, the claim as stated fails. For a total of 9007199254740991 in 3
instalments `Math.round` of the double quotient is 3002399751580331: three
instalments exceed the total by 2, and 2 is more than half of 3. -/
theorem rounding_residual_exceeds_half :
    mathRound (Double.div 9007199254740991 3) = 3002399751580331 ∧
      (9007199254740991 : Int) - 3 * 3002399751580331 = -2 ∧
      ¬ (2 * (2 : Int) ≤ 3) := by
  decide

/-- C30, amended. Rounding residual of a loan. For `0 < totalAmount < 2^52` and
`n > 0` instalments, with `monthlyPayment = Math.round(totalAmount / n)`,
`2 * |totalAmount - n * monthlyPayment| ≤ n`; so a loan registered by
`AddLoanModal.handleSubmit` with all its instalments paid is stored with a
remaining amount `r` such that `0 ≤ r` and `2 * r ≤ n`, and with status 'paid'
exactly when `n * monthlyPayment ≥ totalAmount`. -/
theorem rounding_residual (s : Store) (formData : AddLoanModal.FormData) (newId : Nat)
    (totalAmount n : Int)
    (hname : (trim formData.loanName).isEmpty = false)
    (htotal : formData.totalAmount = some totalAmount) (htotalPos : 0 < totalAmount)
    (hbound : totalAmount < 2 ^ 52)
    (hinst : formData.installments = some n) (hinstPos : 0 < n)
    (hpaid : formData.installmentsPaid = some n) :
    2 * |totalAmount - n * mathRound (Double.div totalAmount n)| ≤ n ∧
      ∃ loan : Loan,
        (AddLoanModal.handleSubmit true formData newId true s).store.loans =
          (newId, loan) :: deleteDoc s.loans newId ∧
        loan.monthlyPayment = mathRound (Double.div totalAmount n) ∧
        (∃ r, loan.remainingAmount = some r ∧ 0 ≤ r ∧ 2 * r ≤ n) ∧
        (loan.status = LoanStatus.paid ↔ totalAmount ≤ n * loan.monthlyPayment) := by
  have hround := nearest_bounds totalAmount n hinstPos
  rw [← mathRound_div totalAmount n htotalPos hinstPos hbound] at hround
  have hexact := paid_product_exact totalAmount n n htotalPos hinstPos hinstPos.le le_rfl hbound
  have hmonthly := calculateMonthlyPayment_eq formData totalAmount n htotal htotalPos hinst
    hinstPos
  generalize mathRound (Double.div totalAmount n) = m at hround hexact hmonthly ⊢
  have hres : 2 * |totalAmount - n * m| ≤ n := by
    have habs : |totalAmount - n * m| * 2 ≤ n := by
      rcases abs_cases (totalAmount - n * m) with ⟨h, -⟩ | ⟨h, -⟩ <;>
        rw [h] <;> linarith [hround.1, hround.2]
    linarith
  refine ⟨hres, AddLoanModal.loanData formData totalAmount n (some n), ?_, ?_, ?_, ?_⟩
  · rw [addLoan_accepted s formData newId totalAmount n n hname htotal htotalPos hinst hinstPos
      hpaid hinstPos.le le_rfl]
  · simp only [AddLoanModal.loanData, hmonthly]
  · refine ⟨max 0 (totalAmount - n * m), ?_, le_max_left _ _, ?_⟩
    · simp only [AddLoanModal.loanData, hmonthly, Option.map_some', hexact]
    · rcases le_total 0 (totalAmount - n * m) with hle | hle
      · rw [max_eq_right hle]; linarith [hround.1]
      · rw [max_eq_left hle]; linarith
  · simp only [AddLoanModal.loanData, hmonthly, Option.map_some', hexact]
    by_cases hle : totalAmount - n * m ≤ 0
    · simp only [hle, if_true, true_iff]; linarith
    · simp only [hle, if_false]
      constructor
      · intro hc; cases hc
      · intro hc; exact absurd (by linarith) hle

/-- C30, amended, at a concrete input: 1000 in 3 instalments gives a monthly
payment of 333; with the 3 instalments paid the loan is stored with 1 remaining
and status 'active', and `2 * |1000 - 3 * 333| = 2 ≤ 3`. -/
theorem rounding_residual_witness :
    mathRound (Double.div 1000 3) = 333 ∧
      (AddLoanModal.handleSubmit true roundedLoanForm 1 true emptyStore).store.loans =
        [(1, { loanName := "Notebook", totalAmount := 1000, remainingAmount := some 1,
               installments := 3, monthlyPayment := 333, status := LoanStatus.active })] ∧
      2 * |(1000 : Int) - 3 * mathRound (Double.div 1000 3)| ≤ 3 :=
  ⟨by decide, by decide,
    (rounding_residual emptyStore roundedLoanForm 1 1000 3 (by decide) rfl (by decide)
      (by norm_num) rfl (by decide) rfl).1⟩

/-- C29. Exact acceptance set of the transaction form: `validateForm` accepts a
form if and only if the trimmed description has at least 3 characters (UTF-16
code units, as the `length` of a JavaScript string counts them, after `trim` has
removed the white space and line terminators of JavaScript), the amount is
present with `0 < amount ≤ 100000000`, the category is not empty, a payment
method is selected (whatever the type of the transaction), and the date is
present with `oneYearAgo ≤ date ≤ today`. -/
theorem validateForm_accepts_iff (formData : TransactionModal.FormData)
    (clock : TransactionModal.Clock) :
    TransactionModal.validateForm formData clock = true ↔
      3 ≤ jsLength (trim formData.description) ∧
        (∃ amount, formData.amount = some amount ∧ 0 < amount ∧ amount ≤ 100000000) ∧
        formData.category ≠ "" ∧
        (∃ method, formData.paymentMethod = some method) ∧
        ∃ date, formData.date = some date ∧ clock.oneYearAgo ≤ date ∧ date ≤ clock.today := by
  have hdesc : (TransactionModal.validationErrors formData clock).description.isNone = true ↔
      3 ≤ jsLength (trim formData.description) := by
    simp only [TransactionModal.validationErrors]
    by_cases hempty : (trim formData.description).isEmpty = true
    · have hzero : jsLength (trim formData.description) = 0 := by
        rw [(String.isEmpty_iff _).mp hempty]; rfl
      simp [hempty, hzero]
    · by_cases hshort : jsLength (trim formData.description) < 3
      · simp [hempty, hshort]
      · simp [hempty, hshort]; omega
  have hamount : (TransactionModal.validationErrors formData clock).amount.isNone = true ↔
      ∃ amount, formData.amount = some amount ∧ 0 < amount ∧ amount ≤ 100000000 := by
    simp only [TransactionModal.validationErrors]
    cases formData.amount with
    | none => simp
    | some a =>
        by_cases h1 : a ≤ 0
        · simp [h1]
        · by_cases h2 : a > 100000000
          · simp [h1, h2]
          · simp [h1, h2]; omega
  have hcat : (TransactionModal.validationErrors formData clock).category.isNone = true ↔
      formData.category ≠ "" := by
    simp only [TransactionModal.validationErrors]
    by_cases hempty : formData.category.isEmpty = true
    · have hblank : "".isEmpty = true := by decide
      simp [hempty, (String.isEmpty_iff _).mp hempty, hblank]
    · have hne : formData.category ≠ "" := fun hc => hempty ((String.isEmpty_iff _).mpr hc)
      simp [hempty, hne]
  have hmethod : (TransactionModal.validationErrors formData clock).paymentMethod.isNone = true ↔
      ∃ method, formData.paymentMethod = some method := by
    simp only [TransactionModal.validationErrors]
    cases formData.paymentMethod <;> simp
  have hdate : (TransactionModal.validationErrors formData clock).date.isNone = true ↔
      ∃ date, formData.date = some date ∧ clock.oneYearAgo ≤ date ∧ date ≤ clock.today := by
    simp only [TransactionModal.validationErrors]
    cases formData.date with
    | none => simp
    | some d =>
        by_cases h1 : d > clock.today
        · simp [h1]
        · by_cases h2 : d < clock.oneYearAgo
          · simp [h1, h2]
          · simp [h1, h2]; omega
  simp only [TransactionModal.validateForm, Bool.and_eq_true, hdesc, hamount, hcat, hmethod,
    hdate, and_assoc]

/-- C29, at concrete inputs: the income form of the scenarios is accepted; the
same form is rejected without a payment method, and with the description made of
two no-break spaces and 'ab', which `trim` cuts down to 2 code units; it is
accepted with the description made of an emoji and 'a', which counts 3 code
units. -/
theorem validateForm_accepts_iff_witness :
    TransactionModal.validateForm incomeForm sampleClock = true ∧
      TransactionModal.validateForm { incomeForm with paymentMethod := none } sampleClock =
        false ∧
      TransactionModal.validateForm { incomeForm with description := "\u00a0\u00a0ab" }
        sampleClock = false ∧
      TransactionModal.validateForm { incomeForm with description := "😀a" } sampleClock =
        true :=
  ⟨(validateForm_accepts_iff incomeForm sampleClock).mpr
      ⟨by decide, ⟨100000, rfl, by decide, by decide⟩, by decide, ⟨PaymentMethod.debito, rfl⟩,
        ⟨390, rfl, by decide, by decide⟩⟩,
    by decide, by decide, by decide⟩

end FormClaims

/-! ## Claims on the atomicity of the batched writes -/

section AtomicityClaims

/-- A document that exists can be read. -/
theorem getDoc?_of_hasDoc {α : Type} {docs : List (Nat × α)} {id : Nat}
    (h : hasDoc docs id = true) : ∃ x, getDoc? docs id = some x := by
  induction docs with
  | nil => simp [hasDoc] at h
  | cons d rest ih =>
      rw [getDoc?_cons]
      by_cases hd : d.1 = id
      · exact ⟨d.2, by simp [hd]⟩
      · have hb : (d.1 == id) = false := by simpa using hd
        have hrest : hasDoc rest id = true := by
          simpa [hasDoc, List.any_cons, hb] using h
        obtain ⟨x, hx⟩ := ih hrest
        exact ⟨x, by simp [hd, hx]⟩

/-- C12. Atomicity of the ledger and aggregate write. `TransactionModal.handleSubmit`
(create and edit) and `MakeLoanPaymentModal.handleSubmit` stage all their writes
in one batch and commit it once: when the commit fails the store is left as it
was and the handler ends with an error; a handler that ends with an error has
written nothing; a handler that ends with success has applied every staged
write, so the transaction can be read back, the loan holds its new remaining
amount, and the aggregate holds its new balances (a missing aggregate being
created by the same commit). -/
theorem batched_writes_are_all_or_nothing :
    (∀ (currentUser : Bool) (formData : TransactionModal.FormData)
        (transactionToEdit : Option (Nat × Transaction)) (clock : TransactionModal.Clock)
        (newId : Nat) (commitOk : Bool) (s : Store),
        (commitOk = false →
          TransactionModal.handleSubmit currentUser formData transactionToEdit clock newId
            commitOk s = { store := s, success := false }) ∧
        ((TransactionModal.handleSubmit currentUser formData transactionToEdit clock newId
            commitOk s).success = false →
          (TransactionModal.handleSubmit currentUser formData transactionToEdit clock newId
            commitOk s).store = s) ∧
        ((TransactionModal.handleSubmit currentUser formData transactionToEdit clock newId
            commitOk s).success = true →
          ∃ amount date, formData.amount = some amount ∧ formData.date = some date ∧
            getDoc? (TransactionModal.handleSubmit currentUser formData transactionToEdit clock
                newId commitOk s).store.transactions
                (match transactionToEdit with
                  | some (id, _) => id
                  | none => newId) =
              some { description := trim formData.description, amount := amount,
                     type := formData.type, category := formData.category,
                     paymentMethod := formData.paymentMethod,
                     bankName := some formData.bankName, date := date } ∧
            (TransactionModal.handleSubmit currentUser formData transactionToEdit clock newId
                commitOk s).store.userFinancials =
              some { debitBalance := some (TransactionModal.updatedBalances s.userFinancials
                        formData.type formData.paymentMethod amount
                        (transactionToEdit.map Prod.snd)).debitBalance
                     creditLimit := s.userFinancials.bind (fun f => f.creditLimit)
                     usedCredit := some (TransactionModal.updatedBalances s.userFinancials
                        formData.type formData.paymentMethod amount
                        (transactionToEdit.map Prod.snd)).usedCredit })) ∧
      (∀ (loan : Option (Nat × Loan)) (paymentAmount : Option Int) (totalBalance now : Int)
        (newId : Nat) (commitOk : Bool) (s : Store),
        (commitOk = false →
          MakeLoanPaymentModal.handleSubmit loan paymentAmount totalBalance now newId commitOk s =
            { store := s, success := false }) ∧
        ((MakeLoanPaymentModal.handleSubmit loan paymentAmount totalBalance now newId commitOk
            s).success = false →
          (MakeLoanPaymentModal.handleSubmit loan paymentAmount totalBalance now newId commitOk
            s).store = s) ∧
        ((MakeLoanPaymentModal.handleSubmit loan paymentAmount totalBalance now newId commitOk
            s).success = true →
          ∃ id loanProp amount, loan = some (id, loanProp) ∧ paymentAmount = some amount ∧
            getDoc? (MakeLoanPaymentModal.handleSubmit loan paymentAmount totalBalance now newId
                commitOk s).store.transactions newId =
              some (MakeLoanPaymentModal.paymentTransaction loanProp amount now) ∧
            (getDoc? (MakeLoanPaymentModal.handleSubmit loan paymentAmount totalBalance now newId
                commitOk s).store.loans id).bind (fun l => l.remainingAmount) =
              some (max 0 (jsOr loanProp.remainingAmount loanProp.totalAmount - amount)) ∧
            (MakeLoanPaymentModal.handleSubmit loan paymentAmount totalBalance now newId
                commitOk s).store.userFinancials =
              (match s.userFinancials with
                | some f =>
                    some { f with debitBalance := some (max 0 (jsOr f.debitBalance 0 - amount)) }
                | none =>
                    some { debitBalance := some (max 0 (totalBalance - amount)),
                           creditLimit := some 0, usedCredit := some 0 }))) := by
  constructor
  · intro currentUser formData transactionToEdit clock newId commitOk s
    cases currentUser
    · simp [TransactionModal.handleSubmit]
    by_cases hvalid : TransactionModal.validateForm formData clock = true
    swap
    · simp [TransactionModal.handleSubmit, hvalid]
    obtain ⟨amount, hamount, -, -⟩ := validateForm_amount hvalid
    obtain ⟨date, hdate⟩ := validateForm_date hvalid
    cases commitOk
    · simp [TransactionModal.handleSubmit, hvalid, hamount, hdate, commit, finish]
    rcases transactionToEdit with _ | ⟨id, old⟩
    · simp [TransactionModal.handleSubmit, hvalid, hamount, hdate, commit, finish, applyWrite,
        List.foldlM, getDoc?_cons]
    · by_cases hdoc : hasDoc s.transactions id = true
      · obtain ⟨x, hx⟩ := getDoc?_of_hasDoc hdoc
        simp [TransactionModal.handleSubmit, hvalid, hamount, hdate, commit, finish, applyWrite,
          List.foldlM, hdoc, getDoc?_updateDoc, hx]
      · simp [TransactionModal.handleSubmit, hvalid, hamount, hdate, commit, finish, applyWrite,
          List.foldlM, hdoc]
  · intro loan paymentAmount totalBalance now newId commitOk s
    rcases loan with _ | ⟨id, loanProp⟩
    · simp [MakeLoanPaymentModal.handleSubmit]
    by_cases hvalid :
        (MakeLoanPaymentModal.validatePayment paymentAmount loanProp totalBalance).isValid = true
    swap
    · simp [MakeLoanPaymentModal.handleSubmit, hvalid]
    rcases paymentAmount with _ | amount
    · simp [MakeLoanPaymentModal.handleSubmit]
    cases commitOk
    · simp [MakeLoanPaymentModal.handleSubmit, hvalid, commit, finish]
    by_cases hdoc : hasDoc s.loans id = true
    swap
    · by_cases hzero : jsOr loanProp.remainingAmount loanProp.totalAmount - amount ≤ 0 <;>
        simp [MakeLoanPaymentModal.handleSubmit, hvalid, commit, finish, applyWrite,
          List.foldlM, MakeLoanPaymentModal.loanUpdate, hdoc, hzero]
    obtain ⟨x, hx⟩ := getDoc?_of_hasDoc hdoc
    by_cases hzero : jsOr loanProp.remainingAmount loanProp.totalAmount - amount ≤ 0
    · have hmax : max 0 (jsOr loanProp.remainingAmount loanProp.totalAmount - amount) = 0 :=
        max_eq_left hzero
      cases hfin : s.userFinancials <;>
        simp [MakeLoanPaymentModal.handleSubmit, hvalid, commit, finish, applyWrite,
          List.foldlM, MakeLoanPaymentModal.loanUpdate, MakeLoanPaymentModal.financialsUpdate,
          hdoc, hzero, hfin, getDoc?_cons] <;>
        exact ⟨id, loanProp, ⟨rfl, rfl⟩, rfl, by simp [getDoc?_updateDoc, hx, hmax]⟩
    · have hmax : max 0 (jsOr loanProp.remainingAmount loanProp.totalAmount - amount) =
          jsOr loanProp.remainingAmount loanProp.totalAmount - amount :=
        max_eq_right (by omega)
      cases hfin : s.userFinancials <;>
        simp [MakeLoanPaymentModal.handleSubmit, hvalid, commit, finish, applyWrite,
          List.foldlM, MakeLoanPaymentModal.loanUpdate, MakeLoanPaymentModal.financialsUpdate,
          hdoc, hzero, hfin, getDoc?_cons] <;>
        exact ⟨id, loanProp, ⟨rfl, rfl⟩, rfl, by simp [getDoc?_updateDoc, hx, hmax]⟩

/-- C12, at concrete inputs: the valid income form with a failing commit leaves
the funded store as it was, and so does the payment of 300000 on the loan; with a
commit that goes through the same form ends with success. -/
theorem batched_writes_are_all_or_nothing_witness :
    TransactionModal.handleSubmit true incomeForm none sampleClock 1 false fundedStore =
        { store := fundedStore, success := false } ∧
      MakeLoanPaymentModal.handleSubmit (some (1, carLoan 300000 LoanStatus.active))
        (some 300000) 1000000 500 7 false (loanStore (carLoan 300000 LoanStatus.active) 1000000) =
        { store := loanStore (carLoan 300000 LoanStatus.active) 1000000, success := false } ∧
      (TransactionModal.handleSubmit true incomeForm none sampleClock 1 true
        fundedStore).success = true ∧
      ∃ amount date, incomeForm.amount = some amount ∧ incomeForm.date = some date ∧
        (TransactionModal.handleSubmit true incomeForm none sampleClock 1 true
          fundedStore).store.userFinancials =
          some { debitBalance := some (TransactionModal.updatedBalances
                    fundedStore.userFinancials incomeForm.type incomeForm.paymentMethod amount
                    none).debitBalance
                 creditLimit := fundedStore.userFinancials.bind (fun f => f.creditLimit)
                 usedCredit := some (TransactionModal.updatedBalances
                    fundedStore.userFinancials incomeForm.type incomeForm.paymentMethod amount
                    none).usedCredit } :=
  have h := batched_writes_are_all_or_nothing
  have hok := (h.1 true incomeForm none sampleClock 1 true fundedStore).2.2 (by decide)
  ⟨(h.1 true incomeForm none sampleClock 1 false fundedStore).1 rfl,
    (h.2 (some (1, carLoan 300000 LoanStatus.active)) (some 300000) 1000000 500 7 false
      (loanStore (carLoan 300000 LoanStatus.active) 1000000)).1 rfl,
    by decide,
    hok.imp (fun _ h1 => h1.imp (fun _ h2 => ⟨h2.1, h2.2.1, h2.2.2.2⟩))⟩

end AtomicityClaims

/-! ## Lemmas on the recurring processor -/

section RecurringLemmas

open Functions

variable {α : Type}

/-- After `docSet` exactly one document is stored under the id. -/
theorem docCount_docSet_self (docs : List (String × α)) (id : String) (x : α) :
    docCount (docSet docs id x) id = 1 := by
  simp [docCount, docSet, List.filter_cons, List.filter_filter]

/-- A `docSet` under another id leaves the number of documents under an id. -/
theorem docCount_docSet_other (docs : List (String × α)) {id other : String} (x : α)
    (h : other ≠ id) : docCount (docSet docs other x) id = docCount docs id := by
  have hb : (other == id) = false := by simpa using h
  simp only [docCount, docSet, List.filter_cons, hb, List.filter_filter]
  congr 1
  apply List.filter_congr
  intro d _
  by_cases hd : d.1 = id
  · have : d.1 ≠ other := fun hc => h (hc ▸ hd)
    simp [hd, this]
    intro hc; exact h hc.symm
  · simp [hd]

/-- After `docSet` the document stored under the id is the one that was set. -/
theorem docData_docSet_self (docs : List (String × α)) (id : String) (x : α) :
    docData (docSet docs id x) id = some x := by
  simp [docData, docSet, List.find?_cons]

/-- A `docSet` under another id leaves the document read under an id. -/
theorem docData_docSet_other (docs : List (String × α)) {id other : String} (x : α)
    (h : other ≠ id) : docData (docSet docs other x) id = docData docs id := by
  have hb : (other == id) = false := by simpa using h
  have hfun : (fun a : String × α => (decide ((!(a.1 == other)) = true ∧ (a.1 == id) = true))) =
      (fun a : String × α => a.1 == id) := by
    funext a
    by_cases hd : a.1 = id
    · have hne : a.1 ≠ other := fun hc => h (hc ▸ hd)
      simp [hd, hne]
      intro hc; exact h hc.symm
    · simp [hd]
  simp only [docData, docSet, List.find?_cons, hb, List.find?_filter]
  rw [hfun]

/-- The function `docUpdate` keeps the ids of a collection. -/
theorem docExists_docUpdate (docs : List (String × α)) (id other : String) (f : α → α) :
    docExists (docUpdate docs id f) other = docExists docs other := by
  induction docs with
  | nil => rfl
  | cons d rest ih =>
      simp only [docExists, docUpdate, List.map_cons, List.any_cons] at ih ⊢
      rw [ih]
      by_cases hd : d.1 = id <;> simp [hd]

/-- A document that can be read exists. -/
theorem docExists_of_docData {docs : List (String × α)} {id : String} {x : α}
    (h : docData docs id = some x) : docExists docs id = true := by
  induction docs with
  | nil => simp [docData] at h
  | cons d rest ih =>
      by_cases hd : d.1 = id
      · simp [docExists, hd]
      · have hb : (d.1 == id) = false := by simpa using hd
        have hrest : docData rest id = some x := by
          simpa [docData, List.find?_cons, hb] using h
        have := ih hrest
        simp only [docExists, List.any_cons, Bool.or_eq_true] at this ⊢
        exact Or.inr this

/-- Two templates with the same transaction id in a month are the same. -/
theorem transactionId_injective {a b currentMonth : String}
    (h : transactionId a currentMonth = transactionId b currentMonth) : a = b := by
  have hdata := congrArg String.data h
  simp only [transactionId, String.data_append, List.append_assoc] at hdata
  have h1 := List.append_cancel_left hdata
  have h2 := List.append_cancel_right h1
  exact String.ext h2

/-- The write staged on an account is an update of that account. -/
theorem accountWrite_cases (accountData : Account) (rt : RecurringTransaction) :
    (∃ v, accountWrite accountData rt = Functions.Write.updateUsedCredit rt.accountId v) ∨
      ∃ v, accountWrite accountData rt = Functions.Write.updateCurrentBalance rt.accountId v := by
  unfold accountWrite
  by_cases hcard : accountData.accountType = some "Tarjeta de Crédito"
  · rw [if_pos hcard]
    exact Or.inl ⟨_, rfl⟩
  · rw [if_neg hcard]
    exact Or.inr ⟨_, rfl⟩

/-- What the loop stages and counts, from any state of its variables: the batch
only grows, every template gets its transaction staged, every template whose
account is read and exists gets its account update staged, nothing else is
staged, and the count grows by the number of templates whose account read went
through. -/
theorem foldl_processTemplate (today : Today) (accountReadOk : String → Bool) (s : Functions.Store)
    (docs : List (String × RecurringTransaction)) (state : LoopState) :
    (∀ w ∈ state.batch, w ∈ (docs.foldl (processTemplate today accountReadOk s) state).batch) ∧
      (∀ d ∈ docs,
        Functions.Write.setTransaction (transactionId d.1 today.currentMonth) (transactionData today d) ∈
          (docs.foldl (processTemplate today accountReadOk s) state).batch) ∧
      (∀ d ∈ docs, accountReadOk d.1 = true →
        ∀ a, docData s.accounts d.2.accountId = some a →
          accountWrite a d.2 ∈ (docs.foldl (processTemplate today accountReadOk s) state).batch) ∧
      (∀ w ∈ (docs.foldl (processTemplate today accountReadOk s) state).batch,
        w ∈ state.batch ∨
        (∃ d ∈ docs, w = Functions.Write.setTransaction (transactionId d.1 today.currentMonth)
          (transactionData today d)) ∨
        ∃ d ∈ docs, accountReadOk d.1 = true ∧
          ∃ a, docData s.accounts d.2.accountId = some a ∧ w = accountWrite a d.2) ∧
      (docs.foldl (processTemplate today accountReadOk s) state).processedCount =
        state.processedCount + (docs.filter (fun d => accountReadOk d.1)).length := by
  induction docs generalizing state with
  | nil => simp
  | cons d rest ih =>
      obtain ⟨ih1, ih2, ih3, ih4, ih5⟩ := ih (processTemplate today accountReadOk s state d)
      have hstep1 : ∀ w ∈ state.batch, w ∈ (processTemplate today accountReadOk s state d).batch := by
        intro w hw
        unfold processTemplate
        cases accountReadOk d.1 <;> cases docData s.accounts d.2.accountId <;> simp [hw]
      have hstep2 : Functions.Write.setTransaction (transactionId d.1 today.currentMonth)
          (transactionData today d) ∈ (processTemplate today accountReadOk s state d).batch := by
        unfold processTemplate
        cases accountReadOk d.1 <;> cases docData s.accounts d.2.accountId <;> simp
      have hstep3 : accountReadOk d.1 = true → ∀ a, docData s.accounts d.2.accountId = some a →
          accountWrite a d.2 ∈ (processTemplate today accountReadOk s state d).batch := by
        intro hok a ha
        unfold processTemplate
        simp [hok, ha]
      have hstep4 : ∀ w ∈ (processTemplate today accountReadOk s state d).batch,
          w ∈ state.batch ∨
          w = Functions.Write.setTransaction (transactionId d.1 today.currentMonth)
            (transactionData today d) ∨
          (accountReadOk d.1 = true ∧
            ∃ a, docData s.accounts d.2.accountId = some a ∧ w = accountWrite a d.2) := by
        intro w hw
        unfold processTemplate at hw
        cases hok : accountReadOk d.1 <;> cases ha : docData s.accounts d.2.accountId <;>
          simp [hok, ha] at hw <;> rcases hw with hw | hw <;> simp [hw]
      have hstep5 : (processTemplate today accountReadOk s state d).processedCount =
          state.processedCount + (if accountReadOk d.1 then 1 else 0) := by
        unfold processTemplate
        cases accountReadOk d.1 <;> cases docData s.accounts d.2.accountId <;> simp
      simp only [List.foldl_cons]
      refine ⟨fun w hw => ih1 w (hstep1 w hw), ?_, ?_, ?_, ?_⟩
      · intro d' hd'
        rcases List.mem_cons.mp hd' with rfl | hmem
        · exact ih1 _ hstep2
        · exact ih2 d' hmem
      · intro d' hd' hok a ha
        rcases List.mem_cons.mp hd' with rfl | hmem
        · exact ih1 _ (hstep3 hok a ha)
        · exact ih3 d' hmem hok a ha
      · intro w hw
        rcases ih4 w hw with h | ⟨d', hd', h⟩ | ⟨d', hd', h⟩
        · rcases hstep4 w h with h' | h' | h'
          · exact Or.inl h'
          · exact Or.inr (Or.inl ⟨d, List.mem_cons_self _ _, h'⟩)
          · exact Or.inr (Or.inr ⟨d, List.mem_cons_self _ _, h'⟩)
        · exact Or.inr (Or.inl ⟨d', List.mem_cons_of_mem _ hd', h⟩)
        · exact Or.inr (Or.inr ⟨d', List.mem_cons_of_mem _ hd', h⟩)
      · rw [ih5, hstep5]
        cases hok : accountReadOk d.1
        · simp [List.filter_cons, hok]
        · simp [List.filter_cons, hok]
          omega

/-- A write that goes through keeps the templates and the ids of the accounts. -/
theorem applyWrite_keeps {s s' : Functions.Store} {w : Functions.Write}
    (h : Functions.applyWrite s w = some s') :
    s'.recurringTransactions = s.recurringTransactions ∧
      ∀ id, docExists s'.accounts id = docExists s.accounts id := by
  cases w with
  | setTransaction id t =>
      simp only [Functions.applyWrite, Option.some.injEq] at h
      subst h
      exact ⟨rfl, fun _ => rfl⟩
  | updateUsedCredit accountId usedCredit =>
      simp only [Functions.applyWrite] at h
      split_ifs at h
      simp only [Option.some.injEq] at h
      subst h
      exact ⟨rfl, fun id => by simpa using docExists_docUpdate s.accounts accountId id _⟩
  | updateCurrentBalance accountId currentBalance =>
      simp only [Functions.applyWrite] at h
      split_ifs at h
      simp only [Option.some.injEq] at h
      subst h
      exact ⟨rfl, fun id => by simpa using docExists_docUpdate s.accounts accountId id _⟩

/-- A batch whose updates all target accounts of the store is applied in full. -/
theorem foldlM_applyWrite_succeeds (s0 : Functions.Store) (batch : List Functions.Write)
    (htargets : ∀ w ∈ batch,
      (∀ id v, w = Functions.Write.updateUsedCredit id v → docExists s0.accounts id = true) ∧
      (∀ id v, w = Functions.Write.updateCurrentBalance id v →
        docExists s0.accounts id = true))
    (s : Functions.Store) (hids : ∀ id, docExists s.accounts id = docExists s0.accounts id) :
    ∃ s', batch.foldlM Functions.applyWrite s = some s' ∧
      s'.recurringTransactions = s.recurringTransactions := by
  induction batch generalizing s with
  | nil => exact ⟨s, rfl, rfl⟩
  | cons w rest ih =>
      have hw := htargets w (List.mem_cons_self _ _)
      have hstep : ∃ s1, Functions.applyWrite s w = some s1 := by
        cases w with
        | setTransaction id t => exact ⟨_, rfl⟩
        | updateUsedCredit accountId usedCredit =>
            have hex : docExists s.accounts accountId = true := by
              rw [hids]; exact hw.1 _ _ rfl
            simp [Functions.applyWrite, hex]
        | updateCurrentBalance accountId currentBalance =>
            have hex : docExists s.accounts accountId = true := by
              rw [hids]; exact hw.2 _ _ rfl
            simp [Functions.applyWrite, hex]
      obtain ⟨s1, hs1⟩ := hstep
      obtain ⟨hk1, hk2⟩ := applyWrite_keeps hs1
      obtain ⟨s', hs', htempl⟩ := ih (fun w' hw' => htargets w' (List.mem_cons_of_mem _ hw')) s1
        (fun id => by rw [hk2, hids])
      refine ⟨s', ?_, by rw [htempl, hk1]⟩
      simp [List.foldlM_cons, hs1, hs']

/-- The batch staged by the loop is applied in full when the commit goes
through, and the templates are left as they were. -/
theorem stagedBatch_commits (today : Today) (accountReadOk : String → Bool)
    (s : Functions.Store) :
    ∃ s', (stagedBatch today accountReadOk s).batch.foldlM Functions.applyWrite s = some s' ∧
      s'.recurringTransactions = s.recurringTransactions := by
  apply foldlM_applyWrite_succeeds s _ _ s (fun _ => rfl)
  intro w hw
  have hall := (foldl_processTemplate today accountReadOk s (matchingTemplates today s)
    { batch := [], processedCount := 0 }).2.2.2.1 w hw
  rcases hall with h | ⟨d, -, rfl⟩ | ⟨d, -, -, a, ha, rfl⟩
  · simp at h
  · exact ⟨fun _ _ hc => (by cases hc), fun _ _ hc => (by cases hc)⟩
  · have hex := docExists_of_docData ha
    rcases accountWrite_cases a d.2 with ⟨v, hv⟩ | ⟨v, hv⟩
    · rw [hv]
      refine ⟨fun id v' hc => ?_, fun _ _ hc => (by cases hc)⟩
      cases hc; exact hex
    · rw [hv]
      refine ⟨fun _ _ hc => (by cases hc), fun id v' hc => ?_⟩
      cases hc; exact hex

/-- The result of a run in which some template matches and the commit goes
through: the staged batch applied in full, with the count of the loop. -/
theorem handleRecurringTransactions_commits (today : Today) (accountReadOk : String → Bool)
    (s : Functions.Store) (hne : matchingTemplates today s ≠ []) :
    ∃ s', (stagedBatch today accountReadOk s).batch.foldlM Functions.applyWrite s = some s' ∧
      s'.recurringTransactions = s.recurringTransactions ∧
      handleRecurringTransactions today accountReadOk true s =
        { store := s',
          processedCount := some (stagedBatch today accountReadOk s).processedCount,
          failed := false } := by
  obtain ⟨s', hs', htempl⟩ := stagedBatch_commits today accountReadOk s
  refine ⟨s', hs', htempl, ?_⟩
  have hempty : (matchingTemplates today s).isEmpty = false := by
    cases hm : matchingTemplates today s with
    | nil => exact absurd hm hne
    | cons _ _ => rfl
  simp [handleRecurringTransactions, hempty, Functions.commit, hs']

/-- Writes applied to a store that holds one transaction under an id leave one
transaction under that id. -/
theorem docCount_kept (id : String) (batch : List Functions.Write) (s s' : Functions.Store)
    (h : batch.foldlM Functions.applyWrite s = some s')
    (hcount : docCount s.transactions id = 1) : docCount s'.transactions id = 1 := by
  induction batch generalizing s with
  | nil =>
      simp only [List.foldlM_nil, pure, Option.some.injEq] at h
      subst h; exact hcount
  | cons w rest ih =>
      simp only [List.foldlM_cons] at h
      cases hw : Functions.applyWrite s w with
      | none => simp [hw] at h
      | some s1 =>
          simp only [hw, Option.some_bind] at h
          apply ih s1 h
          cases w with
          | setTransaction other t =>
              simp only [Functions.applyWrite, Option.some.injEq] at hw
              subst hw
              by_cases ho : other = id
              · subst ho; exact docCount_docSet_self _ _ _
              · simp only; rw [docCount_docSet_other _ _ ho]; exact hcount
          | updateUsedCredit accountId usedCredit =>
              simp only [Functions.applyWrite] at hw
              split_ifs at hw
              simp only [Option.some.injEq] at hw
              subst hw; exact hcount
          | updateCurrentBalance accountId currentBalance =>
              simp only [Functions.applyWrite] at hw
              split_ifs at hw
              simp only [Option.some.injEq] at hw
              subst hw; exact hcount

/-- A batch that sets a transaction under an id leaves exactly one transaction
under that id, whatever the store held. -/
theorem docCount_after_set (id : String) (batch : List Functions.Write)
    (s s' : Functions.Store) (h : batch.foldlM Functions.applyWrite s = some s')
    (hset : ∃ t, Functions.Write.setTransaction id t ∈ batch) :
    docCount s'.transactions id = 1 := by
  induction batch generalizing s with
  | nil => obtain ⟨t, ht⟩ := hset; simp at ht
  | cons w rest ih =>
      simp only [List.foldlM_cons] at h
      cases hw : Functions.applyWrite s w with
      | none => simp [hw] at h
      | some s1 =>
          simp only [hw, Option.some_bind] at h
          obtain ⟨t, ht⟩ := hset
          rcases List.mem_cons.mp ht with hhead | htail
          · subst hhead
            simp only [Functions.applyWrite, Option.some.injEq] at hw
            subst hw
            exact docCount_kept id rest _ s' h (docCount_docSet_self _ _ _)
          · exact ih s1 h ⟨t, htail⟩

/-- Reading a collection with one more document in front. -/
theorem docData_cons (d : String × α) (rest : List (String × α)) (id : String) :
    docData (d :: rest) id = if d.1 = id then some d.2 else docData rest id := by
  by_cases hd : d.1 = id
  · simp [docData, List.find?_cons, hd]
  · have hb : (d.1 == id) = false := by simpa using hd
    simp [docData, List.find?_cons, hd, hb]

/-- Reading a document back after `docUpdate` gives the rewritten document. -/
theorem docData_docUpdate_self (docs : List (String × α)) (id : String) (f : α → α) :
    docData (docUpdate docs id f) id = (docData docs id).map f := by
  induction docs with
  | nil => rfl
  | cons d rest ih =>
      have hcons : docUpdate (d :: rest) id f =
          (if d.1 == id then (d.1, f d.2) else d) :: docUpdate rest id f := rfl
      rw [hcons, docData_cons, docData_cons, ih]
      by_cases hd : d.1 = id
      · simp [hd]
      · have hb : (d.1 == id) = false := by simpa using hd
        simp [hd, hb]

/-- A `docUpdate` under another id leaves the document read under an id. -/
theorem docData_docUpdate_other (docs : List (String × α)) {id other : String} (f : α → α)
    (h : other ≠ id) : docData (docUpdate docs other f) id = docData docs id := by
  induction docs with
  | nil => rfl
  | cons d rest ih =>
      have hcons : docUpdate (d :: rest) other f =
          (if d.1 == other then (d.1, f d.2) else d) :: docUpdate rest other f := rfl
      rw [hcons, docData_cons, docData_cons, ih]
      by_cases ho : d.1 = other
      · have hne : ¬ other = id := h
        simp [ho, hne]
      · have hb : (d.1 == other) = false := by simpa using ho
        simp [hb]

/-- One write that goes through: what it does to the transaction and to the
account read under given ids. -/
theorem applyWrite_effect {s s' : Functions.Store} {w : Functions.Write}
    (h : Functions.applyWrite s w = some s') (txId accountId : String) :
    (docData s'.transactions txId =
        match w with
        | Functions.Write.setTransaction id t =>
            if id = txId then some t else docData s.transactions txId
        | _ => docData s.transactions txId) ∧
      docData s'.accounts accountId =
        if target w = some accountId then (docData s.accounts accountId).map (updatedAccount w)
        else docData s.accounts accountId := by
  cases w with
  | setTransaction id t =>
      simp only [Functions.applyWrite, Option.some.injEq] at h
      subst h
      refine ⟨?_, by simp [target]⟩
      by_cases hid : id = txId
      · subst hid; simp [docData_docSet_self]
      · simp [hid, docData_docSet_other _ _ hid]
  | updateUsedCredit other usedCredit =>
      simp only [Functions.applyWrite] at h
      split_ifs at h
      simp only [Option.some.injEq] at h
      subst h
      refine ⟨rfl, ?_⟩
      by_cases ho : other = accountId
      · subst ho
        simp only [target, if_true]
        rw [docData_docUpdate_self]
        rfl
      · have hne : ¬ some other = some accountId := fun hc => ho (Option.some.inj hc)
        simp only [target, hne, if_false]
        exact docData_docUpdate_other _ _ ho
  | updateCurrentBalance other currentBalance =>
      simp only [Functions.applyWrite] at h
      split_ifs at h
      simp only [Option.some.injEq] at h
      subst h
      refine ⟨rfl, ?_⟩
      by_cases ho : other = accountId
      · subst ho
        simp only [target, if_true]
        rw [docData_docUpdate_self]
        rfl
      · have hne : ¬ some other = some accountId := fun hc => ho (Option.some.inj hc)
        simp only [target, hne, if_false]
        exact docData_docUpdate_other _ _ ho

/-- A batch in which every write of the transaction under an id carries the same
data leaves that data under the id, when the batch holds such a write or the
store held the data already. -/
theorem docData_transactions_after (id : String) (t : GeneratedTransaction)
    (batch : List Functions.Write) (s s' : Functions.Store)
    (h : batch.foldlM Functions.applyWrite s = some s')
    (hsame : ∀ t', Functions.Write.setTransaction id t' ∈ batch → t' = t)
    (hstart : Functions.Write.setTransaction id t ∈ batch ∨ docData s.transactions id = some t) :
    docData s'.transactions id = some t := by
  induction batch generalizing s with
  | nil =>
      simp only [List.foldlM_nil, pure, Option.some.injEq] at h
      subst h
      rcases hstart with hmem | hthere
      · simp at hmem
      · exact hthere
  | cons w rest ih =>
      simp only [List.foldlM_cons] at h
      cases hw : Functions.applyWrite s w with
      | none => simp [hw] at h
      | some s1 =>
          simp only [hw, Option.some_bind] at h
          have heff := (applyWrite_effect hw id "").1
          have hsame' : ∀ t', Functions.Write.setTransaction id t' ∈ rest → t' = t :=
            fun t' ht' => hsame t' (List.mem_cons_of_mem _ ht')
          cases w with
          | setTransaction other t' =>
              simp only at heff
              by_cases ho : other = id
              · subst ho
                have ht' : t' = t := hsame t' (List.mem_cons_self _ _)
                subst ht'
                rw [if_pos rfl] at heff
                exact ih s1 h hsame' (Or.inr heff)
              · rw [if_neg ho] at heff
                rcases hstart with hmem | hthere
                · rcases List.mem_cons.mp hmem with hhead | htail
                  · cases hhead; exact absurd rfl ho
                  · exact ih s1 h hsame' (Or.inl htail)
                · exact ih s1 h hsame' (Or.inr (heff.trans hthere))
          | updateUsedCredit other v =>
              simp only at heff
              rcases hstart with hmem | hthere
              · rcases List.mem_cons.mp hmem with hhead | htail
                · cases hhead
                · exact ih s1 h hsame' (Or.inl htail)
              · exact ih s1 h hsame' (Or.inr (heff.trans hthere))
          | updateCurrentBalance other v =>
              simp only at heff
              rcases hstart with hmem | hthere
              · rcases List.mem_cons.mp hmem with hhead | htail
                · cases hhead
                · exact ih s1 h hsame' (Or.inl htail)
              · exact ih s1 h hsame' (Or.inr (heff.trans hthere))

/-- Updating an account twice with the same write is updating it once. -/
theorem updatedAccount_idem (w : Functions.Write) (a : Account) :
    updatedAccount w (updatedAccount w a) = updatedAccount w a := by
  cases w <;> rfl

/-- A batch in which a single write targets an account leaves that account as
updated by it. -/
theorem docData_accounts_after (accountId : String) (w0 : Functions.Write) (a : Account)
    (batch : List Functions.Write) (s s' : Functions.Store)
    (h : batch.foldlM Functions.applyWrite s = some s')
    (hsame : ∀ w ∈ batch, target w = some accountId → w = w0)
    (hstart : (w0 ∈ batch ∧ target w0 = some accountId ∧ docData s.accounts accountId = some a) ∨
      docData s.accounts accountId = some (updatedAccount w0 a)) :
    docData s'.accounts accountId = some (updatedAccount w0 a) := by
  induction batch generalizing s with
  | nil =>
      simp only [List.foldlM_nil, pure, Option.some.injEq] at h
      subst h
      rcases hstart with ⟨hmem, -, -⟩ | hthere
      · simp at hmem
      · exact hthere
  | cons w rest ih =>
      simp only [List.foldlM_cons] at h
      cases hw : Functions.applyWrite s w with
      | none => simp [hw] at h
      | some s1 =>
          simp only [hw, Option.some_bind] at h
          have heff := (applyWrite_effect hw "" accountId).2
          have hsame' : ∀ w' ∈ rest, target w' = some accountId → w' = w0 :=
            fun w' hw' => hsame w' (List.mem_cons_of_mem _ hw')
          by_cases ht : target w = some accountId
          · have hw0 : w = w0 := hsame w (List.mem_cons_self _ _) ht
            subst hw0
            rw [if_pos ht] at heff
            rcases hstart with ⟨-, -, hthere⟩ | hthere
            · rw [hthere] at heff
              exact ih s1 h hsame' (Or.inr heff)
            · rw [hthere] at heff
              simp only [Option.map_some', updatedAccount_idem] at heff
              exact ih s1 h hsame' (Or.inr heff)
          · rw [if_neg ht] at heff
            rcases hstart with ⟨hmem, htarget, hthere⟩ | hthere
            · rcases List.mem_cons.mp hmem with hhead | htail
              · subst hhead; exact absurd htarget ht
              · exact ih s1 h hsame' (Or.inl ⟨htail, htarget, heff.trans hthere⟩)
            · exact ih s1 h hsame' (Or.inr (heff.trans hthere))

/-- A batch without a write on an account leaves that account as it was. -/
theorem docData_accounts_untouched (accountId : String) (batch : List Functions.Write)
    (s s' : Functions.Store) (h : batch.foldlM Functions.applyWrite s = some s')
    (hnone : ∀ w ∈ batch, target w ≠ some accountId) :
    docData s'.accounts accountId = docData s.accounts accountId := by
  induction batch generalizing s with
  | nil =>
      simp only [List.foldlM_nil, pure, Option.some.injEq] at h
      subst h; rfl
  | cons w rest ih =>
      simp only [List.foldlM_cons] at h
      cases hw : Functions.applyWrite s w with
      | none => simp [hw] at h
      | some s1 =>
          simp only [hw, Option.some_bind] at h
          have heff := (applyWrite_effect hw "" accountId).2
          rw [if_neg (hnone w (List.mem_cons_self _ _))] at heff
          rw [ih s1 h (fun w' hw' => hnone w' (List.mem_cons_of_mem _ hw')), heff]

/-- In a collection whose ids are distinct, two documents with the same id are
the same document. -/
theorem eq_of_mem_of_fst_eq {docs : List (String × α)} (hids : (docs.map Prod.fst).Nodup)
    {d d' : String × α} (hd : d ∈ docs) (hd' : d' ∈ docs) (h : d.1 = d'.1) : d = d' := by
  induction docs with
  | nil => simp at hd
  | cons x rest ih =>
      simp only [List.map_cons, List.nodup_cons, List.mem_map, not_exists, not_and] at hids
      rcases List.mem_cons.mp hd with rfl | hrest
      · rcases List.mem_cons.mp hd' with rfl | hrest'
        · rfl
        · exact absurd h.symm (hids.1 d' hrest')
      · rcases List.mem_cons.mp hd' with rfl | hrest'
        · exact absurd h (hids.1 d hrest)
        · exact ih hids.2 hrest hrest'

/-- The templates matched by the query are templates of the store. -/
theorem mem_of_mem_matchingTemplates {today : Today} {s : Functions.Store}
    {d : String × RecurringTransaction} (h : d ∈ matchingTemplates today s) :
    d ∈ s.recurringTransactions :=
  (List.mem_filter.mp h).1

/-- The account targeted by the write staged for a template is the account of
the template. -/
theorem target_accountWrite (accountData : Account) (rt : RecurringTransaction) :
    target (accountWrite accountData rt) = some rt.accountId := by
  rcases accountWrite_cases accountData rt with ⟨v, hv⟩ | ⟨v, hv⟩ <;> rw [hv] <;> rfl

/-- After a committed run over templates with distinct ids the transaction of
each matching template is stored under its id. -/
theorem transaction_stored_after_run (today : Today) (accountReadOk : String → Bool)
    (s s1 : Functions.Store) (hids : (s.recurringTransactions.map Prod.fst).Nodup)
    (hs1 : (stagedBatch today accountReadOk s).batch.foldlM Functions.applyWrite s = some s1)
    (doc : String × RecurringTransaction) (hdoc : doc ∈ matchingTemplates today s) :
    docData s1.transactions (transactionId doc.1 today.currentMonth) =
      some (transactionData today doc) := by
  obtain ⟨-, hsets, -, hall, -⟩ :=
    foldl_processTemplate today accountReadOk s (matchingTemplates today s)
      { batch := [], processedCount := 0 }
  apply docData_transactions_after _ _ _ s s1 hs1 _ (Or.inl (hsets doc hdoc))
  intro t' ht'
  rcases hall _ ht' with h | ⟨d, hd, h⟩ | ⟨d, -, -, a, -, h⟩
  · simp at h
  · injection h with hid ht
    have hd1 : doc.1 = d.1 := transactionId_injective hid
    have : doc = d := eq_of_mem_of_fst_eq hids (mem_of_mem_matchingTemplates hdoc)
      (mem_of_mem_matchingTemplates hd) hd1
    rw [ht, this]
  · rcases accountWrite_cases a d.2 with ⟨v, hv⟩ | ⟨v, hv⟩ <;> rw [hv] at h <;> cases h

/-- After a committed run the account of a template that was processed without
error, and to which no other matching template refers, holds the update staged
for that template. -/
theorem account_updated_after_run (today : Today) (accountReadOk : String → Bool)
    (s s1 : Functions.Store)
    (hs1 : (stagedBatch today accountReadOk s).batch.foldlM Functions.applyWrite s = some s1)
    (doc : String × RecurringTransaction) (hdoc : doc ∈ matchingTemplates today s)
    (hok : accountReadOk doc.1 = true) (a : Account)
    (ha : docData s.accounts doc.2.accountId = some a)
    (honly : ∀ other ∈ matchingTemplates today s,
      other.2.accountId = doc.2.accountId → other = doc) :
    docData s1.accounts doc.2.accountId = some (updatedAccount (accountWrite a doc.2) a) := by
  obtain ⟨-, -, hupdates, hall, -⟩ :=
    foldl_processTemplate today accountReadOk s (matchingTemplates today s)
      { batch := [], processedCount := 0 }
  apply docData_accounts_after _ _ _ _ s s1 hs1 _
    (Or.inl ⟨hupdates doc hdoc hok a ha, target_accountWrite a doc.2, ha⟩)
  intro w hw htarget
  rcases hall w hw with h | ⟨d, -, h⟩ | ⟨d, hd, -, a', ha', h⟩
  · simp at h
  · rw [h] at htarget; cases htarget
  · rw [h, target_accountWrite] at htarget
    have hacc : d.2.accountId = doc.2.accountId := Option.some.inj htarget
    have hdd : d = doc := honly d hd hacc
    subst hdd
    have haa : a' = a := Option.some.inj (ha'.symm.trans ha)
    rw [h, haa]

/-- After a committed run an account that no matching template with an existing
account refers to is as it was; in particular a missing account stays missing. -/
theorem missing_account_after_run (today : Today) (accountReadOk : String → Bool)
    (s s1 : Functions.Store)
    (hs1 : (stagedBatch today accountReadOk s).batch.foldlM Functions.applyWrite s = some s1)
    (accountId : String) (hmissing : docData s.accounts accountId = none) :
    docData s1.accounts accountId = none := by
  obtain ⟨-, -, -, hall, -⟩ :=
    foldl_processTemplate today accountReadOk s (matchingTemplates today s)
      { batch := [], processedCount := 0 }
  rw [docData_accounts_untouched accountId _ s s1 hs1, hmissing]
  intro w hw htarget
  rcases hall w hw with h | ⟨d, -, h⟩ | ⟨d, -, -, a', ha', h⟩
  · simp at h
  · rw [h] at htarget; cases htarget
  · rw [h, target_accountWrite] at htarget
    rw [Option.some.inj htarget, hmissing] at ha'
    cases ha'

end RecurringLemmas

/-! ## Claims on the recurring processor -/

section RecurringClaims

/-- C18, the code at the failing input. The loop has no check for an existing
transaction: on the second run of the same day the transaction
'recurring_t1_2025-03' written by the first run is staged and written again (its
date changes from 100 to 200) and the account is charged again, its balance going
10000, 9000, 8000. -/
theorem second_run_charges_account_again :
    Functions.docExists firstRun.store.transactions "recurring_t1_2025-03" = true ∧
      (Functions.docData firstRun.store.transactions "recurring_t1_2025-03").map
        (fun t => t.date) = some 100 ∧
      (Functions.docData firstRun.store.accounts "a1").bind (fun a => a.currentBalance) =
        some 9000 ∧
      (Functions.stagedBatch (marchFifth 200) (fun _ => true) firstRun.store).batch =
        [ Functions.Write.setTransaction "recurring_t1_2025-03"
            (Functions.transactionData (marchFifth 200) ("t1", rentTemplate)),
          Functions.Write.updateCurrentBalance "a1" 8000 ] ∧
      secondRun.processedCount = some 1 ∧
      (Functions.docData secondRun.store.transactions "recurring_t1_2025-03").map
        (fun t => t.date) = some 200 ∧
      (Functions.docData secondRun.store.accounts "a1").bind (fun a => a.currentBalance) =
        some 8000 := by
  decide

/-- C19. Idempotent recurring processing by deterministic id. Every template
that matches today's day of the month has its transaction written under the id
'recurring_' + templateId + '_' + month: after a run whose commit goes through
exactly one transaction document is stored under that id, after a second run on
the same calendar day there is still exactly one, and two different templates
never share an id. -/
theorem recurring_transaction_stored_once (today again : Functions.Today)
    (accountReadOk accountReadOkAgain : String → Bool) (s : Functions.Store)
    (doc : String × Functions.RecurringTransaction)
    (hday : again.dayOfMonth = today.dayOfMonth)
    (hmonth : again.currentMonth = today.currentMonth)
    (hdoc : doc ∈ Functions.matchingTemplates today s) :
    (Functions.handleRecurringTransactions today accountReadOk true s).failed = false ∧
      Functions.docCount
        (Functions.handleRecurringTransactions today accountReadOk true s).store.transactions
        (Functions.transactionId doc.1 today.currentMonth) = 1 ∧
      (Functions.handleRecurringTransactions again accountReadOkAgain true
        (Functions.handleRecurringTransactions today accountReadOk true s).store).failed =
        false ∧
      Functions.docCount
        (Functions.handleRecurringTransactions again accountReadOkAgain true
          (Functions.handleRecurringTransactions today accountReadOk true
            s).store).store.transactions
        (Functions.transactionId doc.1 today.currentMonth) = 1 ∧
      ∀ other ∈ Functions.matchingTemplates today s, other.1 ≠ doc.1 →
        Functions.transactionId other.1 today.currentMonth ≠
          Functions.transactionId doc.1 today.currentMonth := by
  have hne : Functions.matchingTemplates today s ≠ [] := List.ne_nil_of_mem hdoc
  obtain ⟨s1, hs1, htempl, hrun⟩ :=
    handleRecurringTransactions_commits today accountReadOk s hne
  have hset : ∃ t, Functions.Write.setTransaction
      (Functions.transactionId doc.1 today.currentMonth) t ∈
      (Functions.stagedBatch today accountReadOk s).batch :=
    ⟨_, (foldl_processTemplate today accountReadOk s (Functions.matchingTemplates today s)
      { batch := [], processedCount := 0 }).2.1 doc hdoc⟩
  have hcount1 := docCount_after_set _ _ s s1 hs1 hset
  have hmatch : Functions.matchingTemplates again s1 = Functions.matchingTemplates today s := by
    simp only [Functions.matchingTemplates, htempl, hday]
  have hdoc2 : doc ∈ Functions.matchingTemplates again s1 := hmatch ▸ hdoc
  obtain ⟨s2, hs2, -, hrun2⟩ :=
    handleRecurringTransactions_commits again accountReadOkAgain s1 (List.ne_nil_of_mem hdoc2)
  have hset2 : ∃ t, Functions.Write.setTransaction
      (Functions.transactionId doc.1 today.currentMonth) t ∈
      (Functions.stagedBatch again accountReadOkAgain s1).batch := by
    refine ⟨Functions.transactionData again doc, ?_⟩
    have := (foldl_processTemplate again accountReadOkAgain s1
      (Functions.matchingTemplates again s1) { batch := [], processedCount := 0 }).2.1 doc hdoc2
    rw [hmonth] at this
    exact this
  have hcount2 := docCount_after_set _ _ s1 s2 hs2 hset2
  have hfirst : (Functions.handleRecurringTransactions today accountReadOk true s).store = s1 := by
    rw [hrun]
  rw [hfirst, hrun2, hrun]
  exact ⟨rfl, hcount1, rfl, hcount2, fun other _ hneq hc => hneq (transactionId_injective hc)⟩

/-- C19, at a concrete input: after two runs on day 5 of March 2025 the store
holds exactly one transaction for the rent template, under
'recurring_t1_2025-03'. -/
theorem recurring_transaction_stored_once_witness :
    ("t1", rentTemplate) ∈ Functions.matchingTemplates (marchFifth 100) recurringStore ∧
      Functions.transactionId "t1" "2025-03" = "recurring_t1_2025-03" ∧
      Functions.docCount secondRun.store.transactions "recurring_t1_2025-03" = 1 ∧
      Functions.docCount
        (Functions.handleRecurringTransactions (marchFifth 200) (fun _ => true) true
          (Functions.handleRecurringTransactions (marchFifth 100) (fun _ => true) true
            recurringStore).store).store.transactions
        (Functions.transactionId "t1" "2025-03") = 1 :=
  ⟨by decide, by decide, by decide,
    (recurring_transaction_stored_once (marchFifth 100) (marchFifth 200) (fun _ => true)
      (fun _ => true) recurringStore ("t1", rentTemplate) rfl rfl (by decide)).2.2.2.1⟩

/-- C20. Failure isolation in the recurring processor. In a run over templates
with distinct ids whose commit goes through, whatever templates fail at the read
of their account: the run does not throw; the count it reports is the number of
templates processed without error; the transaction of every matching template is
stored under its id; and for every template processed without error whose
account exists the account update is part of the committed batch, the account
holding the updated value when no other matching template refers to it. -/
theorem failed_template_does_not_stop_the_others (today : Functions.Today)
    (accountReadOk : String → Bool) (s : Functions.Store)
    (hids : (s.recurringTransactions.map Prod.fst).Nodup)
    (hne : Functions.matchingTemplates today s ≠ []) :
    (Functions.handleRecurringTransactions today accountReadOk true s).failed = false ∧
      (Functions.handleRecurringTransactions today accountReadOk true s).processedCount =
        some ((Functions.matchingTemplates today s).filter
          (fun d => accountReadOk d.1)).length ∧
      (Functions.stagedBatch today accountReadOk s).batch.foldlM Functions.applyWrite s =
        some (Functions.handleRecurringTransactions today accountReadOk true s).store ∧
      ∀ doc ∈ Functions.matchingTemplates today s,
        Functions.docData
            (Functions.handleRecurringTransactions today accountReadOk true s).store.transactions
            (Functions.transactionId doc.1 today.currentMonth) =
          some (Functions.transactionData today doc) ∧
        (accountReadOk doc.1 = true →
          ∀ a, Functions.docData s.accounts doc.2.accountId = some a →
            Functions.accountWrite a doc.2 ∈
              (Functions.stagedBatch today accountReadOk s).batch ∧
            ((∀ other ∈ Functions.matchingTemplates today s,
                other.2.accountId = doc.2.accountId → other = doc) →
              Functions.docData
                  (Functions.handleRecurringTransactions today accountReadOk true
                    s).store.accounts doc.2.accountId =
                some (Functions.updatedAccount (Functions.accountWrite a doc.2) a))) := by
  obtain ⟨s1, hs1, -, hrun⟩ := handleRecurringTransactions_commits today accountReadOk s hne
  obtain ⟨-, hsets, hupdates, hall, hcount⟩ :=
    foldl_processTemplate today accountReadOk s (Functions.matchingTemplates today s)
      { batch := [], processedCount := 0 }
  have hbatch : (List.foldl (Functions.processTemplate today accountReadOk s)
      { batch := [], processedCount := 0 } (Functions.matchingTemplates today s)) =
      Functions.stagedBatch today accountReadOk s := rfl
  rw [hbatch] at hsets hupdates hall hcount
  rw [hrun]
  refine ⟨rfl, ?_, hs1, ?_⟩
  · simp only [hcount, Nat.zero_add]
  · intro doc hdoc
    constructor
    · apply docData_transactions_after _ _ _ s s1 hs1 _ (Or.inl (hsets doc hdoc))
      intro t' ht'
      rcases hall _ ht' with h | ⟨d, hd, h⟩ | ⟨d, -, -, a, -, h⟩
      · simp at h
      · injection h with hid ht
        have hd1 : doc.1 = d.1 := transactionId_injective hid
        have : doc = d := eq_of_mem_of_fst_eq hids (mem_of_mem_matchingTemplates hdoc)
          (mem_of_mem_matchingTemplates hd) hd1
        rw [ht, this]
      · rcases accountWrite_cases a d.2 with ⟨v, hv⟩ | ⟨v, hv⟩ <;> rw [hv] at h <;> cases h
    · intro hok a ha
      refine ⟨hupdates doc hdoc hok a ha, fun honly => ?_⟩
      apply docData_accounts_after _ _ _ _ s s1 hs1 _
        (Or.inl ⟨hupdates doc hdoc hok a ha, target_accountWrite a doc.2, ha⟩)
      intro w hw htarget
      rcases hall w hw with h | ⟨d, -, h⟩ | ⟨d, hd, -, a', ha', h⟩
      · simp at h
      · rw [h] at htarget; cases htarget
      · rw [h, target_accountWrite] at htarget
        have hacc : d.2.accountId = doc.2.accountId := Option.some.inj htarget
        have hdd : d = doc := honly d hd hacc
        subst hdd
        have haa : a' = a := Option.some.inj (ha'.symm.trans ha)
        rw [h, haa]

/-- C20, at a concrete input: in the run over the rent and the salary templates
in which the read of the rent account throws, the count is 1, both transactions
are stored, the salary account goes from 200 to 5200 and the rent account keeps
10000. -/
theorem failed_template_does_not_stop_the_others_witness :
    (Functions.handleRecurringTransactions (marchFifth 100) rentReadFails true
        twoTemplateStore).processedCount = some 1 ∧
      (Functions.docData (Functions.handleRecurringTransactions (marchFifth 100) rentReadFails
        true twoTemplateStore).store.accounts "a2").bind (fun a => a.currentBalance) =
        some 5200 ∧
      (Functions.docData (Functions.handleRecurringTransactions (marchFifth 100) rentReadFails
        true twoTemplateStore).store.accounts "a1").bind (fun a => a.currentBalance) =
        some 10000 ∧
      Functions.docData
          (Functions.handleRecurringTransactions (marchFifth 100) rentReadFails true
            twoTemplateStore).store.transactions
          (Functions.transactionId "t2" (marchFifth 100).currentMonth) =
        some (Functions.transactionData (marchFifth 100) ("t2", salaryTemplate)) :=
  have h := failed_template_does_not_stop_the_others (marchFifth 100) rentReadFails
    twoTemplateStore (by decide) (by decide)
  ⟨by decide, by decide, by decide, (h.2.2.2 ("t2", salaryTemplate) (by decide)).1⟩

/-- C21, the claim as stated fails. In the run over the rent template and the
fee template, whose account 'zz' does not exist, the transaction of the fee
template is written and the template is counted: two templates are reported as
processed. -/
theorem template_without_account_is_processed :
    Functions.docData orphanStore.accounts "zz" = none ∧
      Functions.docData
          (Functions.handleRecurringTransactions (marchFifth 100) (fun _ => true) true
            orphanStore).store.transactions "recurring_t3_2025-03" =
        some (Functions.transactionData (marchFifth 100) ("t3", feeTemplate)) ∧
      (Functions.handleRecurringTransactions (marchFifth 100) (fun _ => true) true
        orphanStore).processedCount = some 2 := by
  decide

/-- C21, amended. A matching template whose account document is missing is
processed without an account update: in a run over templates with distinct ids
whose commit goes through, its transaction is written under its id, it is
counted as processed (when its read does not throw), no account is created for
it, and the transaction of every other matching template is written as well. -/
theorem template_without_account_keeps_its_transaction (today : Functions.Today)
    (accountReadOk : String → Bool) (s : Functions.Store)
    (doc : String × Functions.RecurringTransaction)
    (hids : (s.recurringTransactions.map Prod.fst).Nodup)
    (hdoc : doc ∈ Functions.matchingTemplates today s)
    (hmissing : Functions.docData s.accounts doc.2.accountId = none)
    (hok : accountReadOk doc.1 = true) :
    (Functions.handleRecurringTransactions today accountReadOk true s).failed = false ∧
      Functions.docData
          (Functions.handleRecurringTransactions today accountReadOk true s).store.transactions
          (Functions.transactionId doc.1 today.currentMonth) =
        some (Functions.transactionData today doc) ∧
      doc ∈ (Functions.matchingTemplates today s).filter (fun d => accountReadOk d.1) ∧
      (Functions.handleRecurringTransactions today accountReadOk true s).processedCount =
        some ((Functions.matchingTemplates today s).filter
          (fun d => accountReadOk d.1)).length ∧
      Functions.docData
          (Functions.handleRecurringTransactions today accountReadOk true s).store.accounts
          doc.2.accountId = none ∧
      ∀ other ∈ Functions.matchingTemplates today s,
        Functions.docData
            (Functions.handleRecurringTransactions today accountReadOk true s).store.transactions
            (Functions.transactionId other.1 today.currentMonth) =
          some (Functions.transactionData today other) := by
  obtain ⟨s1, hs1, -, hrun⟩ :=
    handleRecurringTransactions_commits today accountReadOk s (List.ne_nil_of_mem hdoc)
  obtain ⟨-, -, -, -, hcount⟩ :=
    foldl_processTemplate today accountReadOk s (Functions.matchingTemplates today s)
      { batch := [], processedCount := 0 }
  have hbatch : (List.foldl (Functions.processTemplate today accountReadOk s)
      { batch := [], processedCount := 0 } (Functions.matchingTemplates today s)) =
      Functions.stagedBatch today accountReadOk s := rfl
  rw [hbatch] at hcount
  rw [hrun]
  refine ⟨rfl, transaction_stored_after_run today accountReadOk s s1 hids hs1 doc hdoc,
    List.mem_filter.mpr ⟨hdoc, hok⟩, ?_,
    missing_account_after_run today accountReadOk s s1 hs1 _ hmissing,
    fun other hother => transaction_stored_after_run today accountReadOk s s1 hids hs1 other
      hother⟩
  simp only [hcount, Nat.zero_add]

/-- C21, amended, at a concrete input: the fee template on the missing account
'zz' has its transaction written and the account 'zz' is still missing. -/
theorem template_without_account_keeps_its_transaction_witness :
    Functions.docData
        (Functions.handleRecurringTransactions (marchFifth 100) (fun _ => true) true
          orphanStore).store.transactions
        (Functions.transactionId "t3" (marchFifth 100).currentMonth) =
        some (Functions.transactionData (marchFifth 100) ("t3", feeTemplate)) ∧
      Functions.docData
        (Functions.handleRecurringTransactions (marchFifth 100) (fun _ => true) true
          orphanStore).store.accounts "zz" = none :=
  have h := template_without_account_keeps_its_transaction (marchFifth 100) (fun _ => true)
    orphanStore ("t3", feeTemplate) (by decide) (by decide) (by decide) rfl
  ⟨h.2.1, h.2.2.2.2.1⟩

/-- C22. Account rule of the recurring processor. In a committed run whose only
matching template has amount `a` and an existing account: on a credit card
('Tarjeta de Crédito') the account gets `usedCredit + a` for an expense and
`max 0 (usedCredit - a)` for an income, its `currentBalance` being left alone; on
any other account it gets `currentBalance + a` for an income and
`currentBalance - a` for an expense, its `usedCredit` being left alone; a
missing field is read as 0. -/
theorem single_template_account_rule (today : Functions.Today) (accountReadOk : String → Bool)
    (s : Functions.Store) (doc : String × Functions.RecurringTransaction)
    (account : Functions.Account)
    (hsingle : Functions.matchingTemplates today s = [doc])
    (hok : accountReadOk doc.1 = true)
    (haccount : Functions.docData s.accounts doc.2.accountId = some account) :
    (account.accountType = some "Tarjeta de Crédito" →
        doc.2.type = TransactionType.expense →
        Functions.docData
            (Functions.handleRecurringTransactions today accountReadOk true s).store.accounts
            doc.2.accountId =
          some { account with usedCredit := some (jsOr account.usedCredit 0 + doc.2.amount) }) ∧
      (account.accountType = some "Tarjeta de Crédito" →
        doc.2.type = TransactionType.income →
        Functions.docData
            (Functions.handleRecurringTransactions today accountReadOk true s).store.accounts
            doc.2.accountId =
          some { account with
            usedCredit := some (max 0 (jsOr account.usedCredit 0 - doc.2.amount)) }) ∧
      (account.accountType ≠ some "Tarjeta de Crédito" →
        doc.2.type = TransactionType.income →
        Functions.docData
            (Functions.handleRecurringTransactions today accountReadOk true s).store.accounts
            doc.2.accountId =
          some { account with
            currentBalance := some (jsOr account.currentBalance 0 + doc.2.amount) }) ∧
      (account.accountType ≠ some "Tarjeta de Crédito" →
        doc.2.type = TransactionType.expense →
        Functions.docData
            (Functions.handleRecurringTransactions today accountReadOk true s).store.accounts
            doc.2.accountId =
          some { account with
            currentBalance := some (jsOr account.currentBalance 0 - doc.2.amount) }) := by
  have hdoc : doc ∈ Functions.matchingTemplates today s := by simp [hsingle]
  obtain ⟨s1, hs1, -, hrun⟩ :=
    handleRecurringTransactions_commits today accountReadOk s (List.ne_nil_of_mem hdoc)
  have honly : ∀ other ∈ Functions.matchingTemplates today s,
      other.2.accountId = doc.2.accountId → other = doc := by
    intro other hother _
    rw [hsingle] at hother
    exact List.mem_singleton.mp hother
  have hafter := account_updated_after_run today accountReadOk s s1 hs1 doc hdoc hok account
    haccount honly
  rw [hrun]
  simp only []
  rw [hafter]
  refine ⟨fun hcard htype => ?_, fun hcard htype => ?_, fun hcard htype => ?_,
    fun hcard htype => ?_⟩
  · simp [Functions.accountWrite, Functions.updatedAccount, hcard, htype]
  · simp [Functions.accountWrite, Functions.updatedAccount, hcard, htype]
  · simp [Functions.accountWrite, Functions.updatedAccount, hcard, htype]
  · simp [Functions.accountWrite, Functions.updatedAccount, hcard, htype]

/-- C22, at concrete inputs: the rent of 1000 takes the current account from
10000 to 9000, and on the credit card it takes the used credit from 4000 to 5000
while the balance field keeps its 77. -/
theorem single_template_account_rule_witness :
    Functions.docData firstRun.store.accounts "a1" =
        some { accountType := some "Cuenta Corriente", usedCredit := none,
               currentBalance := some 9000 } ∧
      Functions.docData
        (Functions.handleRecurringTransactions (marchFifth 100) (fun _ => true) true
          cardStore).store.accounts "a1" =
        some { accountType := some "Tarjeta de Crédito", usedCredit := some 5000,
               currentBalance := some 77 } :=
  have h1 := single_template_account_rule (marchFifth 100) (fun _ => true) recurringStore
    ("t1", rentTemplate)
    { accountType := some "Cuenta Corriente", usedCredit := none, currentBalance := some 10000 }
    (by decide) rfl (by decide)
  have h2 := single_template_account_rule (marchFifth 100) (fun _ => true) cardStore
    ("t1", rentTemplate)
    { accountType := some "Tarjeta de Crédito", usedCredit := some 4000,
      currentBalance := some 77 }
    (by decide) rfl (by decide)
  ⟨h1.2.2.2 (by decide) rfl, h2.1 rfl rfl⟩

/-- C28, the code at the failing input. Each turn of the loop reads the account
from the database, not from the batch: with the expenses of 1000 and of 2000 on
the same account holding 10000, the batch stages `currentBalance = 9000` and then
`currentBalance = 8000`, and the committed balance is 8000 instead of 7000, while
both transactions are written and two templates are counted. -/
theorem templates_on_one_account_overwrite_each_other :
    (Functions.stagedBatch (marchFifth 100) (fun _ => true) sharedAccountStore).batch.map
        Functions.target = [none, some "a1", none, some "a1"] ∧
      (Functions.stagedBatch (marchFifth 100) (fun _ => true) sharedAccountStore).batch.filter
        (fun w => Functions.target w == some "a1") =
        [Functions.Write.updateCurrentBalance "a1" 9000,
         Functions.Write.updateCurrentBalance "a1" 8000] ∧
      (Functions.handleRecurringTransactions (marchFifth 100) (fun _ => true) true
        sharedAccountStore).processedCount = some 2 ∧
      (Functions.handleRecurringTransactions (marchFifth 100) (fun _ => true) true
        sharedAccountStore).store.transactions.map (fun d => (d.1, d.2.amount)) =
        [("recurring_t4_2025-03", 2000), ("recurring_t1_2025-03", 1000)] ∧
      (Functions.docData (Functions.handleRecurringTransactions (marchFifth 100) (fun _ => true)
        true sharedAccountStore).store.accounts "a1").bind (fun a => a.currentBalance) =
        some 8000 := by
  decide

end RecurringClaims

/-! ## Claims on the budget alerts -/

section AlertClaims

open Functions

/-- The condition of the loop on a positive limit of at most 2^44, in terms of
the exact percentage `100 * totalSpent / categoryLimit`. -/
theorem inBand_iff (totalSpent categoryLimit threshold : Int) (hlimit : 0 < categoryLimit)
    (hbound : categoryLimit ≤ 2 ^ 44)
    (hthreshold : threshold = 90 ∨ threshold = 100 ∨ threshold = 110) :
    inBand totalSpent categoryLimit threshold = true ↔
      (threshold : ℚ) ≤ 100 * (totalSpent : ℚ) / (categoryLimit : ℚ) ∧
        100 * (totalSpent : ℚ) / (categoryLimit : ℚ) < (threshold : ℚ) + 10 := by
  have hq : (0 : ℚ) < (categoryLimit : ℚ) := by exact_mod_cast hlimit
  have h1 := percentageSpent_ge_iff totalSpent categoryLimit threshold hlimit hbound
    (by omega)
  have h2 := percentageSpent_ge_iff totalSpent categoryLimit (threshold + 10) hlimit hbound
    (by omega)
  have e1 : (threshold : ℚ) ≤ 100 * (totalSpent : ℚ) / (categoryLimit : ℚ) ↔
      threshold * categoryLimit ≤ 100 * totalSpent := by
    rw [le_div_iff₀ hq]
    constructor
    · intro h; exact_mod_cast h
    · intro h; exact_mod_cast h
  have e2 : 100 * (totalSpent : ℚ) / (categoryLimit : ℚ) < (threshold : ℚ) + 10 ↔
      ¬ ((threshold + 10) * categoryLimit ≤ 100 * totalSpent) := by
    rw [div_lt_iff₀ hq, not_le]
    constructor
    · intro h; exact_mod_cast h
    · intro h; exact_mod_cast h
  rw [e1, e2, ← h1, ← h2]
  simp only [inBand, Bool.and_eq_true, Bool.not_eq_true', Bool.not_eq_true]

/-- The loop adds nothing when every threshold whose band holds the percentage
already has an unread alert. -/
theorem alertLoop_of_existing (userId category currentMonth : String)
    (spent categoryLimit : Int) (newId : String) (notifications : List (String × Notification))
    (thresholds : List Int)
    (h : ∀ t ∈ thresholds, inBand spent categoryLimit t = true →
      existingAlert notifications userId category currentMonth t ≠ []) :
    alertLoop userId category currentMonth spent categoryLimit newId notifications thresholds =
      notifications := by
  induction thresholds with
  | nil => rfl
  | cons t rest ih =>
      have hrest := ih (fun t' ht' => h t' (List.mem_cons_of_mem _ ht'))
      simp only [alertLoop]
      by_cases hband : inBand spent categoryLimit t = true
      · have hex := h t (List.mem_cons_self _ _) hband
        have hne : (existingAlert notifications userId category currentMonth t).isEmpty = false := by
          cases hl : existingAlert notifications userId category currentMonth t with
          | nil => exact absurd hl hex
          | cons _ _ => rfl
        simp [hband, hne, hrest]
      · simp [hband, hrest]

/-- The loop leaves the notifications as they were or adds one in front. -/
theorem alertLoop_adds_at_most_one (userId category currentMonth : String)
    (spent categoryLimit : Int) (newId : String) (notifications : List (String × Notification))
    (thresholds : List Int) :
    alertLoop userId category currentMonth spent categoryLimit newId notifications thresholds =
        notifications ∨
      ∃ t ∈ thresholds, inBand spent categoryLimit t = true ∧
        existingAlert notifications userId category currentMonth t = [] ∧
        alertLoop userId category currentMonth spent categoryLimit newId notifications
            thresholds =
          (newId, alertData userId category currentMonth t spent categoryLimit) ::
            notifications := by
  induction thresholds with
  | nil => exact Or.inl rfl
  | cons t rest ih =>
      have hnext : alertLoop userId category currentMonth spent categoryLimit newId notifications
            rest = notifications ∨
          ∃ t' ∈ t :: rest, inBand spent categoryLimit t' = true ∧
            existingAlert notifications userId category currentMonth t' = [] ∧
            alertLoop userId category currentMonth spent categoryLimit newId notifications
                rest =
              (newId, alertData userId category currentMonth t' spent categoryLimit) ::
                notifications := by
        rcases ih with h | ⟨t', ht', h⟩
        · exact Or.inl h
        · exact Or.inr ⟨t', List.mem_cons_of_mem _ ht', h⟩
      simp only [alertLoop]
      by_cases hband : inBand spent categoryLimit t = true
      · cases hl : existingAlert notifications userId category currentMonth t with
        | nil =>
            refine Or.inr ⟨t, List.mem_cons_self _ _, hband, hl, ?_⟩
            simp [hband]
        | cons x xs =>
            simp only [hband, if_true, List.isEmpty_cons, Bool.not_false]
            exact hnext
      · simp only [hband, Bool.false_eq_true, if_false]
        exact hnext

/-- C23, the claim as stated fails. With 130 spent of a limit of 100 the
percentage is 130, which is at least 110, and no band of the loop holds it: the
condition of the threshold 110 is false and `checkBudgetAlerts` adds no
notification. With 6703294007107615 spent of a limit of 5586078339256346 the
exact percentage lies between 110 and 120, the double `(s / L) * 100` is 120,
and no band holds it either. -/
theorem no_threshold_from_120_percent :
    (110 : ℚ) ≤ 100 * ((130 : Int) : ℚ) / ((100 : Int) : ℚ) ∧
      inBand 130 100 110 = false ∧
      (∀ t ∈ alertThresholds, inBand 130 100 t = false) ∧
      totalSpent marchCalendar (budgetStore 130).transactions "u1" "Comida" 64 = 130 ∧
      checkBudgetAlerts marchCalendar (foodExpense 130) "n1" (budgetStore 130) =
        budgetStore 130 ∧
      ((110 : ℚ) ≤ 100 * ((6703294007107615 : Int) : ℚ) / ((5586078339256346 : Int) : ℚ) ∧
        100 * ((6703294007107615 : Int) : ℚ) / ((5586078339256346 : Int) : ℚ) < 120) ∧
      (percentageSpent 6703294007107615 5586078339256346).geInt 120 = true ∧
      (∀ t ∈ alertThresholds, inBand 6703294007107615 5586078339256346 t = false) := by
  refine ⟨by norm_num, by decide, by decide, by decide, by decide, by norm_num, by decide,
    by decide⟩

/-- C23, amended. For an integer amount spent, a positive integer limit of at
most 2^44 and the exact percentage `p = 100 * spent / limit`, the band of the
threshold 90 holds the percentage the code computes in doubles exactly when
`90 ≤ p < 100`, that of 100 exactly when `100 ≤ p < 110`, that of 110 exactly
when `110 ≤ p < 120`, and no band holds it exactly when `p < 90` or `120 ≤ p`;
without earlier alerts the loop adds the alert of the threshold whose band holds
it, and adds nothing when no band does. -/
theorem budget_alert_bands (spent limit : Int) (userId category currentMonth newId : String)
    (hlimit : 0 < limit) (hbound : limit ≤ 2 ^ 44) :
    (inBand spent limit 90 = true ↔
        (90 : ℚ) ≤ 100 * (spent : ℚ) / (limit : ℚ) ∧ 100 * (spent : ℚ) / (limit : ℚ) < 100) ∧
      (inBand spent limit 100 = true ↔
        (100 : ℚ) ≤ 100 * (spent : ℚ) / (limit : ℚ) ∧ 100 * (spent : ℚ) / (limit : ℚ) < 110) ∧
      (inBand spent limit 110 = true ↔
        (110 : ℚ) ≤ 100 * (spent : ℚ) / (limit : ℚ) ∧ 100 * (spent : ℚ) / (limit : ℚ) < 120) ∧
      ((∀ t ∈ alertThresholds, inBand spent limit t = false) ↔
        100 * (spent : ℚ) / (limit : ℚ) < 90 ∨ (120 : ℚ) ≤ 100 * (spent : ℚ) / (limit : ℚ)) ∧
      (∀ t ∈ alertThresholds, inBand spent limit t = true →
        alertLoop userId category currentMonth spent limit newId [] alertThresholds =
          [(newId, alertData userId category currentMonth t spent limit)]) ∧
      ((∀ t ∈ alertThresholds, inBand spent limit t = false) →
        alertLoop userId category currentMonth spent limit newId [] alertThresholds = []) := by
  have h90 := inBand_iff spent limit 90 hlimit hbound (Or.inl rfl)
  have h100 := inBand_iff spent limit 100 hlimit hbound (Or.inr (Or.inl rfl))
  have h110 := inBand_iff spent limit 110 hlimit hbound (Or.inr (Or.inr rfl))
  have e1 : ((90 : Int) : ℚ) + 10 = 100 := by norm_num
  have e2 : ((100 : Int) : ℚ) + 10 = 110 := by norm_num
  have e3 : ((110 : Int) : ℚ) + 10 = 120 := by norm_num
  rw [e1] at h90
  rw [e2] at h100
  rw [e3] at h110
  have c90 : ((90 : Int) : ℚ) = 90 := by norm_num
  have c100 : ((100 : Int) : ℚ) = 100 := by norm_num
  have c110 : ((110 : Int) : ℚ) = 110 := by norm_num
  rw [c90] at h90
  rw [c100] at h100
  rw [c110] at h110
  refine ⟨h90, h100, h110, ?_, ?_, ?_⟩
  · constructor
    · intro hall
      have n90 := hall 90 (by decide)
      have n100 := hall 100 (by decide)
      have n110 := hall 110 (by decide)
      by_contra hcon
      push_neg at hcon
      obtain ⟨hlow, hhigh⟩ := hcon
      by_cases ha : 100 * (spent : ℚ) / (limit : ℚ) < 100
      · rw [h90.mpr ⟨hlow, ha⟩] at n90; exact Bool.noConfusion n90
      · by_cases hb : 100 * (spent : ℚ) / (limit : ℚ) < 110
        · rw [h100.mpr ⟨not_lt.mp ha, hb⟩] at n100; exact Bool.noConfusion n100
        · rw [h110.mpr ⟨not_lt.mp hb, hhigh⟩] at n110; exact Bool.noConfusion n110
    · intro hout t ht
      simp only [alertThresholds, List.mem_cons, List.mem_singleton, List.not_mem_nil,
        or_false] at ht
      cases hb : inBand spent limit t with
      | false => rfl
      | true =>
          exfalso
          rcases ht with rfl | rfl | rfl
          · obtain ⟨x, y⟩ := h90.mp hb
            rcases hout with h | h <;> linarith
          · obtain ⟨x, y⟩ := h100.mp hb
            rcases hout with h | h <;> linarith
          · obtain ⟨x, y⟩ := h110.mp hb
            rcases hout with h | h <;> linarith
  · intro t ht hb
    simp only [alertThresholds, List.mem_cons, List.mem_singleton, List.not_mem_nil,
      or_false] at ht
    have hex : ∀ t', existingAlert ([] : List (String × Notification)) userId category
        currentMonth t' = [] := fun _ => rfl
    rcases ht with rfl | rfl | rfl
    · simp [alertThresholds, alertLoop, hb, hex]
    · have n90 : inBand spent limit 90 = false := by
        cases hc : inBand spent limit 90 with
        | false => rfl
        | true =>
            have := (h90.mp hc).2
            have := (h100.mp hb).1
            linarith
      simp [alertThresholds, alertLoop, hb, n90, hex]
    · have n90 : inBand spent limit 90 = false := by
        cases hc : inBand spent limit 90 with
        | false => rfl
        | true =>
            have := (h90.mp hc).2
            have := (h110.mp hb).1
            linarith
      have n100 : inBand spent limit 100 = false := by
        cases hc : inBand spent limit 100 with
        | false => rfl
        | true =>
            have := (h100.mp hc).2
            have := (h110.mp hb).1
            linarith
      simp [alertThresholds, alertLoop, hb, n90, n100, hex]
  · intro hall
    apply alertLoop_of_existing
    intro t ht hb
    rw [hall t ht] at hb
    exact Bool.noConfusion hb

/-- C23, amended, at concrete inputs: 95 of 100 falls in the band of 90 and 115
of 100 in the band of 110, for which `checkBudgetAlerts` adds the alert
'Presupuesto excedido'. -/
theorem budget_alert_bands_witness :
    inBand 95 100 90 = true ∧ inBand 115 100 110 = true ∧
      alertLoop "u1" "Comida" "2025-03" 115 100 "n1" [] alertThresholds =
        [("n1", alertData "u1" "Comida" "2025-03" 110 115 100)] ∧
      (checkBudgetAlerts marchCalendar (foodExpense 115) "n1"
        (budgetStore 115)).notifications =
        [("n1", alertData "u1" "Comida" "2025-03" 110 115 100)] :=
  have h := budget_alert_bands 115 100 "u1" "Comida" "2025-03" "n1" (by decide) (by norm_num)
  ⟨by decide, by decide, h.2.2.2.2.1 110 (by decide) (by decide), by decide⟩

/-- The outcomes of `checkBudgetAlerts`: the store is returned as it was, or a
budget with a limit for the category was found for an expense and the store is
returned with the notifications the loop leaves. -/
theorem checkBudgetAlerts_cases (calendar : Calendar) (transaction : GeneratedTransaction)
    (newId : String) (s : AlertStore) :
    checkBudgetAlerts calendar transaction newId s = s ∨
      ∃ budget,
        s.budgets.find? (fun b => b.2.userId == transaction.userId &&
          b.2.month == calendar.monthOf transaction.date) = some budget ∧
        checkBudgetAlerts calendar transaction newId s =
          AlertStore.mk s.transactions s.budgets
            (alertLoop transaction.userId transaction.category
              (calendar.monthOf transaction.date)
              (totalSpent calendar s.transactions transaction.userId transaction.category
                transaction.date)
              (jsOr (budget.2.limits.bind (fun limits =>
                (limits.find? (fun l => l.1 == transaction.category)).map Prod.snd)) 0)
              newId s.notifications alertThresholds) := by
  unfold checkBudgetAlerts
  by_cases htype : transaction.type ≠ TransactionType.expense
  · left; rw [if_pos htype]
  · rw [if_neg htype]
    cases hfind : s.budgets.find? (fun b => b.2.userId == transaction.userId &&
        b.2.month == calendar.monthOf transaction.date) with
    | none => left; simp only [hfind]
    | some budget =>
        by_cases hlimit : jsOr (budget.2.limits.bind (fun limits =>
            (limits.find? (fun l => l.1 == transaction.category)).map Prod.snd)) 0 = 0
        · left; simp only [hfind, hlimit, if_true]
        · right
          refine ⟨budget, rfl, ?_⟩
          simp only [hfind, hlimit, if_false]

/-- C24. For every transaction `checkBudgetAlerts` leaves the transactions and
the budgets alone and either leaves the notifications as they were or adds one
unread budget alert in front of them, so at most one notification is created; the
store is unchanged for an income, when the user has no budget for the month, when
the budget has no (or a zero) limit for the category, and when every threshold
whose band holds the percentage already has an unread budget alert of the same
user, category, month and threshold. -/
theorem at_most_one_budget_alert (calendar : Calendar) (transaction : GeneratedTransaction)
    (newId : String) (s : AlertStore) :
    (checkBudgetAlerts calendar transaction newId s).transactions = s.transactions ∧
      (checkBudgetAlerts calendar transaction newId s).budgets = s.budgets ∧
      ((checkBudgetAlerts calendar transaction newId s).notifications = s.notifications ∨
        ∃ n, n.type = "budget_alert" ∧ n.isRead = false ∧
          n.userId = transaction.userId ∧ n.category = some transaction.category ∧
          (checkBudgetAlerts calendar transaction newId s).notifications =
            (newId, n) :: s.notifications) ∧
      (checkBudgetAlerts calendar transaction newId s).notifications.length ≤
        s.notifications.length + 1 ∧
      (transaction.type = TransactionType.income →
        checkBudgetAlerts calendar transaction newId s = s) ∧
      (s.budgets.find? (fun b => b.2.userId == transaction.userId &&
          b.2.month == calendar.monthOf transaction.date) = none →
        checkBudgetAlerts calendar transaction newId s = s) ∧
      (∀ budget,
        s.budgets.find? (fun b => b.2.userId == transaction.userId &&
          b.2.month == calendar.monthOf transaction.date) = some budget →
        jsOr (budget.2.limits.bind (fun limits =>
          (limits.find? (fun l => l.1 == transaction.category)).map Prod.snd)) 0 = 0 →
        checkBudgetAlerts calendar transaction newId s = s) ∧
      (∀ budget,
        s.budgets.find? (fun b => b.2.userId == transaction.userId &&
          b.2.month == calendar.monthOf transaction.date) = some budget →
        (∀ t ∈ alertThresholds,
          inBand
            (totalSpent calendar s.transactions transaction.userId transaction.category
              transaction.date)
            (jsOr (budget.2.limits.bind (fun limits =>
              (limits.find? (fun l => l.1 == transaction.category)).map Prod.snd)) 0) t = true →
          existingAlert s.notifications transaction.userId transaction.category
            (calendar.monthOf transaction.date) t ≠ []) →
        checkBudgetAlerts calendar transaction newId s = s) := by
  have hcases := checkBudgetAlerts_cases calendar transaction newId s
  have hnot : (checkBudgetAlerts calendar transaction newId s).notifications = s.notifications ∨
      ∃ n, n.type = "budget_alert" ∧ n.isRead = false ∧
        n.userId = transaction.userId ∧ n.category = some transaction.category ∧
        (checkBudgetAlerts calendar transaction newId s).notifications =
          (newId, n) :: s.notifications := by
    rcases hcases with h | ⟨budget, _, h⟩
    · left; rw [h]
    · rw [h]
      rcases alertLoop_adds_at_most_one transaction.userId transaction.category
          (calendar.monthOf transaction.date)
          (totalSpent calendar s.transactions transaction.userId transaction.category
            transaction.date)
          (jsOr (budget.2.limits.bind (fun limits =>
            (limits.find? (fun l => l.1 == transaction.category)).map Prod.snd)) 0)
          newId s.notifications alertThresholds with hl | ⟨t, _, _, _, hl⟩
      · left; exact hl
      · right
        exact ⟨_, rfl, rfl, rfl, rfl, hl⟩
  refine ⟨?_, ?_, hnot, ?_, ?_, ?_, ?_, ?_⟩
  · rcases hcases with h | ⟨_, _, h⟩ <;> rw [h]
  · rcases hcases with h | ⟨_, _, h⟩ <;> rw [h]
  · rcases hnot with h | ⟨n, _, _, _, _, h⟩
    · rw [h]; omega
    · rw [h]; simp
  · intro htype
    unfold checkBudgetAlerts
    simp [htype]
  · intro hfind
    rcases hcases with h | ⟨budget, hb, _⟩
    · exact h
    · rw [hfind] at hb; exact Option.noConfusion hb
  · intro budget hfind hlimit
    unfold checkBudgetAlerts
    by_cases htype : transaction.type ≠ TransactionType.expense
    · rw [if_pos htype]
    · rw [if_neg htype]
      simp only [hfind, hlimit, if_true]
  · intro budget hfind hall
    rcases hcases with h | ⟨budget', hb, h⟩
    · exact h
    · rw [hfind] at hb
      cases hb
      rw [h, alertLoop_of_existing _ _ _ _ _ newId _ _ hall]

/-- C24 at a concrete input: in `alertedStore` 115 of 100 is spent and the alert
at the threshold 110 is there unread, so the expense creates no notification. -/
theorem at_most_one_budget_alert_witness :
    existingAlert alertedStore.notifications "u1" "Comida" "2025-03" 110 ≠ [] ∧
      checkBudgetAlerts marchCalendar (foodExpense 115) "n1" alertedStore = alertedStore :=
  ⟨by decide,
    (at_most_one_budget_alert marchCalendar (foodExpense 115) "n1" alertedStore).2.2.2.2.2.2.2
      ("b1", { userId := "u1", month := "2025-03", limits := some [("Comida", 100)] })
      (by decide) (by decide)⟩

end AlertClaims

/-! ## Lemmas on the reset of the data of a user -/

section ResetLemmas
open Functions

/-- An empty batch deletes nothing. -/
theorem deleteBatch_nil (db : Database) : deleteBatch [] db = db := by
  simp [deleteBatch]

/-- Two batches committed one after the other delete what their concatenation deletes. -/
theorem deleteBatch_append (b1 b2 : List OwnedDoc) (db : Database) :
    deleteBatch b2 (deleteBatch b1 db) = deleteBatch (b1 ++ b2) db := by
  simp only [deleteBatch, List.filter_filter, List.any_append, Bool.not_or]
  congr 1
  apply List.filter_congr
  intro d _
  exact Bool.and_comm _ _

/-- The slice taken by a turn of the batch loop. -/
theorem sliceDocs_eq (docs : List OwnedDoc) (i : Nat) :
    sliceDocs docs i (i + batchSize) = (docs.drop i).take batchSize := by
  simp [sliceDocs]

/-- A turn of the batch loop whose commit succeeds. -/
theorem deleteLoop_commit (ok : Operation → Bool) (c : String) (docs : List OwnedDoc)
    (fuel i : Nat) (st : ResetState) (hi : i < docs.length)
    (hok : ok (Operation.commit c i) = true) :
    deleteLoop ok c docs (fuel + 1) i st =
      deleteLoop ok c docs fuel (i + batchSize)
        { database := deleteBatch (sliceDocs docs i (i + batchSize)) st.database
          totalDeleted := st.totalDeleted + (sliceDocs docs i (i + batchSize)).length
          commits := st.commits ++ [(c, sliceDocs docs i (i + batchSize))]
          failed := false } := by
  simp only [deleteLoop, hi, hok, if_true]

/-- A turn of the batch loop whose commit throws. -/
theorem deleteLoop_throw (ok : Operation → Bool) (c : String) (docs : List OwnedDoc)
    (fuel i : Nat) (st : ResetState) (hi : i < docs.length)
    (hok : ok (Operation.commit c i) = false) :
    deleteLoop ok c docs (fuel + 1) i st = { st with failed := true } := by
  simp only [deleteLoop, hi, hok, if_true, Bool.false_eq_true, if_false]

/-- The batch loop ends when the index has reached the length of the snapshot. -/
theorem deleteLoop_done (ok : Operation → Bool) (c : String) (docs : List OwnedDoc)
    (fuel i : Nat) (st : ResetState) (hi : ¬ i < docs.length) :
    deleteLoop ok c docs fuel i st = st := by
  cases fuel with
  | zero => rfl
  | succ fuel => simp only [deleteLoop, hi, if_false]

/-- What the batch loop does from index `i` on: it commits batches `bs` of 1 to
`batchSize` documents of the snapshot and counts them; if no commit throws and
the fuel is at least the number of documents left, the batches make up the rest
of the snapshot and there are `ceil((docs.length - i) / batchSize)` of them. -/
theorem deleteLoop_spec (ok : Operation → Bool) (c : String) (docs : List OwnedDoc) :
    ∀ (fuel i : Nat) (st : ResetState),
      ∃ bs : List (List OwnedDoc),
        (deleteLoop ok c docs fuel i st).commits = st.commits ++ bs.map (fun b => (c, b)) ∧
        (deleteLoop ok c docs fuel i st).database = deleteBatch bs.flatten st.database ∧
        (deleteLoop ok c docs fuel i st).totalDeleted = st.totalDeleted + bs.flatten.length ∧
        (∀ b ∈ bs, 0 < b.length ∧ b.length ≤ batchSize) ∧
        (∀ d ∈ bs.flatten, d ∈ docs) ∧
        ((deleteLoop ok c docs fuel i st).failed = false → docs.length - i ≤ fuel →
          bs.flatten = docs.drop i ∧
            bs.length = (docs.length - i + (batchSize - 1)) / batchSize) := by
  intro fuel
  induction fuel with
  | zero =>
      intro i st
      refine ⟨[], by simp [deleteLoop], by simp [deleteLoop, deleteBatch_nil],
        by simp [deleteLoop], by simp, by simp, ?_⟩
      intro _ hfuel
      have hle : docs.length ≤ i := by omega
      refine ⟨by simp [List.drop_eq_nil_of_le hle], ?_⟩
      simp only [batchSize, List.length_nil]
      omega
  | succ fuel ih =>
      intro i st
      by_cases hi : i < docs.length
      · cases hok : ok (Operation.commit c i) with
        | true =>
            rw [deleteLoop_commit ok c docs fuel i st hi hok]
            obtain ⟨bs, h1, h2, h3, h4, h5, h6⟩ := ih (i + batchSize)
              { database := deleteBatch (sliceDocs docs i (i + batchSize)) st.database
                totalDeleted := st.totalDeleted + (sliceDocs docs i (i + batchSize)).length
                commits := st.commits ++ [(c, sliceDocs docs i (i + batchSize))]
                failed := false }
            have hlen : (sliceDocs docs i (i + batchSize)).length = min batchSize (docs.length - i) := by
              simp [sliceDocs_eq]
            refine ⟨sliceDocs docs i (i + batchSize) :: bs, ?_, ?_, ?_, ?_, ?_, ?_⟩
            · rw [h1]; simp
            · rw [h2]; simp [deleteBatch_append]
            · rw [h3]; simp; omega
            · intro b hb
              rcases List.mem_cons.mp hb with rfl | hb
              · rw [hlen]; simp only [batchSize]; omega
              · exact h4 b hb
            · intro d hd
              simp only [List.flatten_cons, List.mem_append] at hd
              rcases hd with hd | hd
              · rw [sliceDocs_eq] at hd
                exact List.mem_of_mem_drop (List.mem_of_mem_take hd)
              · exact h5 d hd
            · intro hfail hfuel
              obtain ⟨h7, h8⟩ := h6 hfail (by simp only [batchSize]; omega)
              refine ⟨?_, ?_⟩
              · simp only [List.flatten_cons, h7, sliceDocs_eq]
                rw [← List.drop_drop]
                exact List.take_append_drop _ _
              · simp only [List.length_cons, h8, batchSize]
                omega
        | false =>
            rw [deleteLoop_throw ok c docs fuel i st hi hok]
            refine ⟨[], by simp, by simp [deleteBatch_nil], by simp, by simp, by simp, ?_⟩
            intro hfail
            exact Bool.noConfusion hfail
      · rw [deleteLoop_done ok c docs (fuel + 1) i st hi]
        refine ⟨[], by simp, by simp [deleteBatch_nil], by simp, by simp, by simp, ?_⟩
        intro _ _
        have hle : docs.length ≤ i := by omega
        refine ⟨by simp [List.drop_eq_nil_of_le hle], ?_⟩
        simp only [batchSize, List.length_nil]
        omega

/-- Nothing is done for a collection once a call has thrown. -/
theorem cleanCollection_failed (ok : Operation → Bool) (userId : String) (st : ResetState)
    (c : String) (h : st.failed = true) : cleanCollection ok userId st c = st := by
  simp [cleanCollection, h]

/-- What one turn of the loop over the collections does: it commits batches of 1
to `batchSize` documents of the query and counts them; if no call throws, the
batches make up the whole query. -/
theorem cleanCollection_spec (ok : Operation → Bool) (userId : String) (st : ResetState)
    (c : String) (hst : st.failed = false) :
    ∃ bs : List (List OwnedDoc),
      (cleanCollection ok userId st c).commits = st.commits ++ bs.map (fun b => (c, b)) ∧
      (cleanCollection ok userId st c).database = deleteBatch bs.flatten st.database ∧
      (cleanCollection ok userId st c).totalDeleted = st.totalDeleted + bs.flatten.length ∧
      (∀ b ∈ bs, 0 < b.length ∧ b.length ≤ batchSize) ∧
      (∀ d ∈ bs.flatten, d ∈ query st.database c userId) ∧
      ((cleanCollection ok userId st c).failed = false →
        ok (Operation.get c) = true ∧
        bs.flatten = query st.database c userId ∧
          bs.length = ((query st.database c userId).length + (batchSize - 1)) / batchSize) := by
  cases hget : ok (Operation.get c) with
  | false =>
      have hR : cleanCollection ok userId st c = { st with failed := true } := by
        simp [cleanCollection, hst, hget]
      rw [hR]
      refine ⟨[], by simp, by simp [deleteBatch_nil], by simp, by simp, by simp, ?_⟩
      intro hfail
      exact Bool.noConfusion hfail
  | true =>
      cases hdocs : query st.database c userId with
      | nil =>
          have hR : cleanCollection ok userId st c = st := by
            simp [cleanCollection, hst, hget, hdocs]
          rw [hR]
          refine ⟨[], by simp, by simp [deleteBatch_nil], by simp, by simp, by simp, ?_⟩
          intro _
          refine ⟨rfl, by simp, ?_⟩
          simp only [batchSize, List.length_nil]
      | cons d docs =>
          have hR : cleanCollection ok userId st c =
              deleteLoop ok c (d :: docs) (d :: docs).length 0 st := by
            simp [cleanCollection, hst, hget, hdocs]
          rw [hR]
          obtain ⟨bs, h1, h2, h3, h4, h5, h6⟩ :=
            deleteLoop_spec ok c (d :: docs) (d :: docs).length 0 st
          refine ⟨bs, h1, h2, h3, h4, h5, ?_⟩
          intro hfail
          obtain ⟨h7, h8⟩ := h6 hfail (by omega)
          exact ⟨rfl, by simpa using h7, by simpa using h8⟩

/-- Deleting documents of other collections does not change the query of a
collection. -/
theorem query_deleteBatch_other (batchDocs : List OwnedDoc) (db : Database) (c userId : String)
    (h : ∀ b ∈ batchDocs, b.collection ≠ c) :
    query (deleteBatch batchDocs db) c userId = query db c userId := by
  simp only [query, deleteBatch, List.filter_filter]
  apply List.filter_congr
  intro d _
  cases hq : (d.collection == c && d.userId == userId) with
  | false => rfl
  | true =>
      simp only [Bool.true_and, Bool.not_eq_true', List.any_eq_false, Bool.and_eq_true,
        beq_iff_eq, not_and]
      simp only [Bool.and_eq_true, beq_iff_eq] at hq
      intro b hb hcol
      exact absurd (hcol.trans hq.1) (h b hb)

/-- A document left by a batch was there before it. -/
theorem mem_documents_deleteBatch {batchDocs : List OwnedDoc} {db : Database} {d : OwnedDoc}
    (h : d ∈ (deleteBatch batchDocs db).documents) : d ∈ db.documents := by
  simp only [deleteBatch] at h
  exact List.mem_of_mem_filter h

/-- The batches of a collection in a concatenated log. -/
theorem commitsOf_append (c : String) (l1 l2 : List (String × List OwnedDoc)) :
    commitsOf c (l1 ++ l2) = commitsOf c l1 ++ commitsOf c l2 := by
  simp [commitsOf]

/-- The batches of a collection in a log of that collection only. -/
theorem commitsOf_map_self (c : String) (bs : List (List OwnedDoc)) :
    commitsOf c (bs.map (fun b => (c, b))) = bs := by
  induction bs with
  | nil => rfl
  | cons b bs ih =>
      simp only [commitsOf] at ih
      simp [commitsOf, ih]

/-- A log without entries of a collection holds no batch of it. -/
theorem commitsOf_eq_nil (c : String) (l : List (String × List OwnedDoc))
    (h : ∀ e ∈ l, e.1 ≠ c) : commitsOf c l = [] := by
  simp only [commitsOf, List.map_eq_nil_iff, List.filter_eq_nil_iff, beq_iff_eq]
  exact h

/-- The state after the loop over the collections `cs`: the database is the
initial one without the documents at the committed paths; every committed batch
belongs to a collection of `cs` and holds 1 to `batchSize` documents of the user;
`totalDeleted` counts the committed documents; and if no call has thrown and `cs`
has no duplicates, the batches of each collection make up the query of the user
on the initial database. -/
theorem foldl_cleanCollection_spec (ok : Operation → Bool) (userId : String) (db : Database)
    (cs : List String) :
    ((cs.foldl (cleanCollection ok userId) (startState db)).database =
        deleteBatch (((cs.foldl (cleanCollection ok userId) (startState db)).commits.map
          Prod.snd).flatten) db) ∧
      (∀ e ∈ (cs.foldl (cleanCollection ok userId) (startState db)).commits,
        e.1 ∈ cs ∧ 0 < e.2.length ∧ e.2.length ≤ batchSize ∧
          ∀ b ∈ e.2, b ∈ db.documents ∧ b.userId = userId ∧ b.collection = e.1) ∧
      ((cs.foldl (cleanCollection ok userId) (startState db)).totalDeleted =
        (((cs.foldl (cleanCollection ok userId) (startState db)).commits.map
          Prod.snd).flatten).length) ∧
      ((cs.foldl (cleanCollection ok userId) (startState db)).failed = false →
        (∀ c ∈ cs, ok (Operation.get c) = true) ∧
        (cs.Nodup →
          (cs.foldl (cleanCollection ok userId) (startState db)).totalDeleted =
              (cs.map (fun c => (query db c userId).length)).sum ∧
            ∀ c ∈ cs,
              (commitsOf c (cs.foldl (cleanCollection ok userId)
                  (startState db)).commits).flatten = query db c userId ∧
                (commitsOf c (cs.foldl (cleanCollection ok userId)
                  (startState db)).commits).length =
                  ((query db c userId).length + (batchSize - 1)) / batchSize)) := by
  induction cs using List.reverseRecOn with
  | nil =>
      refine ⟨by simp [startState, deleteBatch_nil], by simp [startState],
        by simp [startState], ?_⟩
      intro _
      exact ⟨by simp, fun _ => ⟨by simp [startState], by simp⟩⟩
  | append_singleton cs c ih =>
      obtain ⟨g1, g2, g4, hs⟩ := ih
      rw [List.foldl_append, List.foldl_cons, List.foldl_nil]
      generalize hF : cs.foldl (cleanCollection ok userId) (startState db) = F at g1 g2 g4 hs
      cases hfailed : F.failed with
      | true =>
          rw [cleanCollection_failed ok userId F c hfailed]
          refine ⟨g1, ?_, g4, ?_⟩
          · intro e he
            obtain ⟨a, b⟩ := g2 e he
            exact ⟨List.mem_append_left _ a, b⟩
          · intro h
            rw [hfailed] at h
            exact Bool.noConfusion h
      | false =>
          obtain ⟨bs, h1, h2, h3, h4, h5, h6⟩ := cleanCollection_spec ok userId F c hfailed
          obtain ⟨hget, hsucc⟩ := hs hfailed
          have hmem : ∀ b ∈ bs, ∀ d ∈ b, d ∈ db.documents ∧ d.userId = userId ∧
              d.collection = c := by
            intro b hb d hd
            have hq := h5 d (List.mem_flatten.mpr ⟨b, hb, hd⟩)
            simp only [query, List.mem_filter, Bool.and_eq_true, beq_iff_eq] at hq
            refine ⟨?_, hq.2.2, hq.2.1⟩
            have := hq.1
            rw [g1] at this
            exact mem_documents_deleteBatch this
          refine ⟨?_, ?_, ?_, ?_⟩
          · rw [h2, h1, g1, deleteBatch_append]
            simp [List.map_append, Function.comp_def]
          · intro e he
            rw [h1] at he
            rcases List.mem_append.mp he with he | he
            · obtain ⟨a, b⟩ := g2 e he
              exact ⟨List.mem_append_left _ a, b⟩
            · obtain ⟨b, hb, rfl⟩ := List.mem_map.mp he
              exact ⟨by simp, (h4 b hb).1, (h4 b hb).2, hmem b hb⟩
          · rw [h3, h1, g4]
            simp [List.map_append, Function.comp_def]
          · intro hfail
            obtain ⟨hgetc, h7, h8⟩ := h6 hfail
            refine ⟨?_, ?_⟩
            · intro c' hc'
              rcases List.mem_append.mp hc' with hc' | hc'
              · exact hget c' hc'
              · rw [List.mem_singleton.mp hc']; exact hgetc
            · intro hnodup
              have hnd := List.nodup_append.mp hnodup
              have hc : c ∉ cs := fun hin => hnd.2.2 hin (List.mem_singleton_self c)
              obtain ⟨htotal, hper⟩ := hsucc hnd.1
              have hquery : query F.database c userId = query db c userId := by
                rw [g1]
                apply query_deleteBatch_other
                intro b hb
                obtain ⟨l, hl, hbl⟩ := List.mem_flatten.mp hb
                obtain ⟨e, he, rfl⟩ := List.mem_map.mp hl
                obtain ⟨hin, _, _, hdocs⟩ := g2 e he
                rw [(hdocs b hbl).2.2]
                intro heq
                exact hc (heq ▸ hin)
              refine ⟨?_, ?_⟩
              · rw [h3, htotal, h7, hquery]
                simp
              · intro c' hc'
                rw [h1, commitsOf_append]
                rcases List.mem_append.mp hc' with hc' | hc'
                · have hne : c ≠ c' := fun heq => hc (heq ▸ hc')
                  rw [commitsOf_eq_nil c' (bs.map (fun b => (c, b)))
                    (by intro e he; obtain ⟨b, _, rfl⟩ := List.mem_map.mp he; exact hne)]
                  simpa using hper c' hc'
                · have heq : c' = c := List.mem_singleton.mp hc'
                  subst heq
                  rw [commitsOf_map_self, commitsOf_eq_nil c' F.commits
                    (by intro e he heq; exact hc (heq ▸ (g2 e he).1))]
                  simp only [List.nil_append]
                  rw [← hquery]
                  exact ⟨h7, h8⟩

/-- The batch loop does not fail when every call succeeds. -/
theorem deleteLoop_succeeds (ok : Operation → Bool) (hok : ∀ op, ok op = true) (c : String)
    (docs : List OwnedDoc) :
    ∀ (fuel i : Nat) (st : ResetState), st.failed = false →
      (deleteLoop ok c docs fuel i st).failed = false := by
  intro fuel
  induction fuel with
  | zero => intro i st h; exact h
  | succ fuel ih =>
      intro i st h
      by_cases hi : i < docs.length
      · rw [deleteLoop_commit ok c docs fuel i st hi (hok _)]
        exact ih _ _ rfl
      · rw [deleteLoop_done ok c docs (fuel + 1) i st hi]
        exact h

/-- A turn of the loop over the collections does not fail when every call
succeeds. -/
theorem cleanCollection_succeeds (ok : Operation → Bool) (hok : ∀ op, ok op = true)
    (userId : String) (st : ResetState) (c : String) (h : st.failed = false) :
    (cleanCollection ok userId st c).failed = false := by
  simp only [cleanCollection, h, hok, Bool.false_eq_true, if_false, Bool.not_true]
  split
  · exact h
  · exact deleteLoop_succeeds ok hok c _ _ _ st h

/-- The loop over the collections does not fail when every call succeeds. -/
theorem foldl_cleanCollection_succeeds (ok : Operation → Bool) (hok : ∀ op, ok op = true)
    (userId : String) (cs : List String) :
    ∀ st : ResetState, st.failed = false →
      (cs.foldl (cleanCollection ok userId) st).failed = false := by
  induction cs with
  | nil => intro st h; exact h
  | cons c cs ih =>
      intro st h
      exact ih _ (cleanCollection_succeeds ok hok userId st c h)

/-- The loop over the collections does nothing when every query succeeds and is
empty. -/
theorem foldl_cleanCollection_empty (ok : Operation → Bool) (userId : String)
    (cs : List String) (st : ResetState) (hst : st.failed = false)
    (h : ∀ c ∈ cs, ok (Operation.get c) = true ∧ query st.database c userId = []) :
    cs.foldl (cleanCollection ok userId) st = st := by
  induction cs with
  | nil => rfl
  | cons c cs ih =>
      have hc := h c (List.mem_cons_self _ _)
      have hstep : cleanCollection ok userId st c = st := by
        simp [cleanCollection, hst, hc.1, hc.2]
      rw [List.foldl_cons, hstep]
      exact ih (fun c' hc' => h c' (List.mem_cons_of_mem _ hc'))

/-- The answers of an authenticated call, by the state the loop over the
collections ends in. -/
theorem resetUserData_some (data : Option String) (userId : String) (ok : Operation → Bool)
    (db : Database) :
    (resetUserData data (some userId) ok db).commits =
        (collectionsToClean.foldl (cleanCollection ok userId) (startState db)).commits ∧
      (resetUserData data (some userId) ok db).database.documents =
        (collectionsToClean.foldl (cleanCollection ok userId)
          (startState db)).database.documents ∧
      (resetUserData data (some userId) ok db).database.userFinancials.filter
          (fun id => id != userId) =
        (collectionsToClean.foldl (cleanCollection ok userId)
          (startState db)).database.userFinancials.filter (fun id => id != userId) ∧
      (resetUserData data (some userId) ok db).database.profiles.filter
          (fun id => id != userId) =
        (collectionsToClean.foldl (cleanCollection ok userId)
          (startState db)).database.profiles.filter (fun id => id != userId) ∧
      (∀ n, (resetUserData data (some userId) ok db).result = ResetResult.ok n →
        (collectionsToClean.foldl (cleanCollection ok userId) (startState db)).failed = false ∧
        n = (collectionsToClean.foldl (cleanCollection ok userId)
          (startState db)).totalDeleted ∧
        (resetUserData data (some userId) ok db).database.userFinancials =
          (collectionsToClean.foldl (cleanCollection ok userId)
            (startState db)).database.userFinancials.filter (fun id => id != userId) ∧
        (resetUserData data (some userId) ok db).database.profiles =
          (collectionsToClean.foldl (cleanCollection ok userId)
            (startState db)).database.profiles.filter (fun id => id != userId)) ∧
      ((collectionsToClean.foldl (cleanCollection ok userId) (startState db)).failed = false →
        ok Operation.deleteUserFinancials = true → ok Operation.deleteProfile = true →
        (resetUserData data (some userId) ok db).result =
          ResetResult.ok (collectionsToClean.foldl (cleanCollection ok userId)
            (startState db)).totalDeleted) := by
  generalize hF : collectionsToClean.foldl (cleanCollection ok userId) (startState db) = F
  cases hfailed : F.failed with
  | true =>
      have hR : resetUserData data (some userId) ok db =
          { database := F.database, commits := F.commits,
            result := ResetResult.error ResetError.internal } := by
        simp [resetUserData, hF, hfailed]
      rw [hR]
      refine ⟨rfl, rfl, rfl, rfl, ?_, ?_⟩
      · intro n h; exact ResetResult.noConfusion h
      · intro h; exact Bool.noConfusion h
  | false =>
      cases h1 : ok Operation.deleteUserFinancials with
      | false =>
          have hR : resetUserData data (some userId) ok db =
              { database := F.database, commits := F.commits,
                result := ResetResult.error ResetError.internal } := by
            simp [resetUserData, hF, hfailed, h1]
          rw [hR]
          refine ⟨rfl, rfl, rfl, rfl, ?_, ?_⟩
          · intro n h; exact ResetResult.noConfusion h
          · intro _ h; exact Bool.noConfusion h
      | true =>
          cases h2 : ok Operation.deleteProfile with
          | false =>
              have hR : resetUserData data (some userId) ok db =
                  { database := Database.mk F.database.documents
                      (F.database.userFinancials.filter (fun id => id != userId))
                      F.database.profiles,
                    commits := F.commits,
                    result := ResetResult.error ResetError.internal } := by
                simp [resetUserData, hF, hfailed, h1, h2]
              rw [hR]
              refine ⟨rfl, rfl, ?_, rfl, ?_, ?_⟩
              · simp [List.filter_filter]
              · intro n h; exact ResetResult.noConfusion h
              · intro _ _ h; exact Bool.noConfusion h
          | true =>
              have hR : resetUserData data (some userId) ok db =
                  { database := Database.mk F.database.documents
                      (F.database.userFinancials.filter (fun id => id != userId))
                      (F.database.profiles.filter (fun id => id != userId)),
                    commits := F.commits,
                    result := ResetResult.ok F.totalDeleted } := by
                simp [resetUserData, hF, hfailed, h1, h2]
              rw [hR]
              refine ⟨rfl, rfl, ?_, ?_, ?_, ?_⟩
              · simp [List.filter_filter]
              · simp [List.filter_filter]
              · intro n h
                cases h
                exact ⟨rfl, rfl, rfl, rfl⟩
              · intro _ _ _; rfl

/-- No collection is listed twice in `collectionsToClean`. -/
theorem collectionsToClean_nodup : collectionsToClean.Nodup := by decide

end ResetLemmas

/-! ## Claims on the reset of the data of a user -/

section ResetClaims

open Functions

/-- C25. A call of `resetUserData` by an authenticated user in which every call
to the database succeeds answers with a count; and whenever the answer is a count
`n`, then for each of the six collections the batches committed for it, put one
after the other, are exactly the documents of the user in that collection in the
order of the query, each batch holds between 1 and 500 documents, there are
`ceil(k/500)` of them for `k` documents, only the six collections are touched,
and `n` is both the number of documents of the user over the six collections and
the number of documents in the committed batches. -/
theorem reset_batches_and_count (data : Option String) (userId : String)
    (ok : Operation → Bool) (db : Database) :
    ((∀ op, ok op = true) →
        ∃ n, (resetUserData data (some userId) ok db).result = ResetResult.ok n) ∧
      ∀ n, (resetUserData data (some userId) ok db).result = ResetResult.ok n →
        (∀ c ∈ collectionsToClean,
          (commitsOf c (resetUserData data (some userId) ok db).commits).flatten =
              query db c userId ∧
            (∀ b ∈ commitsOf c (resetUserData data (some userId) ok db).commits,
              0 < b.length ∧ b.length ≤ 500) ∧
            (commitsOf c (resetUserData data (some userId) ok db).commits).length =
              ((query db c userId).length + 499) / 500) ∧
          (∀ e ∈ (resetUserData data (some userId) ok db).commits, e.1 ∈ collectionsToClean) ∧
          n = (collectionsToClean.map (fun c => (query db c userId).length)).sum ∧
          n = (((resetUserData data (some userId) ok db).commits.map Prod.snd).flatten).length := by
  obtain ⟨hcommits, _, _, _, hok, hsucc⟩ := resetUserData_some data userId ok db
  obtain ⟨_, g2, g4, hs⟩ := foldl_cleanCollection_spec ok userId db collectionsToClean
  refine ⟨?_, ?_⟩
  · intro hall
    exact ⟨_, hsucc (foldl_cleanCollection_succeeds ok hall userId collectionsToClean
      (startState db) rfl) (hall _) (hall _)⟩
  · intro n hn
    obtain ⟨hfailed, htotal, _, _⟩ := hok n hn
    obtain ⟨hsum, hper⟩ := (hs hfailed).2 collectionsToClean_nodup
    rw [hcommits]
    refine ⟨?_, ?_, ?_, ?_⟩
    · intro c hc
      refine ⟨(hper c hc).1, ?_, (hper c hc).2⟩
      intro b hb
      simp only [commitsOf, List.mem_map, List.mem_filter] at hb
      obtain ⟨e, ⟨he, _⟩, rfl⟩ := hb
      exact ⟨(g2 e he).2.1, (g2 e he).2.2.1⟩
    · intro e he
      exact (g2 e he).1
    · rw [htotal, hsum]
    · rw [htotal, g4]

/-- C25 at a concrete input: the reset of 'u1' in `resetDatabase` commits one
batch of three transactions and one batch of one loan, and answers 4. -/
theorem reset_batches_and_count_witness :
    (resetUserData none (some "u1") allSucceed resetDatabase).result = ResetResult.ok 4 ∧
      (commitsOf "transactions"
        (resetUserData none (some "u1") allSucceed resetDatabase).commits).flatten =
        query resetDatabase "transactions" "u1" ∧
      (commitsOf "transactions"
        (resetUserData none (some "u1") allSucceed resetDatabase).commits).length = 1 ∧
      4 = (collectionsToClean.map (fun c => (query resetDatabase c "u1").length)).sum :=
  have h := (reset_batches_and_count none "u1" allSucceed resetDatabase).2 4 (by decide)
  ⟨by decide, (h.1 "transactions" (by decide)).1, by decide, h.2.2.1⟩

/-- C26. When `resetUserData` has answered an authenticated user with a count,
no document of that user is left in the six collections and the user has no
document in `userFinancials` nor in `profiles`; a second call on the resulting
database, in which the queries and the two deletions succeed, commits no batch,
answers the count 0 and leaves the database as it is. -/
theorem reset_is_idempotent (data again : Option String) (userId : String)
    (ok okAgain : Operation → Bool) (db : Database) (n : Nat)
    (h : (resetUserData data (some userId) ok db).result = ResetResult.ok n)
    (hget : ∀ c ∈ collectionsToClean, okAgain (Operation.get c) = true)
    (hfin : okAgain Operation.deleteUserFinancials = true)
    (hprof : okAgain Operation.deleteProfile = true) :
    (∀ d ∈ (resetUserData data (some userId) ok db).database.documents,
        d.collection ∈ collectionsToClean → d.userId ≠ userId) ∧
      userId ∉ (resetUserData data (some userId) ok db).database.userFinancials ∧
      userId ∉ (resetUserData data (some userId) ok db).database.profiles ∧
      resetUserData again (some userId) okAgain
          (resetUserData data (some userId) ok db).database =
        { database := (resetUserData data (some userId) ok db).database, commits := [],
          result := ResetResult.ok 0 } := by
  obtain ⟨hcommits, hdocs, _, _, hok, _⟩ := resetUserData_some data userId ok db
  obtain ⟨g1, g2, _, hs⟩ := foldl_cleanCollection_spec ok userId db collectionsToClean
  obtain ⟨hfailed, _, huf, hpr⟩ := hok n h
  obtain ⟨_, hper⟩ := (hs hfailed).2 collectionsToClean_nodup
  have hnone : ∀ d ∈ (resetUserData data (some userId) ok db).database.documents,
      d.collection ∈ collectionsToClean → d.userId ≠ userId := by
    intro d hd hc huser
    rw [hdocs, g1] at hd
    simp only [deleteBatch, List.mem_filter, Bool.not_eq_true', List.any_eq_false,
      Bool.and_eq_true, beq_iff_eq, not_and] at hd
    obtain ⟨hin, hnot⟩ := hd
    have hq : d ∈ query db d.collection userId := by
      simp [query, hin, huser]
    rw [← (hper d.collection hc).1] at hq
    obtain ⟨b, hb, hdb⟩ := List.mem_flatten.mp hq
    simp only [commitsOf, List.mem_map, List.mem_filter] at hb
    obtain ⟨e, ⟨he, _⟩, rfl⟩ := hb
    exact hnot d (List.mem_flatten.mpr ⟨e.2, List.mem_map.mpr ⟨e, he, rfl⟩, hdb⟩) rfl rfl
  have hufnot : userId ∉ (resetUserData data (some userId) ok db).database.userFinancials := by
    rw [huf]; simp
  have hprnot : userId ∉ (resetUserData data (some userId) ok db).database.profiles := by
    rw [hpr]; simp
  refine ⟨hnone, hufnot, hprnot, ?_⟩
  generalize (resetUserData data (some userId) ok db).database = db1 at hnone hufnot hprnot
  have hfold : collectionsToClean.foldl (cleanCollection okAgain userId) (startState db1) =
      startState db1 := by
    apply foldl_cleanCollection_empty okAgain userId collectionsToClean (startState db1) rfl
    intro c hc
    refine ⟨hget c hc, ?_⟩
    simp only [query, startState, List.filter_eq_nil_iff, Bool.and_eq_true, beq_iff_eq, not_and]
    intro d hd hcol
    exact hnone d hd (hcol ▸ hc)
  have h1 : db1.userFinancials.filter (fun id => id != userId) = db1.userFinancials := by
    apply List.filter_eq_self.mpr
    intro id hid
    simp only [bne_iff_ne, ne_eq]
    intro heq
    exact hufnot (heq ▸ hid)
  have h2 : db1.profiles.filter (fun id => id != userId) = db1.profiles := by
    apply List.filter_eq_self.mpr
    intro id hid
    simp only [bne_iff_ne, ne_eq]
    intro heq
    exact hprnot (heq ▸ hid)
  simp only [resetUserData, hfold]
  simp [startState, hfin, hprof, h1, h2]

/-- C26 at a concrete input: after the reset of 'u1' in `resetDatabase` only the
transaction, the financial document and the profile of 'u2' are left, and a
second reset answers 0. -/
theorem reset_is_idempotent_witness :
    (resetUserData none (some "u1") allSucceed resetDatabase).database =
        { documents := [{ collection := "transactions", id := "x2", userId := "u2" }],
          userFinancials := ["u2"], profiles := ["u2"] } ∧
      resetUserData none (some "u1") allSucceed
          (resetUserData none (some "u1") allSucceed resetDatabase).database =
        { database := (resetUserData none (some "u1") allSucceed resetDatabase).database,
          commits := [], result := ResetResult.ok 0 } :=
  ⟨by decide,
    (reset_is_idempotent none none "u1" allSucceed allSucceed resetDatabase 4 (by decide)
      (fun _ _ => rfl) rfl rfl).2.2.2⟩

/-- C27. A call without an authenticated user answers 'unauthenticated', commits
no batch and leaves the database as it is, whatever calls to the database would
succeed. The answer of a call never depends on the request data. For an
authenticated call, with any failures, every document in a committed batch has
the `userId` of the caller, the documents left are those of the database that do
not lie at the path of a committed document, the `userFinancials` and `profiles`
documents of the other users are kept, and, when no two documents share a path,
the documents of the other users are all kept. -/
theorem reset_requires_authentication (data other : Option String) (auth : Option String)
    (userId : String) (ok : Operation → Bool) (db : Database) :
    resetUserData data none ok db =
        { database := db, commits := [],
          result := ResetResult.error ResetError.unauthenticated } ∧
      resetUserData data auth ok db = resetUserData other auth ok db ∧
      (∀ e ∈ (resetUserData data (some userId) ok db).commits,
        ∀ b ∈ e.2, b ∈ db.documents ∧ b.userId = userId) ∧
      (resetUserData data (some userId) ok db).database.documents =
        (deleteBatch (((resetUserData data (some userId) ok db).commits.map Prod.snd).flatten)
          db).documents ∧
      (resetUserData data (some userId) ok db).database.userFinancials.filter
          (fun id => id != userId) = db.userFinancials.filter (fun id => id != userId) ∧
      (resetUserData data (some userId) ok db).database.profiles.filter
          (fun id => id != userId) = db.profiles.filter (fun id => id != userId) ∧
      ((db.documents.map (fun d => (d.collection, d.id))).Nodup →
        (resetUserData data (some userId) ok db).database.documents.filter
            (fun d => d.userId != userId) =
          db.documents.filter (fun d => d.userId != userId)) := by
  obtain ⟨hcommits, hdocs, huf, hpr, _, _⟩ := resetUserData_some data userId ok db
  obtain ⟨g1, g2, _, _⟩ := foldl_cleanCollection_spec ok userId db collectionsToClean
  have hown : ∀ e ∈ (resetUserData data (some userId) ok db).commits,
      ∀ b ∈ e.2, b ∈ db.documents ∧ b.userId = userId := by
    intro e he b hb
    rw [hcommits] at he
    exact ⟨((g2 e he).2.2.2 b hb).1, ((g2 e he).2.2.2 b hb).2.1⟩
  have hleft : (resetUserData data (some userId) ok db).database.documents =
      (deleteBatch (((resetUserData data (some userId) ok db).commits.map Prod.snd).flatten)
        db).documents := by
    rw [hdocs, hcommits, ← g1]
  refine ⟨rfl, rfl, hown, hleft, ?_, ?_, ?_⟩
  · rw [huf, g1]; rfl
  · rw [hpr, g1]; rfl
  · intro hnodup
    rw [hleft]
    simp only [deleteBatch, List.filter_filter]
    apply List.filter_congr
    intro d hd
    cases hu : (d.userId != userId) with
    | false => rfl
    | true =>
        simp only [Bool.true_and, Bool.not_eq_true', List.any_eq_false, Bool.and_eq_true,
          beq_iff_eq, not_and]
        intro b hb hcol hid
        obtain ⟨l, hl, hbl⟩ := List.mem_flatten.mp hb
        obtain ⟨e, he, rfl⟩ := List.mem_map.mp hl
        obtain ⟨hbin, hbuser⟩ := hown e he b hbl
        have heq : b = d :=
          List.inj_on_of_nodup_map hnodup hbin hd (by rw [hcol, hid])
        rw [heq] at hbuser
        simp [hbuser] at hu

/-- C27 at a concrete input: in `resetDatabase` no two documents share a path,
and the reset of 'u1' keeps the transaction of 'u2'. -/
theorem reset_requires_authentication_witness :
    (resetDatabase.documents.map (fun d => (d.collection, d.id))).Nodup ∧
      (resetUserData (some "u2") (some "u1") allSucceed resetDatabase).database.documents.filter
          (fun d => d.userId != "u1") =
        [{ collection := "transactions", id := "x2", userId := "u2" }] :=
  ⟨by decide,
    ((reset_requires_authentication (some "u2") none none "u1" allSucceed
      resetDatabase).2.2.2.2.2.2 (by decide)).trans (by decide)⟩

end ResetClaims

end AstroFinance
